import Mathlib

/-! Input sensors: debounced button and scanned button matrix.

A shallow embedding of `src/button_sensor.{h,cpp}` and `src/matrix_sensor.{h,cpp}`.

* Machine integers (`uint8_t`) are natural numbers; every place where the C++
  arithmetic is truncated to eight bits carries an explicit `% 256`.
* Member functions become pure functions on the object state.  A function that
  returns a value and mutates the object returns the pair (value, new state).
* Hardware reads (`digitalRead`) are inputs of `scan`: the sampled level is passed
  in as a Boolean that says whether the input is at its active level.
* Fixed-size C arrays are total maps from the index; a write is `setAt`.
-/

namespace Sensor

/-! ## Shared value types (declared in `sensor.h`) -/

/-- Modelled from the spec: `sensor.h` is not part of the sources; section 3 of the
specification lists the variants of the sensor kind carried by a `Reading`. -/
inductive InputType where
  | Button
  | Matrix
  | Analog
deriving DecidableEq, Repr

/-- Modelled from the spec: `sensor.h` is not part of the sources; section 3 of the
specification gives the fields of the common output value. `Reading(v, t, p)` in
the sources builds a value that carries an event (`has_value = true`). -/
structure Reading where
  has_value : Bool
  value : Int
  type : InputType
  pin : Nat
deriving DecidableEq, Repr

/-- Modelled from the spec: the default-constructed `Reading()`, the canonical
"nothing to report" sentinel (`has_value = false`; the other fields carry no meaning). -/
def Reading.empty : Reading :=
  { has_value := false, value := 0, type := InputType.Button, pin := 0 }

/-- Modelled from the spec: the three-argument constructor `Reading(value, type, pin)`,
which carries an event. -/
def Reading.event (value : Int) (type : InputType) (pin : Nat) : Reading :=
  { has_value := true, value := value, type := type, pin := pin }

/-! ## ButtonSensor (`button_sensor.h`, `button_sensor.cpp`) -/

/-- The data members of `class ButtonSensor`. -/
structure ButtonSensor where
  pin : Nat
  debounce_threshold : Nat
  current_state : Bool
  last_reported : Bool
  raw_state : Bool
  debounce_count : Nat
  has_pending_event : Bool
deriving DecidableEq, Repr

namespace ButtonSensor

/-- The constructor `ButtonSensor::ButtonSensor(pin_number, debounce_scans)`. -/
def construct (pin_number debounce_scans : Nat) : ButtonSensor :=
  { pin := pin_number
    debounce_threshold := debounce_scans
    current_state := false
    last_reported := false
    raw_state := false
    debounce_count := 0
    has_pending_event := false }

/-- The state part of `ButtonSensor::begin()` (the `pinMode` call only touches hardware). -/
def begin (s : ButtonSensor) : ButtonSensor :=
  { s with
    current_state := false
    last_reported := false
    raw_state := false
    debounce_count := 0
    has_pending_event := false }

/-- One call of `ButtonSensor::scan()`; `new_raw` is `digitalRead(pin) == LOW`. -/
def scan (s : ButtonSensor) (new_raw : Bool) : ButtonSensor :=
  let s1 : ButtonSensor :=
    if new_raw = s.current_state then
      { s with debounce_count := 0 }
    else
      let s2 : ButtonSensor := { s with debounce_count := (s.debounce_count + 1) % 256 }
      if s2.debounce_count ≥ s2.debounce_threshold then
        let s3 : ButtonSensor := { s2 with current_state := new_raw, debounce_count := 0 }
        if s3.current_state ≠ s3.last_reported then
          { s3 with has_pending_event := true }
        else
          s3
      else
        s2
  { s1 with raw_state := new_raw }

/-- One call of `ButtonSensor::getReading()`: the returned value and the new state. -/
def getReading (s : ButtonSensor) : Reading × ButtonSensor :=
  if s.has_pending_event = false then
    (Reading.empty, s)
  else
    let value : Int := if s.current_state then 1 else 0
    let s1 : ButtonSensor := { s with last_reported := s.current_state }
    let s2 : ButtonSensor := { s1 with has_pending_event := false }
    (Reading.event value InputType.Button s2.pin, s2)

/-- The loop `for (i = 0; i < n; i++) sensor.scan();` with the input held at `raw`. -/
def scanRepeat (s : ButtonSensor) (raw : Bool) : Nat → ButtonSensor
  | 0 => s
  | n + 1 => scanRepeat (s.scan raw) raw n

/-- A call made by a driver on a `ButtonSensor`. -/
inductive Call where
  | scan (raw : Bool)
  | getReading
deriving DecidableEq, Repr

/-- The non-empty readings returned, in order, while the calls are made one after another. -/
def readings (s : ButtonSensor) : List Call → List Reading
  | [] => []
  | Call.scan raw :: cs => readings (s.scan raw) cs
  | Call.getReading :: cs =>
      let r := s.getReading
      if r.1.has_value then r.1 :: readings r.2 cs else readings r.2 cs

/-- The state after the calls have been made one after another. -/
def runCalls (s : ButtonSensor) : List Call → ButtonSensor
  | [] => s
  | Call.scan raw :: cs => runCalls (s.scan raw) cs
  | Call.getReading :: cs => runCalls s.getReading.2 cs

/-- No `scan()` of the sequence accepts a transition while an earlier event is still
pending: a `getReading()` is made between any two accepted transitions. -/
def paced (s : ButtonSensor) : List Call → Bool
  | [] => true
  | Call.scan raw :: cs =>
      (!s.has_pending_event || (s.scan raw).current_state == s.current_state)
        && paced (s.scan raw) cs
  | Call.getReading :: cs => paced s.getReading.2 cs

/-- The driver pattern: no `scan()` follows another `scan()` without a `getReading()` in
between. The flag tells whether the call just before the list was a `scan()`. -/
def readAfterEveryScan : Bool → List Call → Bool
  | _, [] => true
  | _, Call.getReading :: cs => readAfterEveryScan false cs
  | false, Call.scan _ :: cs => readAfterEveryScan true cs
  | true, Call.scan _ :: _ => false

/-- Nothing is pending and the reported state is the debounced state. -/
def reported (s : ButtonSensor) : Prop :=
  s.has_pending_event = false ∧ s.last_reported = s.current_state

/-- The pending flag is set exactly when the debounced state differs from the reported one. -/
def synced (s : ButtonSensor) : Prop :=
  s.has_pending_event = true ↔ s.current_state ≠ s.last_reported

/-- The reading that repeats `last_reported`: the value the consumer saw last. -/
def lastReading (s : ButtonSensor) : Reading :=
  Reading.event (if s.last_reported then 1 else 0) InputType.Button s.pin

end ButtonSensor

/-- Two readings carry opposite values (a press and a release). -/
def Reading.opposite (a b : Reading) : Prop := a.value ≠ b.value

/-! ## MatrixSensor (`matrix_sensor.h`, `matrix_sensor.cpp`) -/

/-- The array write `a[i] = v`. -/
def setAt {α : Type} (a : Nat → α) (i : Nat) (v : α) : Nat → α :=
  fun j => if j = i then v else a j

/-- The nested `struct PendingEvent` of `class MatrixSensor`. -/
structure PendingEvent where
  button_index : Nat
  pressed : Bool
deriving DecidableEq, Repr

/-- The data members of `class MatrixSensor`. -/
structure MatrixSensor where
  num_rows : Nat
  num_cols : Nat
  row_pins : Nat → Nat
  col_pins : Nat → Nat
  current_state : Nat → Bool
  last_reported : Nat → Bool
  debounce_count : Nat → Nat
  event_queue : Nat → PendingEvent
  queue_head : Nat
  queue_tail : Nat
  debounce_threshold : Nat

namespace MatrixSensor

abbrev MAX_ROWS : Nat := 8
abbrev MAX_COLS : Nat := 8
abbrev MAX_BUTTONS : Nat := (MAX_ROWS * MAX_COLS) % 256
abbrev VIRTUAL_PIN_BASE : Nat := 128
abbrev DEFAULT_DEBOUNCE : Nat := 3
abbrev EVENT_QUEUE_SIZE : Nat := 8

/-- The constructor `MatrixSensor::MatrixSensor(rows, cols, row_pin_array, col_pin_array)`.
The members that the constructor does not write (the event queue, the pin entries past the
dimensions) keep whatever the object storage `mem` held. -/
def construct (mem : MatrixSensor) (rows cols : Nat) (row_pin_array col_pin_array : Nat → Nat) :
    MatrixSensor :=
  let num_rows := if rows < MAX_ROWS then rows else MAX_ROWS
  let num_cols := if cols < MAX_COLS then cols else MAX_COLS
  { num_rows := num_rows
    num_cols := num_cols
    row_pins := fun i => if i < num_rows then row_pin_array i else mem.row_pins i
    col_pins := fun i => if i < num_cols then col_pin_array i else mem.col_pins i
    current_state := fun _ => false
    last_reported := fun _ => false
    debounce_count := fun _ => 0
    event_queue := mem.event_queue
    queue_head := 0
    queue_tail := 0
    debounce_threshold := DEFAULT_DEBOUNCE }

/-- The state part of `MatrixSensor::begin()` (`pinMode`, `digitalWrite` only touch hardware). -/
def begin (s : MatrixSensor) : MatrixSensor :=
  { s with
    current_state := fun _ => false
    last_reported := fun _ => false
    debounce_count := fun _ => 0
    queue_head := 0
    queue_tail := 0 }

/-- `MatrixSensor::isQueueEmpty()`. -/
def isQueueEmpty (s : MatrixSensor) : Bool := s.queue_head == s.queue_tail

/-- `MatrixSensor::buttonIndex(row, col)`, truncated to `uint8_t`. -/
def buttonIndex (s : MatrixSensor) (row col : Nat) : Nat := (row * s.num_cols + col) % 256

/-- `MatrixSensor::virtualPin(button_index)`, truncated to `uint8_t`. -/
def virtualPin (_s : MatrixSensor) (button_index : Nat) : Nat :=
  (VIRTUAL_PIN_BASE + button_index) % 256

/-- `MatrixSensor::enqueueEvent(button_index, pressed)`. -/
def enqueueEvent (s : MatrixSensor) (button_index : Nat) (pressed : Bool) : MatrixSensor :=
  let next_tail := (s.queue_tail + 1) % EVENT_QUEUE_SIZE
  let s1 : MatrixSensor :=
    if next_tail = s.queue_head then
      { s with queue_head := (s.queue_head + 1) % EVENT_QUEUE_SIZE }
    else
      s
  let s2 : MatrixSensor :=
    { s1 with event_queue := setAt s1.event_queue s1.queue_tail
                { button_index := button_index, pressed := pressed } }
  { s2 with queue_tail := next_tail }

/-- `MatrixSensor::scanButton(row, col, raw_pressed)`. -/
def scanButton (s : MatrixSensor) (row col : Nat) (raw_pressed : Bool) : MatrixSensor :=
  let idx := s.buttonIndex row col
  if raw_pressed = s.current_state idx then
    { s with debounce_count := setAt s.debounce_count idx 0 }
  else
    let s1 : MatrixSensor :=
      { s with debounce_count := setAt s.debounce_count idx ((s.debounce_count idx + 1) % 256) }
    if s1.debounce_count idx ≥ s1.debounce_threshold then
      let s2 : MatrixSensor := { s1 with current_state := setAt s1.current_state idx raw_pressed }
      let s3 : MatrixSensor := { s2 with debounce_count := setAt s2.debounce_count idx 0 }
      if s3.current_state idx ≠ s3.last_reported idx then
        s3.enqueueEvent idx (s3.current_state idx)
      else
        s3
    else
      s1

/-- The inner loop of `MatrixSensor::scan()`: the columns of one driven row;
`raw row col` is `digitalRead(col_pins[col]) == LOW` while `row` is driven. -/
def scanRow (s : MatrixSensor) (raw : Nat → Nat → Bool) (row : Nat) : MatrixSensor :=
  (List.range s.num_cols).foldl (fun st col => st.scanButton row col (raw row col)) s

/-- One call of `MatrixSensor::scan()`. -/
def scan (s : MatrixSensor) (raw : Nat → Nat → Bool) : MatrixSensor :=
  (List.range s.num_rows).foldl (fun st row => st.scanRow raw row) s

/-- One call of `MatrixSensor::getReading()`: the returned value and the new state. -/
def getReading (s : MatrixSensor) : Reading × MatrixSensor :=
  if s.isQueueEmpty then
    (Reading.empty, s)
  else
    let event := s.event_queue s.queue_head
    let s1 : MatrixSensor := { s with queue_head := (s.queue_head + 1) % EVENT_QUEUE_SIZE }
    let s2 : MatrixSensor :=
      { s1 with last_reported := setAt s1.last_reported event.button_index event.pressed }
    let value : Int := if event.pressed then 1 else 0
    let pin := s2.virtualPin event.button_index
    (Reading.event value InputType.Matrix pin, s2)

/-- The states a sensor object can be in: built by the constructor (from `uint8_t`
arguments), then driven by `begin()`, `scan()` and `getReading()` in any order. -/
inductive Reachable : MatrixSensor → Prop
  | construct (mem : MatrixSensor) (rows cols : Nat) (row_pin_array col_pin_array : Nat → Nat) :
      rows < 256 → cols < 256 →
      Reachable (construct mem rows cols row_pin_array col_pin_array)
  | begin {s : MatrixSensor} : Reachable s → Reachable s.begin
  | scan {s : MatrixSensor} (raw : Nat → Nat → Bool) : Reachable s → Reachable (s.scan raw)
  | getReading {s : MatrixSensor} : Reachable s → Reachable s.getReading.2

/-- The number of unread entries of the circular event queue. -/
def queueCount (s : MatrixSensor) : Nat :=
  (s.queue_tail + EVENT_QUEUE_SIZE - s.queue_head) % EVENT_QUEUE_SIZE

/-- Both queue indices are valid positions of `event_queue`. -/
def QueueInRange (s : MatrixSensor) : Prop :=
  s.queue_head < EVENT_QUEUE_SIZE ∧ s.queue_tail < EVENT_QUEUE_SIZE

/-- Every in-range cell other than `(row, col)` is at rest under the input `raw`: its
debounced state equals its raw sample and its counter is 0. -/
def QuietExcept (s : MatrixSensor) (raw : Nat → Nat → Bool) (row col : Nat) : Prop :=
  ∀ r c, r < s.num_rows → c < s.num_cols → (r ≠ row ∨ c ≠ col) →
    s.current_state (s.buttonIndex r c) = raw r c ∧ s.debounce_count (s.buttonIndex r c) = 0

/-- The reading that `getReading()` builds from the queue entry it removes. -/
def eventReading (e : PendingEvent) : Reading :=
  Reading.event (if e.pressed then 1 else 0) InputType.Matrix
    ((VIRTUAL_PIN_BASE + e.button_index) % 256)

/-- The `n` entries of the circular buffer `q` from position `pos` on, wrapping around. -/
def entriesFrom (q : Nat → PendingEvent) (pos : Nat) : Nat → List PendingEvent
  | 0 => []
  | n + 1 => q (pos % EVENT_QUEUE_SIZE) :: entriesFrom q (pos + 1) n

/-- The unread entries of the event queue, oldest first. -/
def queueContents (s : MatrixSensor) : List PendingEvent :=
  entriesFrom s.event_queue s.queue_head s.queueCount

/-- A queue of at most 7 entries seen as a list: adding an entry to a full queue first
drops the oldest one. -/
def push (q : List PendingEvent) (e : PendingEvent) : List PendingEvent :=
  (if q.length = EVENT_QUEUE_SIZE - 1 then q.tail else q) ++ [e]

/-- The calls `enqueueEvent(e.button_index, e.pressed)` for the entries of a list, in order. -/
def enqueueAll (s : MatrixSensor) (es : List PendingEvent) : MatrixSensor :=
  es.foldl (fun st e => st.enqueueEvent e.button_index e.pressed) s

/-- The driver loop `while ((r = getReading()).has_value) forward(r);`, run for at most
`fuel` non-empty readings: the readings forwarded and the state the loop ends in. -/
def drain (s : MatrixSensor) : Nat → List Reading × MatrixSensor
  | 0 => ([], s)
  | fuel + 1 =>
      if s.getReading.1.has_value then
        (s.getReading.1 :: (drain s.getReading.2 fuel).1, (drain s.getReading.2 fuel).2)
      else
        ([], s.getReading.2)

/-- The state after `k` consecutive `getReading()` calls. -/
def afterReadings (s : MatrixSensor) : Nat → MatrixSensor
  | 0 => s
  | k + 1 => afterReadings s.getReading.2 k

/-- The cells in the order in which `scan()` visits them: row by row, column by column. -/
def cellList (s : MatrixSensor) : List (Nat × Nat) :=
  (List.range s.num_rows).flatMap (fun r => (List.range s.num_cols).map (fun c => (r, c)))

/-- The calls `scanButton(row, col, raw row col)` for the cells of a list, in order. -/
def scanCells (s : MatrixSensor) (raw : Nat → Nat → Bool) (l : List (Nat × Nat)) : MatrixSensor :=
  l.foldl (fun st rc => st.scanButton rc.1 rc.2 (raw rc.1 rc.2)) s

/-- The debounce state of one cell, seen as a `ButtonSensor` with nothing pending. -/
def cellSensor (s : MatrixSensor) (idx : Nat) : ButtonSensor :=
  { pin := s.virtualPin idx
    debounce_threshold := s.debounce_threshold
    current_state := s.current_state idx
    last_reported := s.last_reported idx
    raw_state := false
    debounce_count := s.debounce_count idx
    has_pending_event := false }

/-- The event, if any, that the cell `(row, col)` queues when it samples `raw_pressed`. -/
def cellEvent (s : MatrixSensor) (row col : Nat) (raw_pressed : Bool) : Option PendingEvent :=
  if ((s.cellSensor (s.buttonIndex row col)).scan raw_pressed).has_pending_event then
    some { button_index := s.buttonIndex row col
           pressed := ((s.cellSensor (s.buttonIndex row col)).scan raw_pressed).current_state }
  else
    none

/-- The events that the cells of a list queue in one scan, in order. -/
def cellEvents (s : MatrixSensor) (raw : Nat → Nat → Bool) (l : List (Nat × Nat)) :
    List PendingEvent :=
  l.filterMap (fun rc => s.cellEvent rc.1 rc.2 (raw rc.1 rc.2))

/-- Every in-range cell is at rest and reported: its counter is 0 and its `last_reported`
equals its debounced state. -/
def Settled (s : MatrixSensor) : Prop :=
  ∀ r c, r < s.num_rows → c < s.num_cols →
    s.debounce_count (s.buttonIndex r c) = 0 ∧
    s.last_reported (s.buttonIndex r c) = s.current_state (s.buttonIndex r c)

/-- The state `t` reached from the settled state `s0` by `j` scans with the input held at
`raw` and no scan accepted yet: the cells whose input differs have counted to `j`. -/
def Held (s0 t : MatrixSensor) (raw : Nat → Nat → Bool) (j : Nat) : Prop :=
  t.num_rows = s0.num_rows ∧ t.num_cols = s0.num_cols ∧
  t.debounce_threshold = s0.debounce_threshold ∧
  t.QueueInRange ∧ t.queueContents = s0.queueContents ∧
  ∀ r c, r < s0.num_rows → c < s0.num_cols →
    t.current_state (s0.buttonIndex r c) = s0.current_state (s0.buttonIndex r c) ∧
    t.last_reported (s0.buttonIndex r c) = s0.current_state (s0.buttonIndex r c) ∧
    t.debounce_count (s0.buttonIndex r c)
      = if raw r c = s0.current_state (s0.buttonIndex r c) then 0 else j

/-- The event that a cell of the settled state `s0` queues once the input `raw`, held for
three scans, is accepted: none when the input equals the debounced state. -/
def heldEvent (s0 : MatrixSensor) (raw : Nat → Nat → Bool) (rc : Nat × Nat) :
    Option PendingEvent :=
  if raw rc.1 rc.2 = s0.current_state (s0.buttonIndex rc.1 rc.2) then none
  else some { button_index := s0.buttonIndex rc.1 rc.2, pressed := raw rc.1 rc.2 }

/-- The facts kept by the constructor and every member function: clamped dimensions, the
default threshold, valid queue indices, and unread queue entries that name cells of the
matrix. -/
def WellFormed (s : MatrixSensor) : Prop :=
  s.num_rows ≤ MAX_ROWS ∧ s.num_cols ≤ MAX_COLS ∧ s.debounce_threshold = DEFAULT_DEBOUNCE ∧
  s.QueueInRange ∧ ∀ e ∈ s.queueContents, e.button_index < s.num_rows * s.num_cols

/-- The calls `scan()` for a sequence of matrix inputs, in order. -/
def scanAll (s : MatrixSensor) (raws : List (Nat → Nat → Bool)) : MatrixSensor :=
  raws.foldl (fun st raw => st.scan raw) s

/-- The input `raw` samples every in-range cell at its debounced state. -/
def holds (s : MatrixSensor) (raw : Nat → Nat → Bool) : Bool :=
  s.cellList.all (fun rc => raw rc.1 rc.2 == s.current_state (s.buttonIndex rc.1 rc.2))

/-- Every scan of the sequence samples every in-range cell at the debounced state the cell
has when that scan starts. -/
def holdsAll (s : MatrixSensor) : List (Nat → Nat → Bool) → Bool
  | [] => true
  | raw :: raws => s.holds raw && holdsAll (s.scan raw) raws

/-- The writes `last_reported[e.button_index] = e.pressed` that `getReading()` makes for the
entries of a list, in order. -/
def reportAll (last : Nat → Bool) (es : List PendingEvent) : Nat → Bool :=
  es.foldl (fun l e => setAt l e.button_index e.pressed) last

/-- One round of the driver loop: `scan()`, then `getReading()` until it returns empty (at
most `fuel` non-empty readings): the readings forwarded and the state after the round. -/
def tick (s : MatrixSensor) (raw : Nat → Nat → Bool) (fuel : Nat) : List Reading × MatrixSensor :=
  (s.scan raw).drain fuel

/-- The driver loop for a sequence of matrix inputs, one round per input: all readings
forwarded, in order, and the final state. -/
def runTicks (s : MatrixSensor) (fuel : Nat) :
    List (Nat → Nat → Bool) → List Reading × MatrixSensor
  | [] => ([], s)
  | raw :: raws =>
      ((s.tick raw fuel).1 ++ (runTicks (s.tick raw fuel).2 fuel raws).1,
       (runTicks (s.tick raw fuel).2 fuel raws).2)

/-- The number of edges that the scan with input `raw` accepts: the in-range cells whose
debounced state it changes. -/
def acceptedEdges (s : MatrixSensor) (raw : Nat → Nat → Bool) : Nat :=
  (s.cellList.filter (fun rc =>
    (s.scan raw).current_state (s.buttonIndex rc.1 rc.2)
      != s.current_state (s.buttonIndex rc.1 rc.2))).length

/-- No scan of the driver loop accepts more edges than the queue can hold. -/
def noOverflow (s : MatrixSensor) (fuel : Nat) : List (Nat → Nat → Bool) → Bool
  | [] => true
  | raw :: raws =>
      decide (s.acceptedEdges raw ≤ EVENT_QUEUE_SIZE - 1) &&
        noOverflow (s.tick raw fuel).2 fuel raws

/-- Every in-range cell has been reported: its `last_reported` equals its debounced state. -/
def InSync (s : MatrixSensor) : Prop :=
  ∀ r c, r < s.num_rows → c < s.num_cols →
    s.last_reported (s.buttonIndex r c) = s.current_state (s.buttonIndex r c)

/-- Object storage with every byte zero, as a place to construct a sensor in. -/
def zeroed : MatrixSensor :=
  { num_rows := 0
    num_cols := 0
    row_pins := fun _ => 0
    col_pins := fun _ => 0
    current_state := fun _ => false
    last_reported := fun _ => false
    debounce_count := fun _ => 0
    event_queue := fun _ => { button_index := 0, pressed := false }
    queue_head := 0
    queue_tail := 0
    debounce_threshold := 0 }

/-- The matrix input in which exactly the cell `(row, col)` is held active. -/
def onlyCell (row col : Nat) : Nat → Nat → Bool :=
  fun r c => r == row && c == col

/-- The matrix input in which exactly the cells of the list are held active. -/
def cellsActive (cells : List (Nat × Nat)) : Nat → Nat → Bool :=
  fun r c => cells.contains (r, c)

/-- The 3x4 matrix of the test suite: rows on pins 2, 3, 4 and columns on pins 5, 6, 7, 8. -/
def testMatrix : MatrixSensor :=
  construct zeroed 3 4 (fun i => [2, 3, 4].getD i 0) (fun i => [5, 6, 7, 8].getD i 0)

/-- The 4x4 matrix of the overflow test: rows on pins 2..5 and columns on pins 6..9. -/
def testMatrix4x4 : MatrixSensor :=
  construct zeroed 4 4 (fun i => [2, 3, 4, 5].getD i 0) (fun i => [6, 7, 8, 9].getD i 0)

/-- All 16 cells of a 4x4 matrix. -/
def allCells4x4 : List (Nat × Nat) :=
  [(0, 0), (0, 1), (0, 2), (0, 3), (1, 0), (1, 1), (1, 2), (1, 3),
   (2, 0), (2, 1), (2, 2), (2, 3), (3, 0), (3, 1), (3, 2), (3, 3)]

/-- The 2x2 matrix of the test suite: rows on pins 2, 3 and columns on pins 5, 6. -/
def testMatrix2x2 : MatrixSensor :=
  construct zeroed 2 2 (fun i => [2, 3].getD i 0) (fun i => [5, 6].getD i 0)

/-- The inputs of a run that overflows the queue of the 4x4 matrix: all 16 cells held for
three scans, released for three scans, and held again for three scans. -/
def overflowInputs : List (Nat → Nat → Bool) :=
  List.replicate 3 (cellsActive allCells4x4) ++ List.replicate 3 (cellsActive []) ++
    List.replicate 3 (cellsActive allCells4x4)

/-- The inputs of a run on the 3x4 matrix that never overflows: the cells (0,0) and (1,1)
held for three scans and released for three scans. -/
def twoCellInputs : List (Nat → Nat → Bool) :=
  List.replicate 3 (cellsActive [(0, 0), (1, 1)]) ++ List.replicate 3 (cellsActive [])

/-- The 3x4 test matrix after `begin()` and three scans with the cells of the list held. -/
def heldForThreeScans (cells : List (Nat × Nat)) : MatrixSensor :=
  ((testMatrix.begin.scan (cellsActive cells)).scan (cellsActive cells)).scan (cellsActive cells)

end MatrixSensor

end Sensor

namespace Sensor

/-! ## ButtonSensor: helper lemmas -/

theorem ButtonSensor.scan_agree (s : ButtonSensor) :
    s.scan s.current_state = { s with debounce_count := 0, raw_state := s.current_state } := by
  simp [ButtonSensor.scan]

theorem ButtonSensor.scan_disagree_below (s : ButtonSensor) (raw : Bool)
    (hraw : raw ≠ s.current_state) (hlt : s.debounce_count + 1 < s.debounce_threshold)
    (hthr : s.debounce_threshold ≤ 255) :
    s.scan raw = { s with debounce_count := s.debounce_count + 1, raw_state := raw } := by
  have hmod : (s.debounce_count + 1) % 256 = s.debounce_count + 1 :=
    Nat.mod_eq_of_lt (by omega)
  unfold ButtonSensor.scan
  dsimp only
  rw [if_neg hraw, hmod, if_neg (by omega)]

theorem ButtonSensor.scan_disagree_reach (s : ButtonSensor) (raw : Bool)
    (hraw : raw ≠ s.current_state) (hge : s.debounce_threshold ≤ s.debounce_count + 1)
    (hcnt : s.debounce_count < 255) :
    s.scan raw =
      { s with current_state := raw, debounce_count := 0, raw_state := raw,
               has_pending_event := if raw ≠ s.last_reported then true else s.has_pending_event } := by
  have hmod : (s.debounce_count + 1) % 256 = s.debounce_count + 1 :=
    Nat.mod_eq_of_lt (by omega)
  unfold ButtonSensor.scan
  dsimp only
  rw [if_neg hraw, hmod, if_pos hge]
  by_cases hl : raw = s.last_reported
  · rw [if_neg (by simpa using hl), if_neg (by simpa using hl)]
  · rw [if_pos hl, if_pos hl]

theorem ButtonSensor.scanRepeat_succ_last (n : Nat) :
    ∀ (s : ButtonSensor) (raw : Bool), s.scanRepeat raw (n + 1) = (s.scanRepeat raw n).scan raw := by
  induction n with
  | zero => intro s raw; rfl
  | succ n ih =>
    intro s raw
    show (s.scan raw).scanRepeat raw (n + 1) = ((s.scan raw).scanRepeat raw n).scan raw
    exact ih (s.scan raw) raw

/-- While the counter stays below the threshold, disagreeing scans only count up. -/
theorem ButtonSensor.scanRepeat_below (k : Nat) :
    ∀ (s : ButtonSensor) (raw : Bool), raw ≠ s.current_state →
      s.debounce_count + k < s.debounce_threshold → s.debounce_threshold ≤ 255 →
      s.scanRepeat raw k =
        { s with debounce_count := s.debounce_count + k,
                 raw_state := if k = 0 then s.raw_state else raw } := by
  induction k with
  | zero => intro s raw _ _ _; rfl
  | succ k ih =>
    intro s raw hraw hlt hthr
    rw [ButtonSensor.scanRepeat_succ_last, ih s raw hraw (by omega) hthr]
    have h := ButtonSensor.scan_disagree_below
      { s with debounce_count := s.debounce_count + k,
               raw_state := if k = 0 then s.raw_state else raw } raw hraw
      (by show s.debounce_count + k + 1 < s.debounce_threshold; omega) hthr
    rw [h]
    simp [Nat.add_assoc]

/-- The scan on which the counter reaches the threshold accepts the new level. -/
theorem ButtonSensor.scanRepeat_reach (s : ButtonSensor) (raw : Bool)
    (hraw : raw ≠ s.current_state) (hcnt : s.debounce_count = 0)
    (h1 : 1 ≤ s.debounce_threshold) (hthr : s.debounce_threshold ≤ 255) :
    s.scanRepeat raw s.debounce_threshold =
      { s with current_state := raw, debounce_count := 0, raw_state := raw,
               has_pending_event := if raw ≠ s.last_reported then true else s.has_pending_event } := by
  obtain ⟨n, hn⟩ : ∃ n, s.debounce_threshold = n + 1 := ⟨s.debounce_threshold - 1, by omega⟩
  rw [hn, ButtonSensor.scanRepeat_succ_last,
    ButtonSensor.scanRepeat_below n s raw hraw (by omega) hthr]
  have h := ButtonSensor.scan_disagree_reach
    { s with debounce_count := s.debounce_count + n,
             raw_state := if n = 0 then s.raw_state else raw } raw hraw
    (by show s.debounce_threshold ≤ s.debounce_count + n + 1; omega)
    (by show s.debounce_count + n < 255; omega)
  rw [h]
  simp [hn]

/-- Scans that agree with the debounced state only clear the counter. -/
theorem ButtonSensor.scanRepeat_agree (n : Nat) :
    ∀ (s : ButtonSensor), s.scanRepeat s.current_state n =
        { s with debounce_count := if n = 0 then s.debounce_count else 0,
                 raw_state := if n = 0 then s.raw_state else s.current_state } := by
  induction n with
  | zero => intro s; rfl
  | succ n ih =>
    intro s
    rw [ButtonSensor.scanRepeat_succ_last, ih s]
    have h := ButtonSensor.scan_agree
      { s with debounce_count := if n = 0 then s.debounce_count else 0,
               raw_state := if n = 0 then s.raw_state else s.current_state }
    simpa using h

/-! ## ButtonSensor: the claims -/

/-- C1: with a threshold `N` between 1 and 255 and the counter at 0, scans whose raw sample
disagrees with the debounced state leave the debounced state and the pending flag as they
were for every `k < N` of them (the counter is then `k`), and the `N`-th such scan sets the
debounced state to the raw level and puts the counter back to 0. -/
theorem button_debounce_accepts_on_nth_scan (N : Nat) (s : ButtonSensor) (raw : Bool)
    (hN1 : 1 ≤ N) (hN : N ≤ 255) (hthr : s.debounce_threshold = N)
    (hcnt : s.debounce_count = 0) (hraw : raw ≠ s.current_state) :
    (∀ k, k < N →
        (s.scanRepeat raw k).current_state = s.current_state ∧
        (s.scanRepeat raw k).has_pending_event = s.has_pending_event ∧
        (s.scanRepeat raw k).last_reported = s.last_reported ∧
        (s.scanRepeat raw k).debounce_count = k) ∧
    (s.scanRepeat raw N).current_state = raw ∧
    (s.scanRepeat raw N).debounce_count = 0 := by
  subst hthr
  refine ⟨?_, ?_⟩
  · intro k hk
    rw [ButtonSensor.scanRepeat_below k s raw hraw (by omega) hN]
    simp [hcnt]
  · rw [ButtonSensor.scanRepeat_reach s raw hraw hcnt hN1 hN]
    simp

/-- C1 at pin 7, threshold 3, right after `begin()`, with the input held active. -/
theorem button_debounce_accepts_on_nth_scan_witness :
    (∀ k, k < 3 →
        (((ButtonSensor.construct 7 3).begin).scanRepeat true k).current_state = false ∧
        (((ButtonSensor.construct 7 3).begin).scanRepeat true k).has_pending_event = false ∧
        (((ButtonSensor.construct 7 3).begin).scanRepeat true k).last_reported = false ∧
        (((ButtonSensor.construct 7 3).begin).scanRepeat true k).debounce_count = k) ∧
    (((ButtonSensor.construct 7 3).begin).scanRepeat true 3).current_state = true ∧
    (((ButtonSensor.construct 7 3).begin).scanRepeat true 3).debounce_count = 0 :=
  button_debounce_accepts_on_nth_scan 3 ((ButtonSensor.construct 7 3).begin) true
    (by decide) (by decide) rfl rfl (by decide)

/-- C2: a `ButtonSensor(p, N)` with `1 ≤ N ≤ 255`, driven from `begin()`: after `N` scans
with the input active `getReading()` returns `Reading(1, Button, p)`; after any number `m`
of further scans with the input still active it returns the empty reading; after `N` more
scans with the input inactive it returns `Reading(0, Button, p)`. -/
theorem button_press_hold_release_cycle (p N m : Nat) (hN1 : 1 ≤ N) (hN : N ≤ 255) :
    (let s1 := ((ButtonSensor.construct p N).begin).scanRepeat true N
     let s2 := (s1.getReading.2).scanRepeat true m
     let s3 := (s2.getReading.2).scanRepeat false N
     s1.getReading.1 = Reading.event 1 InputType.Button p ∧
     s2.getReading.1 = Reading.empty ∧
     s3.getReading.1 = Reading.event 0 InputType.Button p) := by
  intro s1 s2 s3
  have e1 : s1 = ⟨p, N, true, false, true, 0, true⟩ := by
    have h := ButtonSensor.scanRepeat_reach ((ButtonSensor.construct p N).begin) true
      (by simp [ButtonSensor.begin]) rfl hN1 hN
    exact h
  have g1 : s1.getReading = (Reading.event 1 InputType.Button p, ⟨p, N, true, true, true, 0, false⟩) := by
    rw [e1]; rfl
  have e2 : s2 = ⟨p, N, true, true, true, 0, false⟩ := by
    show (s1.getReading.2).scanRepeat true m = _
    rw [g1]
    have h := ButtonSensor.scanRepeat_agree m ⟨p, N, true, true, true, 0, false⟩
    rw [h]
    by_cases hm : m = 0 <;> simp [hm]
  have g2 : s2.getReading = (Reading.empty, ⟨p, N, true, true, true, 0, false⟩) := by
    rw [e2]; rfl
  have e3 : s3 = ⟨p, N, false, true, false, 0, true⟩ := by
    show (s2.getReading.2).scanRepeat false N = _
    rw [g2]
    have h := ButtonSensor.scanRepeat_reach ⟨p, N, true, true, true, 0, false⟩ false
      (by simp) rfl hN1 hN
    exact h
  refine ⟨?_, ?_, ?_⟩
  · rw [g1]
  · rw [g2]
  · rw [e3]; rfl

/-- C2 at pin 7 and threshold 3, with 20 further scans while the button is held. -/
theorem button_press_hold_release_cycle_witness :
    ((((ButtonSensor.construct 7 3).begin).scanRepeat true 3).getReading.1
        = Reading.event 1 InputType.Button 7) ∧
    ((((((ButtonSensor.construct 7 3).begin).scanRepeat true 3).getReading.2).scanRepeat
        true 20).getReading.1 = Reading.empty) ∧
    (((((((ButtonSensor.construct 7 3).begin).scanRepeat true 3).getReading.2).scanRepeat
        true 20).getReading.2).scanRepeat false 3).getReading.1
        = Reading.event 0 InputType.Button 7 :=
  button_press_hold_release_cycle 7 3 20 (by decide) (by decide)

/-- C3: `ButtonSensor::getReading()`. With the pending flag set it returns the non-empty
reading `(debounced ? 1 : 0, Button, pin)`, afterwards `last_reported` equals the debounced
state and the flag is clear (nothing else changes); with the flag clear it returns the empty
reading and the state is unchanged. -/
theorem button_getReading_contract (s : ButtonSensor) :
    (s.has_pending_event = true →
        s.getReading.1 =
          { has_value := true, value := if s.current_state then 1 else 0,
            type := InputType.Button, pin := s.pin } ∧
        s.getReading.2 = { s with last_reported := s.current_state, has_pending_event := false }) ∧
    (s.has_pending_event = false → s.getReading.1 = Reading.empty ∧ s.getReading.2 = s) := by
  constructor
  · intro h
    simp [ButtonSensor.getReading, h, Reading.event]
  · intro h
    simp [ButtonSensor.getReading, h]

/-- C3 on a pressed button at pin 7 with a pending event, and on the same button with none. -/
theorem button_getReading_contract_witness :
    ((⟨7, 3, true, false, true, 0, true⟩ : ButtonSensor).getReading
        = (⟨true, 1, InputType.Button, 7⟩, ⟨7, 3, true, true, true, 0, false⟩)) ∧
    ((⟨7, 3, true, true, true, 0, false⟩ : ButtonSensor).getReading
        = (Reading.empty, ⟨7, 3, true, true, true, 0, false⟩)) := by
  have h1 := (button_getReading_contract ⟨7, 3, true, false, true, 0, true⟩).1 rfl
  have h2 := (button_getReading_contract ⟨7, 3, true, true, true, 0, false⟩).2 rfl
  exact ⟨Prod.ext h1.1 h1.2, Prod.ext h2.1 h2.2⟩

/-- C4: a `getReading()` made right after a `getReading()` that returned a non-empty reading
(no `scan()` in between) returns the empty reading and changes nothing. -/
theorem button_event_delivered_once (s : ButtonSensor)
    (h : s.getReading.1.has_value = true) :
    s.getReading.2.getReading.1 = Reading.empty ∧
    s.getReading.2.getReading.2 = s.getReading.2 := by
  by_cases hp : s.has_pending_event = true
  · simp [ButtonSensor.getReading, hp]
  · have hp2 : s.has_pending_event = false := by simpa using hp
    simp [ButtonSensor.getReading, hp2, Reading.empty] at h

/-- C4 after a press at pin 7 with threshold 3. -/
theorem button_event_delivered_once_witness :
    ((((ButtonSensor.construct 7 3).begin).scanRepeat true 3).getReading.1.has_value = true) ∧
    ((((ButtonSensor.construct 7 3).begin).scanRepeat true 3).getReading.2.getReading.1
        = Reading.empty) :=
  ⟨by decide,
   (button_event_delivered_once (((ButtonSensor.construct 7 3).begin).scanRepeat true 3)
      (by decide)).1⟩

/-! ### Alternation of the reported values -/

theorem ButtonSensor.scan_last_reported (s : ButtonSensor) (raw : Bool) :
    (s.scan raw).last_reported = s.last_reported := by
  unfold ButtonSensor.scan
  dsimp only
  split_ifs <;> rfl

theorem ButtonSensor.scan_pin (s : ButtonSensor) (raw : Bool) : (s.scan raw).pin = s.pin := by
  unfold ButtonSensor.scan
  dsimp only
  split_ifs <;> rfl

theorem ButtonSensor.scan_synced (s : ButtonSensor) (raw : Bool) (hs : s.synced)
    (hp : s.has_pending_event = false ∨ (s.scan raw).current_state = s.current_state) :
    (s.scan raw).synced := by
  unfold ButtonSensor.synced at hs ⊢
  unfold ButtonSensor.scan at hp ⊢
  dsimp only at hp ⊢
  split_ifs at hp ⊢ <;> simp_all

theorem ButtonSensor.readings_chain (cs : List ButtonSensor.Call) :
    ∀ s : ButtonSensor, s.synced → ButtonSensor.paced s cs = true →
      List.Chain Reading.opposite s.lastReading (ButtonSensor.readings s cs) := by
  induction cs with
  | nil => intro s _ _; exact List.Chain.nil
  | cons c cs ih =>
    intro s hs hp
    cases c with
    | scan raw =>
      simp only [ButtonSensor.paced, Bool.and_eq_true, Bool.or_eq_true, Bool.not_eq_true',
        beq_iff_eq] at hp
      have h := ih (s.scan raw) (ButtonSensor.scan_synced s raw hs hp.1) hp.2
      have e : (s.scan raw).lastReading = s.lastReading := by
        simp [ButtonSensor.lastReading, ButtonSensor.scan_last_reported, ButtonSensor.scan_pin]
      rw [e] at h
      exact h
    | getReading =>
      simp only [ButtonSensor.paced] at hp
      by_cases hpe : s.has_pending_event = true
      · have hne : s.current_state ≠ s.last_reported := hs.1 hpe
        have g : s.getReading = (Reading.event (if s.current_state then 1 else 0)
            InputType.Button s.pin,
            { s with last_reported := s.current_state, has_pending_event := false }) := by
          simp [ButtonSensor.getReading, hpe]
        have hs2 : ButtonSensor.synced
            { s with last_reported := s.current_state, has_pending_event := false } := by
          simp [ButtonSensor.synced]
        rw [g] at hp
        have h := ih _ hs2 hp
        simp only [ButtonSensor.readings, g, Reading.event, if_true]
        refine List.Chain.cons ?_ h
        cases hc : s.current_state <;> cases hl : s.last_reported <;>
          simp_all [Reading.opposite, ButtonSensor.lastReading, Reading.event]
      · have hpe2 : s.has_pending_event = false := by simpa using hpe
        have g : s.getReading = (Reading.empty, s) := by
          simp [ButtonSensor.getReading, hpe2]
        rw [g] at hp
        have h := ih s hs hp
        simpa [ButtonSensor.readings, g, Reading.empty] using h

/-- C6, as stated, fails: with threshold 3 a press is read, then a release and a new press
are both accepted before the next `getReading()`; the two consecutive non-empty readings
both carry the value 1. -/
theorem button_consecutive_readings_repeat_value :
    ButtonSensor.readings ((ButtonSensor.construct 7 3).begin)
        [.scan true, .scan true, .scan true, .getReading,
         .scan false, .scan false, .scan false,
         .scan true, .scan true, .scan true, .getReading]
      = [Reading.event 1 InputType.Button 7, Reading.event 1 InputType.Button 7] ∧
    ¬ List.Chain' Reading.opposite
        (ButtonSensor.readings ((ButtonSensor.construct 7 3).begin)
          [.scan true, .scan true, .scan true, .getReading,
           .scan false, .scan false, .scan false,
           .scan true, .scan true, .scan true, .getReading]) := by
  have e : ButtonSensor.readings ((ButtonSensor.construct 7 3).begin)
        [.scan true, .scan true, .scan true, .getReading,
         .scan false, .scan false, .scan false,
         .scan true, .scan true, .scan true, .getReading]
      = [Reading.event 1 InputType.Button 7, Reading.event 1 InputType.Button 7] := by
    decide
  rw [e]
  refine ⟨rfl, fun h => ?_⟩
  exact (List.chain'_cons.1 h).1 rfl

/-- C6, amended: in every sequence of `scan()` and `getReading()` calls following `begin()`
(any raw samples, any threshold) in which no `scan()` accepts a transition while an earlier
event is still pending, two consecutive non-empty readings carry opposite values. -/
theorem button_readings_alternate_when_paced (s : ButtonSensor) (cs : List ButtonSensor.Call)
    (h : ButtonSensor.paced s.begin cs = true) :
    List.Chain' Reading.opposite (ButtonSensor.readings s.begin cs) := by
  have hs : s.begin.synced := by simp [ButtonSensor.synced, ButtonSensor.begin]
  have hc := ButtonSensor.readings_chain cs s.begin hs h
  cases hr : ButtonSensor.readings s.begin cs with
  | nil => exact List.chain'_nil
  | cons r rs =>
    rw [hr] at hc
    exact (List.chain_cons.1 hc).2

/-- C6 amended, on two full press and release cycles at pin 7 with threshold 3 in which
the driver reads only once per accepted transition. -/
theorem button_readings_alternate_when_paced_witness :
    ButtonSensor.paced ((ButtonSensor.construct 7 3).begin)
        [.scan true, .scan true, .scan true, .getReading,
         .scan false, .scan false, .scan false, .getReading,
         .scan true, .scan true, .scan true, .scan true, .getReading] = true ∧
    List.Chain' Reading.opposite
      (ButtonSensor.readings ((ButtonSensor.construct 7 3).begin)
        [.scan true, .scan true, .scan true, .getReading,
         .scan false, .scan false, .scan false, .getReading,
         .scan true, .scan true, .scan true, .scan true, .getReading]) :=
  ⟨by decide, button_readings_alternate_when_paced (ButtonSensor.construct 7 3) _ (by decide)⟩

/-- C7: with debounce threshold 0, from any state with no pending event and
`last_reported` equal to the debounced state, one `scan()` whose raw sample differs from the
debounced state flips the debounced state, and the next `getReading()` returns the non-empty
reading that carries the new state (1 for a press, 0 for a release). -/
theorem button_zero_threshold_immediate (s : ButtonSensor) (raw : Bool)
    (hthr : s.debounce_threshold = 0) (_hp : s.has_pending_event = false)
    (hl : s.last_reported = s.current_state) (hraw : raw ≠ s.current_state) :
    (s.scan raw).current_state = raw ∧
    (s.scan raw).getReading.1 =
      { has_value := true, value := if raw then 1 else 0,
        type := InputType.Button, pin := s.pin } := by
  have hraw2 : raw ≠ s.last_reported := by rw [hl]; exact hraw
  have e : s.scan raw =
      { s with current_state := raw, debounce_count := 0, raw_state := raw,
               has_pending_event := true } := by
    unfold ButtonSensor.scan
    dsimp only
    rw [if_neg hraw, if_pos (by rw [hthr]; exact Nat.zero_le _), if_pos hraw2]
  rw [e]
  exact ⟨rfl, rfl⟩

/-- C7 on a sensor at pin 7 with threshold 0, right after `begin()`, on a press. -/
theorem button_zero_threshold_immediate_witness :
    (((ButtonSensor.construct 7 0).begin).scan true).current_state = true ∧
    (((ButtonSensor.construct 7 0).begin).scan true).getReading.1 =
      { has_value := true, value := 1, type := InputType.Button, pin := 7 } :=
  button_zero_threshold_immediate ((ButtonSensor.construct 7 0).begin) true rfl rfl rfl
    (by decide)

/-- C8: from any state with no pending event, any number of `scan()` calls whose raw sample
equals the debounced state produce no event: the pending flag stays clear, the debounced
state and `last_reported` do not change, and `getReading()` afterwards returns empty. -/
theorem button_hold_produces_no_event (s : ButtonSensor) (n : Nat)
    (hp : s.has_pending_event = false) :
    (s.scanRepeat s.current_state n).has_pending_event = false ∧
    (s.scanRepeat s.current_state n).current_state = s.current_state ∧
    (s.scanRepeat s.current_state n).last_reported = s.last_reported ∧
    (s.scanRepeat s.current_state n).getReading.1 = Reading.empty := by
  rw [ButtonSensor.scanRepeat_agree n s]
  refine ⟨hp, rfl, rfl, ?_⟩
  simp [ButtonSensor.getReading, hp]

/-- C8 on a held button (pin 7, threshold 3) after its press was read, over 20 scans. -/
theorem button_hold_produces_no_event_witness :
    ((⟨7, 3, true, true, true, 0, false⟩ : ButtonSensor).scanRepeat true 20).has_pending_event
        = false ∧
    ((⟨7, 3, true, true, true, 0, false⟩ : ButtonSensor).scanRepeat true 20).current_state
        = true ∧
    ((⟨7, 3, true, true, true, 0, false⟩ : ButtonSensor).scanRepeat true 20).last_reported
        = true ∧
    ((⟨7, 3, true, true, true, 0, false⟩ : ButtonSensor).scanRepeat true 20).getReading.1
        = Reading.empty :=
  button_hold_produces_no_event ⟨7, 3, true, true, true, 0, false⟩ 20 rfl

/-- C9: for a threshold `N` between 1 and 255 and a state with counter 0, a run of `j < N`
scans whose raw sample disagrees with the debounced state followed by one scan that agrees
leaves the debounced state, `last_reported` and the pending flag as they were before the run
and the counter at 0; `getReading()` returns what it would have returned before the run,
so a reading that was empty before the glitch is still empty after it. -/
theorem button_glitch_is_filtered (N j : Nat) (s : ButtonSensor) (raw : Bool)
    (hN : N ≤ 255) (hthr : s.debounce_threshold = N) (hcnt : s.debounce_count = 0)
    (hj : j < N) (hraw : raw ≠ s.current_state) :
    ((s.scanRepeat raw j).scan s.current_state).current_state = s.current_state ∧
    ((s.scanRepeat raw j).scan s.current_state).last_reported = s.last_reported ∧
    ((s.scanRepeat raw j).scan s.current_state).has_pending_event = s.has_pending_event ∧
    ((s.scanRepeat raw j).scan s.current_state).debounce_count = 0 ∧
    ((s.scanRepeat raw j).scan s.current_state).getReading.1 = s.getReading.1 ∧
    (s.getReading.1 = Reading.empty →
      ((s.scanRepeat raw j).scan s.current_state).getReading.1 = Reading.empty) := by
  subst hthr
  rw [ButtonSensor.scanRepeat_below j s raw hraw (by omega) hN]
  have h := ButtonSensor.scan_agree
    { s with debounce_count := s.debounce_count + j,
             raw_state := if j = 0 then s.raw_state else raw }
  have h2 : ({ s with debounce_count := s.debounce_count + j,
                      raw_state := if j = 0 then s.raw_state else raw } : ButtonSensor).scan
      s.current_state = { s with debounce_count := 0, raw_state := s.current_state } := h
  rw [h2]
  have g : ({ s with debounce_count := 0, raw_state := s.current_state } :
      ButtonSensor).getReading.1 = s.getReading.1 := by
    unfold ButtonSensor.getReading
    dsimp only
    split_ifs <;> rfl
  refine ⟨rfl, rfl, rfl, rfl, g, ?_⟩
  intro he
  rw [g, he]

/-- C9 on the glitch of the test suite: pin 7, threshold 3, two active scans, one inactive. -/
theorem button_glitch_is_filtered_witness :
    ((((ButtonSensor.construct 7 3).begin).scanRepeat true 2).scan false).current_state = false ∧
    ((((ButtonSensor.construct 7 3).begin).scanRepeat true 2).scan false).last_reported = false ∧
    ((((ButtonSensor.construct 7 3).begin).scanRepeat true 2).scan false).has_pending_event
        = false ∧
    ((((ButtonSensor.construct 7 3).begin).scanRepeat true 2).scan false).debounce_count = 0 ∧
    ((((ButtonSensor.construct 7 3).begin).scanRepeat true 2).scan false).getReading.1
        = ((ButtonSensor.construct 7 3).begin).getReading.1 ∧
    (((ButtonSensor.construct 7 3).begin).getReading.1 = Reading.empty →
      ((((ButtonSensor.construct 7 3).begin).scanRepeat true 2).scan false).getReading.1
        = Reading.empty) :=
  button_glitch_is_filtered 3 2 ((ButtonSensor.construct 7 3).begin) true
    (by decide) rfl rfl (by decide) (by decide)

/-! ## Generic lemmas on arrays and loops -/

theorem setAt_same {α : Type} (a : Nat → α) (i : Nat) (v : α) : setAt a i v i = v := by
  simp [setAt]

theorem setAt_other {α : Type} (a : Nat → α) (i j : Nat) (v : α) (h : j ≠ i) :
    setAt a i v j = a j := by
  simp [setAt, h]

theorem setAt_self {α : Type} (a : Nat → α) (i : Nat) (v : α) (h : a i = v) :
    setAt a i v = a := by
  funext j
  by_cases hj : j = i
  · subst hj; simp [setAt, h]
  · simp [setAt, hj]

theorem setAt_setAt {α : Type} (a : Nat → α) (i : Nat) (v w : α) :
    setAt (setAt a i v) i w = setAt a i w := by
  funext j
  by_cases hj : j = i <;> simp [setAt, hj]

/-- A property kept by every iteration holds after the loop. -/
theorem foldl_invariant {σ α : Type} (P : σ → Prop) (f : σ → α → σ) (l : List α) :
    ∀ s, P s → (∀ t x, x ∈ l → P t → P (f t x)) → P (l.foldl f s) := by
  induction l with
  | nil => intro s hs _; exact hs
  | cons x xs ih =>
    intro s hs hstep
    exact ih (f s x) (hstep s x (List.mem_cons_self x xs) hs)
      (fun t y hy ht => hstep t y (List.mem_cons_of_mem x hy) ht)

/-- A loop whose every iteration leaves the state as it is. -/
theorem foldl_fixed {σ α : Type} (f : σ → α → σ) (l : List α) (s : σ)
    (h : ∀ x ∈ l, f s x = s) : l.foldl f s = s := by
  induction l with
  | nil => rfl
  | cons x xs ih =>
    rw [List.foldl_cons, h x (List.mem_cons_self x xs)]
    exact ih (fun y hy => h y (List.mem_cons_of_mem x hy))

/-- A loop in which only the iteration for `a` changes the state. -/
theorem foldl_single {σ α : Type} (f : σ → α → σ) (a : α) (l : List α) (s : σ)
    (hnd : l.Nodup) (ha : a ∈ l)
    (h0 : ∀ x ∈ l, x ≠ a → f s x = s)
    (h1 : ∀ x ∈ l, x ≠ a → f (f s a) x = f s a) : l.foldl f s = f s a := by
  induction l with
  | nil => cases ha
  | cons x xs ih =>
    rw [List.nodup_cons] at hnd
    rw [List.foldl_cons]
    by_cases hx : x = a
    · subst hx
      apply foldl_fixed
      intro y hy
      exact h1 y (List.mem_cons_of_mem x hy) (fun e => hnd.1 (e ▸ hy))
    · rw [h0 x (List.mem_cons_self x xs) hx]
      have ha2 : a ∈ xs := by
        rcases List.mem_cons.1 ha with e | e
        · exact absurd e.symm hx
        · exact e
      exact ih hnd.2 ha2 (fun y hy => h0 y (List.mem_cons_of_mem x hy))
        (fun y hy => h1 y (List.mem_cons_of_mem x hy))

/-! ## MatrixSensor: the queue indices stay in range -/

theorem MatrixSensor.enqueueEvent_inRange (s : MatrixSensor) (i : Nat) (p : Bool)
    (h : s.QueueInRange) : (s.enqueueEvent i p).QueueInRange := by
  unfold MatrixSensor.QueueInRange at h ⊢
  unfold MatrixSensor.enqueueEvent
  dsimp only
  split_ifs
  · exact ⟨Nat.mod_lt _ (by decide), Nat.mod_lt _ (by decide)⟩
  · exact ⟨h.1, Nat.mod_lt _ (by decide)⟩

theorem MatrixSensor.scanButton_inRange (s : MatrixSensor) (row col : Nat) (raw : Bool)
    (h : s.QueueInRange) : (s.scanButton row col raw).QueueInRange := by
  unfold MatrixSensor.scanButton
  dsimp only
  split_ifs
  · exact h
  · exact MatrixSensor.enqueueEvent_inRange _ _ _ h
  · exact h
  · exact h

theorem MatrixSensor.scan_inRange (s : MatrixSensor) (raw : Nat → Nat → Bool)
    (h : s.QueueInRange) : (s.scan raw).QueueInRange := by
  unfold MatrixSensor.scan
  apply foldl_invariant MatrixSensor.QueueInRange _ _ s h
  intro t row _ ht
  unfold MatrixSensor.scanRow
  apply foldl_invariant MatrixSensor.QueueInRange _ _ t ht
  intro u col _ hu
  exact MatrixSensor.scanButton_inRange u row col _ hu

theorem MatrixSensor.getReading_of_empty (s : MatrixSensor) (h : s.queue_head = s.queue_tail) :
    s.getReading = (Reading.empty, s) := by
  simp [MatrixSensor.getReading, MatrixSensor.isQueueEmpty, h]

theorem MatrixSensor.getReading_of_nonempty (s : MatrixSensor)
    (h : s.queue_head ≠ s.queue_tail) :
    s.getReading =
      (Reading.event (if (s.event_queue s.queue_head).pressed then 1 else 0) InputType.Matrix
          ((128 + (s.event_queue s.queue_head).button_index) % 256),
       { s with
         queue_head := (s.queue_head + 1) % 8
         last_reported := setAt s.last_reported (s.event_queue s.queue_head).button_index
           (s.event_queue s.queue_head).pressed }) := by
  simp [MatrixSensor.getReading, MatrixSensor.isQueueEmpty, h, MatrixSensor.virtualPin]

theorem MatrixSensor.getReading_inRange (s : MatrixSensor) (h : s.QueueInRange) :
    s.getReading.2.QueueInRange := by
  by_cases he : s.queue_head = s.queue_tail
  · rw [MatrixSensor.getReading_of_empty s he]; exact h
  · rw [MatrixSensor.getReading_of_nonempty s he]
    exact ⟨Nat.mod_lt _ (by decide), h.2⟩

theorem MatrixSensor.Reachable.queueInRange {s : MatrixSensor} (h : s.Reachable) :
    s.QueueInRange := by
  induction h with
  | construct mem rows cols rp cp _ _ =>
    exact ⟨show (0 : Nat) < 8 by decide, show (0 : Nat) < 8 by decide⟩
  | begin _ _ => exact ⟨show (0 : Nat) < 8 by decide, show (0 : Nat) < 8 by decide⟩
  | scan raw _ ih => exact MatrixSensor.scan_inRange _ raw ih
  | getReading _ ih => exact MatrixSensor.getReading_inRange _ ih

theorem MatrixSensor.heldForThreeScans_reachable (cells : List (Nat × Nat)) :
    (MatrixSensor.heldForThreeScans cells).Reachable :=
  MatrixSensor.Reachable.scan _ (MatrixSensor.Reachable.scan _ (MatrixSensor.Reachable.scan _
    (MatrixSensor.Reachable.begin
      (MatrixSensor.Reachable.construct MatrixSensor.zeroed 3 4 _ _ (by decide) (by decide)))))

/-! ## MatrixSensor: cell indices -/

theorem MatrixSensor.buttonIndex_eq (s : MatrixSensor) (r c : Nat)
    (hr : r < s.num_rows) (hc : c < s.num_cols) (hR : s.num_rows ≤ 8) (hC : s.num_cols ≤ 8) :
    s.buttonIndex r c = r * s.num_cols + c ∧ r * s.num_cols + c < 64 := by
  have h1 : r * s.num_cols ≤ 7 * 8 := Nat.mul_le_mul (by omega) hC
  have h2 : r * s.num_cols + c < 64 := by omega
  exact ⟨Nat.mod_eq_of_lt (by omega), h2⟩

theorem MatrixSensor.cell_inj (n r c r2 c2 : Nat) (hc : c < n) (hc2 : c2 < n)
    (h : r * n + c = r2 * n + c2) : r = r2 ∧ c = c2 := by
  have hn : 0 < n := by omega
  have hd := congrArg (fun x => x / n) h
  have hm := congrArg (fun x => x % n) h
  simp only [Nat.add_comm (r * n), Nat.add_comm (r2 * n), Nat.add_mul_div_right _ _ hn,
    Nat.add_mul_mod_self_right, Nat.div_eq_of_lt hc, Nat.div_eq_of_lt hc2,
    Nat.mod_eq_of_lt hc, Nat.mod_eq_of_lt hc2, Nat.zero_add] at hd hm
  exact ⟨hd, hm⟩

theorem MatrixSensor.buttonIndex_ne (s : MatrixSensor) (r c row col : Nat)
    (hr : r < s.num_rows) (hc : c < s.num_cols) (hrow : row < s.num_rows)
    (hcol : col < s.num_cols) (hR : s.num_rows ≤ 8) (hC : s.num_cols ≤ 8)
    (hne : r ≠ row ∨ c ≠ col) : s.buttonIndex r c ≠ s.buttonIndex row col := by
  intro h
  rw [(MatrixSensor.buttonIndex_eq s r c hr hc hR hC).1,
    (MatrixSensor.buttonIndex_eq s row col hrow hcol hR hC).1] at h
  have := MatrixSensor.cell_inj s.num_cols r c row col hc hcol h
  omega

/-! ## MatrixSensor: one cell step -/

theorem MatrixSensor.scanButton_idle (s : MatrixSensor) (r c : Nat) (raw : Bool)
    (h1 : s.current_state (s.buttonIndex r c) = raw)
    (h2 : s.debounce_count (s.buttonIndex r c) = 0) : s.scanButton r c raw = s := by
  unfold MatrixSensor.scanButton
  dsimp only
  rw [if_pos h1.symm, setAt_self _ _ _ h2]

theorem MatrixSensor.scanButton_below (s : MatrixSensor) (r c : Nat) (raw : Bool)
    (hraw : raw ≠ s.current_state (s.buttonIndex r c))
    (hlt : s.debounce_count (s.buttonIndex r c) + 1 < s.debounce_threshold)
    (hthr : s.debounce_threshold ≤ 255) :
    s.scanButton r c raw =
      { s with debounce_count := setAt s.debounce_count (s.buttonIndex r c)
                 (s.debounce_count (s.buttonIndex r c) + 1) } := by
  have hmod : (s.debounce_count (s.buttonIndex r c) + 1) % 256
      = s.debounce_count (s.buttonIndex r c) + 1 := Nat.mod_eq_of_lt (by omega)
  unfold MatrixSensor.scanButton
  dsimp only
  rw [if_neg hraw, hmod, if_neg (by rw [setAt_same]; omega)]

theorem MatrixSensor.scanButton_accept (s : MatrixSensor) (r c : Nat) (raw : Bool)
    (hraw : raw ≠ s.current_state (s.buttonIndex r c))
    (hge : s.debounce_threshold ≤ s.debounce_count (s.buttonIndex r c) + 1)
    (hcnt : s.debounce_count (s.buttonIndex r c) < 255)
    (hl : raw ≠ s.last_reported (s.buttonIndex r c)) :
    s.scanButton r c raw =
      ({ s with
         debounce_count := setAt s.debounce_count (s.buttonIndex r c) 0
         current_state := setAt s.current_state (s.buttonIndex r c) raw } :
        MatrixSensor).enqueueEvent (s.buttonIndex r c) raw := by
  have hmod : (s.debounce_count (s.buttonIndex r c) + 1) % 256
      = s.debounce_count (s.buttonIndex r c) + 1 := Nat.mod_eq_of_lt (by omega)
  unfold MatrixSensor.scanButton
  dsimp only
  rw [if_neg hraw, hmod, if_pos (by rw [setAt_same]; exact hge),
    if_pos (by rw [setAt_same]; exact hl), setAt_setAt, setAt_same]

theorem MatrixSensor.enqueueEvent_cells (s : MatrixSensor) (i : Nat) (p : Bool) :
    (s.enqueueEvent i p).num_rows = s.num_rows ∧ (s.enqueueEvent i p).num_cols = s.num_cols ∧
    (s.enqueueEvent i p).current_state = s.current_state ∧
    (s.enqueueEvent i p).last_reported = s.last_reported ∧
    (s.enqueueEvent i p).debounce_count = s.debounce_count ∧
    (s.enqueueEvent i p).debounce_threshold = s.debounce_threshold := by
  unfold MatrixSensor.enqueueEvent
  dsimp only
  split_ifs <;> exact ⟨rfl, rfl, rfl, rfl, rfl, rfl⟩

/-- A cell step leaves the dimensions, the threshold, every `last_reported` and the
debounce state of every other cell as they were. -/
theorem MatrixSensor.scanButton_frame (s : MatrixSensor) (r c : Nat) (raw : Bool) :
    (s.scanButton r c raw).num_rows = s.num_rows ∧
    (s.scanButton r c raw).num_cols = s.num_cols ∧
    (s.scanButton r c raw).debounce_threshold = s.debounce_threshold ∧
    (s.scanButton r c raw).last_reported = s.last_reported ∧
    (∀ j, j ≠ s.buttonIndex r c →
      (s.scanButton r c raw).current_state j = s.current_state j ∧
      (s.scanButton r c raw).debounce_count j = s.debounce_count j) := by
  unfold MatrixSensor.scanButton
  dsimp only
  split_ifs
  · exact ⟨rfl, rfl, rfl, rfl, fun j hj => ⟨rfl, setAt_other _ _ _ _ hj⟩⟩
  · obtain ⟨e1, e2, e3, e4, e5, e6⟩ := MatrixSensor.enqueueEvent_cells
      ({ s with
         debounce_count := setAt (setAt s.debounce_count (s.buttonIndex r c)
           ((s.debounce_count (s.buttonIndex r c) + 1) % 256)) (s.buttonIndex r c) 0
         current_state := setAt s.current_state (s.buttonIndex r c) raw } : MatrixSensor)
      (s.buttonIndex r c) (setAt s.current_state (s.buttonIndex r c) raw (s.buttonIndex r c))
    refine ⟨e1, e2, e6, e4, fun j hj => ?_⟩
    rw [e3, e5]
    exact ⟨by simp [setAt, hj], by simp [setAt, hj]⟩
  · exact ⟨rfl, rfl, rfl, rfl, fun j hj => ⟨by simp [setAt, hj], by simp [setAt, hj]⟩⟩
  · exact ⟨rfl, rfl, rfl, rfl, fun j hj => ⟨rfl, setAt_other _ _ _ _ hj⟩⟩

/-! ## MatrixSensor: a scan in which a single cell moves -/

theorem MatrixSensor.quietExcept_scanButton (s : MatrixSensor) (raw : Nat → Nat → Bool)
    (row col : Nat) (v : Bool) (hq : s.QuietExcept raw row col)
    (hrow : row < s.num_rows) (hcol : col < s.num_cols)
    (hR : s.num_rows ≤ 8) (hC : s.num_cols ≤ 8) :
    (s.scanButton row col v).QuietExcept raw row col := by
  obtain ⟨e1, e2, _, _, hf⟩ := MatrixSensor.scanButton_frame s row col v
  intro r c hr hc hne
  rw [e1] at hr
  rw [e2] at hc
  have hidx : (s.scanButton row col v).buttonIndex r c = s.buttonIndex r c := by
    simp [MatrixSensor.buttonIndex, e2]
  rw [hidx]
  have h := hf _ (MatrixSensor.buttonIndex_ne s r c row col hr hc hrow hcol hR hC hne)
  rw [h.1, h.2]
  exact hq r c hr hc hne

theorem MatrixSensor.scanRow_quiet (s : MatrixSensor) (raw : Nat → Nat → Bool)
    (row col r : Nat) (hq : s.QuietExcept raw row col) (hr : r < s.num_rows) (hne : r ≠ row) :
    s.scanRow raw r = s := by
  unfold MatrixSensor.scanRow
  apply foldl_fixed
  intro c hc
  obtain ⟨h1, h2⟩ := hq r c hr (List.mem_range.1 hc) (Or.inl hne)
  exact MatrixSensor.scanButton_idle s r c _ h1 h2

theorem MatrixSensor.scanRow_target (s : MatrixSensor) (raw : Nat → Nat → Bool)
    (row col : Nat) (hq : s.QuietExcept raw row col)
    (hrow : row < s.num_rows) (hcol : col < s.num_cols)
    (hR : s.num_rows ≤ 8) (hC : s.num_cols ≤ 8) :
    s.scanRow raw row = s.scanButton row col (raw row col) := by
  unfold MatrixSensor.scanRow
  apply foldl_single (fun st c => MatrixSensor.scanButton st row c (raw row c)) col
    (List.range s.num_cols) s (List.nodup_range _) (List.mem_range.2 hcol)
  · intro c hc hne
    obtain ⟨h1, h2⟩ := hq row c hrow (List.mem_range.1 hc) (Or.inr hne)
    exact MatrixSensor.scanButton_idle s row c _ h1 h2
  · intro c hc hne
    have hq2 := MatrixSensor.quietExcept_scanButton s raw row col (raw row col) hq hrow hcol hR hC
    obtain ⟨e1, e2, _⟩ := MatrixSensor.scanButton_frame s row col (raw row col)
    obtain ⟨h1, h2⟩ := hq2 row c (by rw [e1]; exact hrow)
      (by rw [e2]; exact List.mem_range.1 hc) (Or.inr hne)
    exact MatrixSensor.scanButton_idle _ row c _ h1 h2

/-- When every other cell is at rest, a whole scan is the step of the one cell. -/
theorem MatrixSensor.scan_single (s : MatrixSensor) (raw : Nat → Nat → Bool)
    (row col : Nat) (hq : s.QuietExcept raw row col)
    (hrow : row < s.num_rows) (hcol : col < s.num_cols)
    (hR : s.num_rows ≤ 8) (hC : s.num_cols ≤ 8) :
    s.scan raw = s.scanButton row col (raw row col) := by
  have ht := MatrixSensor.scanRow_target s raw row col hq hrow hcol hR hC
  unfold MatrixSensor.scan
  rw [foldl_single (fun st r => MatrixSensor.scanRow st raw r) row
    (List.range s.num_rows) s (List.nodup_range _) (List.mem_range.2 hrow)]
  · exact ht
  · intro r hr hne
    exact MatrixSensor.scanRow_quiet s raw row col r hq (List.mem_range.1 hr) hne
  · intro r hr hne
    show MatrixSensor.scanRow (MatrixSensor.scanRow s raw row) raw r = MatrixSensor.scanRow s raw row
    rw [ht]
    have hq2 := MatrixSensor.quietExcept_scanButton s raw row col (raw row col) hq hrow hcol hR hC
    obtain ⟨e1, _⟩ := MatrixSensor.scanButton_frame s row col (raw row col)
    exact MatrixSensor.scanRow_quiet _ raw row col r hq2 (by rw [e1]; exact List.mem_range.1 hr) hne

/-- While the counter of the one moving cell stays below the threshold, a scan only
counts that cell up. -/
theorem MatrixSensor.scan_single_below (s : MatrixSensor) (raw : Nat → Nat → Bool)
    (row col k : Nat) (hq : s.QuietExcept raw row col)
    (hrow : row < s.num_rows) (hcol : col < s.num_cols)
    (hR : s.num_rows ≤ 8) (hC : s.num_cols ≤ 8)
    (hraw : raw row col ≠ s.current_state (s.buttonIndex row col))
    (hcnt : s.debounce_count (s.buttonIndex row col) = k)
    (hlt : k + 1 < s.debounce_threshold) (hthr : s.debounce_threshold ≤ 255) :
    s.scan raw = { s with debounce_count := setAt s.debounce_count (s.buttonIndex row col) (k + 1) } ∧
    MatrixSensor.QuietExcept
      { s with debounce_count := setAt s.debounce_count (s.buttonIndex row col) (k + 1) }
      raw row col := by
  have hq2 := MatrixSensor.quietExcept_scanButton s raw row col (raw row col) hq hrow hcol hR hC
  have e := MatrixSensor.scanButton_below s row col (raw row col) hraw (by rw [hcnt]; exact hlt) hthr
  rw [hcnt] at e
  rw [e] at hq2
  exact ⟨by rw [MatrixSensor.scan_single s raw row col hq hrow hcol hR hC, e], hq2⟩

/-- The scan on which the counter of the one moving cell reaches the threshold accepts the
new level of that cell and queues the event. -/
theorem MatrixSensor.scan_single_accept (s : MatrixSensor) (raw : Nat → Nat → Bool)
    (row col : Nat) (hq : s.QuietExcept raw row col)
    (hrow : row < s.num_rows) (hcol : col < s.num_cols)
    (hR : s.num_rows ≤ 8) (hC : s.num_cols ≤ 8)
    (hraw : raw row col ≠ s.current_state (s.buttonIndex row col))
    (hge : s.debounce_threshold ≤ s.debounce_count (s.buttonIndex row col) + 1)
    (hcnt : s.debounce_count (s.buttonIndex row col) < 255)
    (hl : raw row col ≠ s.last_reported (s.buttonIndex row col)) :
    s.scan raw =
      ({ s with
         debounce_count := setAt s.debounce_count (s.buttonIndex row col) 0
         current_state := setAt s.current_state (s.buttonIndex row col) (raw row col) } :
        MatrixSensor).enqueueEvent (s.buttonIndex row col) (raw row col) := by
  rw [MatrixSensor.scan_single s raw row col hq hrow hcol hR hC,
    MatrixSensor.scanButton_accept s row col (raw row col) hraw hge hcnt hl]

/-- The reading returned after an event was put into an empty queue. -/
theorem MatrixSensor.getReading_after_enqueue (s : MatrixSensor) (i : Nat) (p : Bool)
    (he : s.queue_head = s.queue_tail) :
    (s.enqueueEvent i p).getReading.1 =
      Reading.event (if p then 1 else 0) InputType.Matrix ((128 + i) % 256) := by
  have hne : (s.queue_tail + 1) % 8 ≠ s.queue_head := by omega
  have e : s.enqueueEvent i p =
      { s with event_queue := setAt s.event_queue s.queue_tail { button_index := i, pressed := p }
               queue_tail := (s.queue_tail + 1) % 8 } := by
    unfold MatrixSensor.enqueueEvent
    dsimp only
    rw [if_neg hne]
  rw [e, MatrixSensor.getReading_of_nonempty _ (by dsimp only; omega)]
  dsimp only
  rw [he, setAt_same]

/-- A level held on one cell of an otherwise resting matrix with threshold 3: nothing is
reported after the first and the second scan, the edge is reported after the third. -/
theorem MatrixSensor.edge_after_three_scans (s : MatrixSensor) (raw : Nat → Nat → Bool)
    (row col : Nat) (hq : s.QuietExcept raw row col)
    (hrow : row < s.num_rows) (hcol : col < s.num_cols)
    (hR : s.num_rows ≤ 8) (hC : s.num_cols ≤ 8)
    (hthr : s.debounce_threshold = 3)
    (hraw : raw row col ≠ s.current_state (s.buttonIndex row col))
    (hcnt : s.debounce_count (s.buttonIndex row col) = 0)
    (hl : raw row col ≠ s.last_reported (s.buttonIndex row col))
    (he : s.queue_head = s.queue_tail) :
    (s.scan raw).getReading = (Reading.empty, s.scan raw) ∧
    ((s.scan raw).scan raw).getReading = (Reading.empty, (s.scan raw).scan raw) ∧
    (((s.scan raw).scan raw).scan raw).getReading.1 =
      Reading.event (if raw row col then 1 else 0) InputType.Matrix
        (128 + row * s.num_cols + col) := by
  obtain ⟨hi, hi64⟩ := MatrixSensor.buttonIndex_eq s row col hrow hcol hR hC
  obtain ⟨e1, q1⟩ := MatrixSensor.scan_single_below s raw row col 0 hq hrow hcol hR hC hraw hcnt
    (by rw [hthr]; decide) (by rw [hthr]; decide)
  obtain ⟨e2, q2⟩ := MatrixSensor.scan_single_below _ raw row col 1 q1 hrow hcol hR hC hraw
    (by simp [setAt, MatrixSensor.buttonIndex]) (by simp [hthr]) (by simp [hthr])
  have e3 := MatrixSensor.scan_single_accept _ raw row col q2 hrow hcol hR hC hraw
    (by simp [setAt, MatrixSensor.buttonIndex, hthr])
    (by simp [setAt, MatrixSensor.buttonIndex]) hl
  rw [e1, e2, e3]
  refine ⟨MatrixSensor.getReading_of_empty _ he, MatrixSensor.getReading_of_empty _ he, ?_⟩
  refine (MatrixSensor.getReading_after_enqueue _ _ _ ?_).trans ?_
  · exact he
  · have hmod : (128 + s.buttonIndex row col) % 256 = 128 + row * s.num_cols + col := by
      rw [hi]; omega
    simp only [MatrixSensor.buttonIndex] at hmod ⊢
    rw [hmod]

/-! ## MatrixSensor: the claims -/

/-- C5, as stated, fails: in the 3x4 test matrix with the cells (0,0) and (1,1) held
for three scans (a reachable state), the first `getReading()` returns the press of pin 128
and the `getReading()` made right after it returns the press of pin 133, not empty. -/
theorem matrix_second_reading_not_empty :
    (MatrixSensor.heldForThreeScans [(0, 0), (1, 1)]).Reachable ∧
    (MatrixSensor.heldForThreeScans [(0, 0), (1, 1)]).getReading.1
      = Reading.event 1 InputType.Matrix 128 ∧
    (MatrixSensor.heldForThreeScans [(0, 0), (1, 1)]).getReading.1.has_value = true ∧
    (MatrixSensor.heldForThreeScans [(0, 0), (1, 1)]).getReading.2.getReading.1
      = Reading.event 1 InputType.Matrix 133 ∧
    (MatrixSensor.heldForThreeScans [(0, 0), (1, 1)]).getReading.2.getReading.1
      ≠ Reading.empty :=
  ⟨MatrixSensor.heldForThreeScans_reachable _, by decide, by decide, by decide, by decide⟩

/-- C5, amended: in every reachable state, a `getReading()` that returned a non-empty
reading consumed exactly one unread event of the queue, and a `getReading()` made right
after it (no `scan()` in between) returns the empty reading exactly when that event was the
only unread one; with more unread events it returns a non-empty reading again. -/
theorem matrix_reading_consumes_one_event (s : MatrixSensor) (hr : s.Reachable)
    (h : s.getReading.1.has_value = true) :
    s.getReading.2.queueCount + 1 = s.queueCount ∧
    (s.getReading.2.getReading.1 = Reading.empty ↔ s.queueCount = 1) ∧
    (s.getReading.2.getReading.1.has_value = true ↔ 1 < s.queueCount) := by
  obtain ⟨hh, ht⟩ := hr.queueInRange
  have hne : s.queue_head ≠ s.queue_tail := by
    intro he
    rw [MatrixSensor.getReading_of_empty s he] at h
    simp [Reading.empty] at h
  rw [MatrixSensor.getReading_of_nonempty s hne]
  dsimp only
  by_cases h2 : (s.queue_head + 1) % 8 = s.queue_tail
  · rw [MatrixSensor.getReading_of_empty _ h2]
    unfold MatrixSensor.queueCount
    simp only [Reading.empty, MatrixSensor.EVENT_QUEUE_SIZE] at *
    refine ⟨by omega, ⟨fun _ => by omega, fun _ => trivial⟩, ⟨fun hf => by simp at hf, fun _ => by omega⟩⟩
  · rw [MatrixSensor.getReading_of_nonempty _ h2]
    unfold MatrixSensor.queueCount
    simp only [Reading.empty, Reading.event, MatrixSensor.EVENT_QUEUE_SIZE] at *
    refine ⟨by omega, ⟨fun hf => by simp at hf, fun _ => by omega⟩, ⟨fun _ => by omega, fun _ => trivial⟩⟩

/-- C5 amended, on the 3x4 test matrix with the single cell (1,2) held for three scans:
one event is unread, it is consumed, and the next reading is empty. -/
theorem matrix_reading_consumes_one_event_witness :
    (MatrixSensor.heldForThreeScans [(1, 2)]).getReading.1.has_value = true ∧
    ((MatrixSensor.heldForThreeScans [(1, 2)]).getReading.2.queueCount + 1
        = (MatrixSensor.heldForThreeScans [(1, 2)]).queueCount ∧
     ((MatrixSensor.heldForThreeScans [(1, 2)]).getReading.2.getReading.1 = Reading.empty
        ↔ (MatrixSensor.heldForThreeScans [(1, 2)]).queueCount = 1) ∧
     ((MatrixSensor.heldForThreeScans [(1, 2)]).getReading.2.getReading.1.has_value = true
        ↔ 1 < (MatrixSensor.heldForThreeScans [(1, 2)]).queueCount)) :=
  ⟨by decide,
   matrix_reading_consumes_one_event (MatrixSensor.heldForThreeScans [(1, 2)])
     (MatrixSensor.heldForThreeScans_reachable _) (by decide)⟩

/-- C10: a `MatrixSensor` of any dimensions (clamped by the constructor) after `begin()`,
with exactly one in-range cell `(row, col)` held active and every other cell inactive:
`getReading()` returns empty after the first scan and after the second scan, and after the
third scan it returns `Reading(1, Matrix, 128 + row * num_cols + col)`. -/
theorem matrix_single_press_after_three_scans (mem : MatrixSensor) (rows cols : Nat)
    (row_pin_array col_pin_array : Nat → Nat) (row col : Nat)
    (hrow : row < (MatrixSensor.construct mem rows cols row_pin_array col_pin_array).num_rows)
    (hcol : col < (MatrixSensor.construct mem rows cols row_pin_array col_pin_array).num_cols) :
    (let s0 := (MatrixSensor.construct mem rows cols row_pin_array col_pin_array).begin
     let s1 := s0.scan (MatrixSensor.onlyCell row col)
     let s2 := s1.getReading.2.scan (MatrixSensor.onlyCell row col)
     let s3 := s2.getReading.2.scan (MatrixSensor.onlyCell row col)
     s1.getReading.1 = Reading.empty ∧
     s2.getReading.1 = Reading.empty ∧
     s3.getReading.1 = Reading.event 1 InputType.Matrix (128 + row * s0.num_cols + col)) := by
  intro s0 s1 s2 s3
  have hR : s0.num_rows ≤ 8 := by
    show (if rows < 8 then rows else 8) ≤ 8
    split_ifs <;> omega
  have hC : s0.num_cols ≤ 8 := by
    show (if cols < 8 then cols else 8) ≤ 8
    split_ifs <;> omega
  have hq : s0.QuietExcept (MatrixSensor.onlyCell row col) row col := by
    intro r c _ _ hne
    refine ⟨?_, rfl⟩
    show false = MatrixSensor.onlyCell row col r c
    rcases hne with h | h <;> simp [MatrixSensor.onlyCell, h]
  have hv : MatrixSensor.onlyCell row col row col = true := by simp [MatrixSensor.onlyCell]
  obtain ⟨g1, g2, g3⟩ := MatrixSensor.edge_after_three_scans s0 (MatrixSensor.onlyCell row col)
    row col hq hrow hcol hR hC rfl (by rw [hv]; exact Bool.noConfusion) rfl
    (by rw [hv]; exact Bool.noConfusion) rfl
  have h1 : s1.getReading = (Reading.empty, s1) := g1
  have hs2 : s2 = (s0.scan (MatrixSensor.onlyCell row col)).scan
      (MatrixSensor.onlyCell row col) := by
    show s1.getReading.2.scan (MatrixSensor.onlyCell row col) = _
    rw [h1]
  have h2 : s2.getReading = (Reading.empty, s2) := by
    rw [hs2]; exact g2
  have h3 : s3 = ((s0.scan (MatrixSensor.onlyCell row col)).scan
      (MatrixSensor.onlyCell row col)).scan (MatrixSensor.onlyCell row col) := by
    show s2.getReading.2.scan (MatrixSensor.onlyCell row col) = _
    rw [h2, hs2]
  refine ⟨by rw [h1], by rw [h2], ?_⟩
  rw [h3, g3, hv]
  rfl

/-- C10 on the 3x4 matrix of the test suite with the cell (1,2) held: pin 134. -/
theorem matrix_single_press_after_three_scans_witness :
    (MatrixSensor.testMatrix.begin.scan (MatrixSensor.onlyCell 1 2)).getReading.1
      = Reading.empty ∧
    ((MatrixSensor.testMatrix.begin.scan (MatrixSensor.onlyCell 1 2)).getReading.2.scan
        (MatrixSensor.onlyCell 1 2)).getReading.1 = Reading.empty ∧
    (((MatrixSensor.testMatrix.begin.scan (MatrixSensor.onlyCell 1 2)).getReading.2.scan
        (MatrixSensor.onlyCell 1 2)).getReading.2.scan (MatrixSensor.onlyCell 1 2)).getReading.1
      = Reading.event 1 InputType.Matrix 134 :=
  matrix_single_press_after_three_scans MatrixSensor.zeroed 3 4
    (fun i => [2, 3, 4].getD i 0) (fun i => [5, 6, 7, 8].getD i 0) 1 2 (by decide) (by decide)

/-! ## MatrixSensor: the event queue as a list -/

theorem MatrixSensor.entriesFrom_length (q : Nat → PendingEvent) (n : Nat) :
    ∀ pos, (MatrixSensor.entriesFrom q pos n).length = n := by
  induction n with
  | zero => intro pos; rfl
  | succ n ih => intro pos; simp [MatrixSensor.entriesFrom, ih]

theorem MatrixSensor.entriesFrom_mod (q : Nat → PendingEvent) (n : Nat) :
    ∀ pos, MatrixSensor.entriesFrom q (pos % 8) n = MatrixSensor.entriesFrom q pos n := by
  induction n with
  | zero => intro pos; rfl
  | succ n ih =>
    intro pos
    have h1 : (pos % 8 + 1) % 8 = (pos + 1) % 8 := by omega
    simp only [MatrixSensor.entriesFrom, Nat.mod_mod]
    rw [← ih (pos % 8 + 1), ← ih (pos + 1), h1]

theorem MatrixSensor.entriesFrom_setAt (q : Nat → PendingEvent) (t : Nat) (e : PendingEvent)
    (n : Nat) : ∀ pos, (∀ k, k < n → (pos + k) % 8 ≠ t) →
      MatrixSensor.entriesFrom (setAt q t e) pos n = MatrixSensor.entriesFrom q pos n := by
  induction n with
  | zero => intro pos _; rfl
  | succ n ih =>
    intro pos h
    have h0 : pos % 8 ≠ t := by simpa using h 0 (Nat.succ_pos n)
    simp only [MatrixSensor.entriesFrom, setAt_other _ _ _ _ h0]
    rw [ih (pos + 1) (fun k hk => by
      have := h (k + 1) (Nat.succ_lt_succ hk)
      rwa [Nat.add_assoc, Nat.add_comm 1 k])]

theorem MatrixSensor.entriesFrom_snoc (q : Nat → PendingEvent) (n : Nat) :
    ∀ pos, MatrixSensor.entriesFrom q pos (n + 1)
      = MatrixSensor.entriesFrom q pos n ++ [q ((pos + n) % 8)] := by
  induction n with
  | zero => intro pos; rfl
  | succ n ih =>
    intro pos
    have h := ih (pos + 1)
    have e : pos + 1 + n = pos + (n + 1) := by omega
    rw [e] at h
    show q (pos % 8) :: MatrixSensor.entriesFrom q (pos + 1) (n + 1) = _
    rw [h]
    rfl

theorem MatrixSensor.queueContents_length (s : MatrixSensor) :
    s.queueContents.length = s.queueCount :=
  MatrixSensor.entriesFrom_length _ _ _

theorem MatrixSensor.queueCount_def (s : MatrixSensor) :
    s.queueCount = (s.queue_tail + 8 - s.queue_head) % 8 := rfl

theorem MatrixSensor.queueInRange_def (s : MatrixSensor) :
    s.QueueInRange ↔ s.queue_head < 8 ∧ s.queue_tail < 8 := Iff.rfl

theorem MatrixSensor.enqueueEvent_of_full (s : MatrixSensor) (i : Nat) (p : Bool)
    (h : (s.queue_tail + 1) % 8 = s.queue_head) :
    s.enqueueEvent i p =
      { s with
        queue_head := (s.queue_head + 1) % 8
        event_queue := setAt s.event_queue s.queue_tail { button_index := i, pressed := p }
        queue_tail := (s.queue_tail + 1) % 8 } := by
  unfold MatrixSensor.enqueueEvent
  dsimp only
  rw [if_pos h]

theorem MatrixSensor.enqueueEvent_of_not_full (s : MatrixSensor) (i : Nat) (p : Bool)
    (h : (s.queue_tail + 1) % 8 ≠ s.queue_head) :
    s.enqueueEvent i p =
      { s with
        event_queue := setAt s.event_queue s.queue_tail { button_index := i, pressed := p }
        queue_tail := (s.queue_tail + 1) % 8 } := by
  unfold MatrixSensor.enqueueEvent
  dsimp only
  rw [if_neg h]

theorem MatrixSensor.queueCount_le (s : MatrixSensor) : s.queueCount ≤ 7 := by
  rw [MatrixSensor.queueCount_def]
  omega

theorem MatrixSensor.queueCount_eq_zero (s : MatrixSensor) (h : s.QueueInRange) :
    s.queueCount = 0 ↔ s.queue_head = s.queue_tail := by
  rw [MatrixSensor.queueInRange_def] at h
  rw [MatrixSensor.queueCount_def]
  omega

/-- Reading removes the oldest unread entry. -/
theorem MatrixSensor.queueContents_getReading (s : MatrixSensor) (h : s.QueueInRange)
    (hne : s.queue_head ≠ s.queue_tail) :
    s.queueContents = s.event_queue s.queue_head :: s.getReading.2.queueContents := by
  rw [MatrixSensor.queueInRange_def] at h
  rw [MatrixSensor.getReading_of_nonempty s hne]
  obtain ⟨n, hn⟩ : ∃ n, (s.queue_tail + 8 - s.queue_head) % 8 = n + 1 :=
    ⟨(s.queue_tail + 8 - s.queue_head) % 8 - 1, by omega⟩
  have hn2 : (s.queue_tail + 8 - (s.queue_head + 1) % 8) % 8 = n := by omega
  show MatrixSensor.entriesFrom s.event_queue s.queue_head
      ((s.queue_tail + 8 - s.queue_head) % 8)
    = s.event_queue s.queue_head :: MatrixSensor.entriesFrom s.event_queue
        ((s.queue_head + 1) % 8) ((s.queue_tail + 8 - (s.queue_head + 1) % 8) % 8)
  rw [hn, hn2, MatrixSensor.entriesFrom_mod]
  show s.event_queue (s.queue_head % 8) :: _ = _
  rw [Nat.mod_eq_of_lt h.1]

/-- Queueing appends the entry, after dropping the oldest one when the queue is full. -/
theorem MatrixSensor.queueContents_enqueueEvent (s : MatrixSensor) (i : Nat) (p : Bool)
    (h : s.QueueInRange) :
    (s.enqueueEvent i p).queueContents
      = MatrixSensor.push s.queueContents { button_index := i, pressed := p } := by
  rw [MatrixSensor.queueInRange_def] at h
  have hlen : s.queueContents.length = (s.queue_tail + 8 - s.queue_head) % 8 :=
    MatrixSensor.queueContents_length s
  show _ = (if s.queueContents.length = 7 then s.queueContents.tail else s.queueContents) ++ _
  rw [hlen]
  by_cases hfull : (s.queue_tail + 1) % 8 = s.queue_head
  · have hc : (s.queue_tail + 8 - s.queue_head) % 8 = 7 := by omega
    have hc2 : ((s.queue_tail + 1) % 8 + 8 - (s.queue_head + 1) % 8) % 8 = 6 + 1 := by omega
    have ht : (s.queue_head + 1 + 6) % 8 = s.queue_tail := by omega
    rw [MatrixSensor.enqueueEvent_of_full s i p hfull, if_pos hc]
    show MatrixSensor.entriesFrom (setAt s.event_queue s.queue_tail _) ((s.queue_head + 1) % 8)
        (((s.queue_tail + 1) % 8 + 8 - (s.queue_head + 1) % 8) % 8)
      = (MatrixSensor.entriesFrom s.event_queue s.queue_head
          ((s.queue_tail + 8 - s.queue_head) % 8)).tail ++ _
    rw [hc2, hc, MatrixSensor.entriesFrom_mod, MatrixSensor.entriesFrom_snoc,
      MatrixSensor.entriesFrom_setAt _ _ _ _ _ (fun k hk => by omega), ht, setAt_same]
    rfl
  · obtain ⟨n, hn⟩ : ∃ n, (s.queue_tail + 8 - s.queue_head) % 8 = n := ⟨_, rfl⟩
    have hc : ¬ (s.queue_tail + 8 - s.queue_head) % 8 = 7 := by omega
    have hc2 : ((s.queue_tail + 1) % 8 + 8 - s.queue_head) % 8 = n + 1 := by omega
    have ht : (s.queue_head + n) % 8 = s.queue_tail := by omega
    rw [MatrixSensor.enqueueEvent_of_not_full s i p hfull, if_neg hc]
    show MatrixSensor.entriesFrom (setAt s.event_queue s.queue_tail _) s.queue_head
        (((s.queue_tail + 1) % 8 + 8 - s.queue_head) % 8)
      = MatrixSensor.entriesFrom s.event_queue s.queue_head
          ((s.queue_tail + 8 - s.queue_head) % 8) ++ _
    rw [hc2, hn, MatrixSensor.entriesFrom_snoc,
      MatrixSensor.entriesFrom_setAt _ _ _ _ _ (fun k hk => by omega), ht, setAt_same]

theorem MatrixSensor.push_length_le (q : List PendingEvent) (e : PendingEvent)
    (h : q.length ≤ 7) : (MatrixSensor.push q e).length ≤ 7 := by
  show ((if q.length = 7 then q.tail else q) ++ [e]).length ≤ 7
  split_ifs with h7
  · simp [h7]
  · simp; omega

/-- A queue that starts with at most 7 entries holds the last 7 of all entries offered. -/
theorem MatrixSensor.foldl_push (es : List PendingEvent) :
    ∀ q : List PendingEvent, q.length ≤ 7 →
      es.foldl MatrixSensor.push q = (q ++ es).drop ((q ++ es).length - 7) := by
  induction es with
  | nil =>
    intro q h
    have h0 : (q ++ []).length - 7 = 0 := by simp; omega
    rw [h0]; simp
  | cons e es ih =>
    intro q h
    rw [List.foldl_cons, ih _ (MatrixSensor.push_length_le q e h)]
    by_cases h7 : q.length = 7
    · have hp : MatrixSensor.push q e = q.tail ++ [e] := by
        show (if q.length = 7 then q.tail else q) ++ [e] = _
        rw [if_pos h7]
      rw [hp]
      cases q with
      | nil => simp at h7
      | cons x q =>
        have hq : q.length = 6 := by simpa using h7
        have e1 : ((x :: q).tail ++ [e] ++ es).length - 7 = es.length := by
          simp [hq]; omega
        have e2 : (x :: q ++ e :: es).length - 7 = es.length + 1 := by
          simp [hq]
        rw [e1, e2]
        simp
    · have hp : MatrixSensor.push q e = q ++ [e] := by
        show (if q.length = 7 then q.tail else q) ++ [e] = _
        rw [if_neg h7]
      rw [hp]
      simp

theorem MatrixSensor.enqueueAll_spec (es : List PendingEvent) :
    ∀ s : MatrixSensor, s.QueueInRange →
      (s.enqueueAll es).QueueInRange ∧
      (s.enqueueAll es).queueContents = es.foldl MatrixSensor.push s.queueContents := by
  induction es with
  | nil => intro s h; exact ⟨h, rfl⟩
  | cons e es ih =>
    intro s h
    have h2 := MatrixSensor.enqueueEvent_inRange s e.button_index e.pressed h
    obtain ⟨a, b⟩ := ih _ h2
    refine ⟨a, ?_⟩
    show ((s.enqueueEvent e.button_index e.pressed).enqueueAll es).queueContents = _
    rw [b, MatrixSensor.queueContents_enqueueEvent s _ _ h]
    rfl

/-- What one `getReading()` does in terms of the queue contents. -/
theorem MatrixSensor.getReading_spec (s : MatrixSensor) (h : s.QueueInRange) :
    (s.queueContents = [] → s.getReading = (Reading.empty, s)) ∧
    (∀ e q, s.queueContents = e :: q →
      e = s.event_queue s.queue_head ∧
      s.getReading.1 = MatrixSensor.eventReading e ∧
      s.getReading.1.has_value = true ∧
      s.getReading.2.queueContents = q ∧
      s.getReading.2.QueueInRange ∧
      s.getReading.2 =
        { s with
          queue_head := (s.queue_head + 1) % 8
          last_reported := setAt s.last_reported e.button_index e.pressed }) := by
  constructor
  · intro hq
    have hc : s.queueCount = 0 := by rw [← MatrixSensor.queueContents_length, hq]; rfl
    exact MatrixSensor.getReading_of_empty s ((MatrixSensor.queueCount_eq_zero s h).1 hc)
  · intro e q hq
    have hne : s.queue_head ≠ s.queue_tail := by
      intro he
      have hc := (MatrixSensor.queueCount_eq_zero s h).2 he
      rw [← MatrixSensor.queueContents_length, hq] at hc
      simp at hc
    have hpop := MatrixSensor.queueContents_getReading s h hne
    rw [hq] at hpop
    obtain ⟨he, hq2⟩ := List.cons.inj hpop
    have hr := MatrixSensor.getReading_inRange s h
    refine ⟨he, ?_, ?_, hq2.symm, hr, ?_⟩
    · rw [MatrixSensor.getReading_of_nonempty s hne, he]; rfl
    · rw [MatrixSensor.getReading_of_nonempty s hne]; rfl
    · rw [MatrixSensor.getReading_of_nonempty s hne, he]

/-- With enough fuel the drain loop forwards the readings of all unread entries, oldest
first, and ends on an empty queue. -/
theorem MatrixSensor.drain_spec (fuel : Nat) :
    ∀ s : MatrixSensor, s.QueueInRange → s.queueCount < fuel →
      (s.drain fuel).1 = s.queueContents.map MatrixSensor.eventReading ∧
      (s.drain fuel).2.queueContents = [] ∧
      (s.drain fuel).2.QueueInRange ∧
      (s.drain fuel).2.getReading = (Reading.empty, (s.drain fuel).2) := by
  induction fuel with
  | zero => intro s _ h; omega
  | succ fuel ih =>
    intro s h hc
    obtain ⟨hnil, hcons⟩ := MatrixSensor.getReading_spec s h
    cases hq : s.queueContents with
    | nil =>
      have g := hnil hq
      have hd : s.drain (fuel + 1) = ([], s) := by
        show (if s.getReading.1.has_value then _ else _) = _
        rw [g]; rfl
      rw [hd]
      exact ⟨rfl, hq, h, g⟩
    | cons e q =>
      obtain ⟨_, g1, g2, g3, g4, _⟩ := hcons e q hq
      have hlen : s.getReading.2.queueCount < fuel := by
        have h1 := MatrixSensor.queueContents_length s
        have h2 := MatrixSensor.queueContents_length s.getReading.2
        rw [hq] at h1
        rw [g3] at h2
        simp at h1
        omega
      obtain ⟨i1, i2, i3, i4⟩ := ih _ g4 hlen
      have hd : s.drain (fuel + 1) =
          (s.getReading.1 :: (s.getReading.2.drain fuel).1, (s.getReading.2.drain fuel).2) := by
        show (if s.getReading.1.has_value then _ else _) = _
        rw [if_pos g2]
      rw [hd]
      refine ⟨?_, i2, i3, i4⟩
      show s.getReading.1 :: (s.getReading.2.drain fuel).1 = _
      rw [i1, g1, g3]
      rfl

/-- The reading number `k` (counted from 0) of a run of `getReading()` calls is non-empty
exactly while unread entries are left. -/
theorem MatrixSensor.afterReadings_spec (k : Nat) :
    ∀ s : MatrixSensor, s.QueueInRange →
      ((s.afterReadings k).getReading.1.has_value = true ↔ k < s.queueCount) := by
  induction k with
  | zero =>
    intro s h
    obtain ⟨hnil, hcons⟩ := MatrixSensor.getReading_spec s h
    have hl := MatrixSensor.queueContents_length s
    show s.getReading.1.has_value = true ↔ _
    cases hq : s.queueContents with
    | nil =>
      rw [hnil hq]
      rw [hq] at hl
      simp [Reading.empty, ← hl]
    | cons e q =>
      obtain ⟨_, _, g2, _⟩ := hcons e q hq
      rw [hq] at hl
      simp [g2, ← hl]
  | succ k ih =>
    intro s h
    obtain ⟨hnil, hcons⟩ := MatrixSensor.getReading_spec s h
    have hl := MatrixSensor.queueContents_length s
    show (s.getReading.2.afterReadings k).getReading.1.has_value = true ↔ _
    cases hq : s.queueContents with
    | nil =>
      rw [hnil hq]
      rw [ih s h]
      rw [hq] at hl
      simp [← hl]
    | cons e q =>
      obtain ⟨_, _, _, g3, g4, _⟩ := hcons e q hq
      have hl2 := MatrixSensor.queueContents_length s.getReading.2
      rw [ih _ g4]
      rw [hq] at hl
      rw [g3] at hl2
      simp at hl
      omega

/-! ## MatrixSensor: a cell step is a `ButtonSensor` step -/

theorem MatrixSensor.scanButton_of_agree (s : MatrixSensor) (r c : Nat) (raw : Bool)
    (h : raw = s.current_state (s.buttonIndex r c)) :
    s.scanButton r c raw =
      { s with debounce_count := setAt s.debounce_count (s.buttonIndex r c) 0 } := by
  unfold MatrixSensor.scanButton
  dsimp only
  rw [if_pos h]

theorem MatrixSensor.scanButton_of_below (s : MatrixSensor) (r c : Nat) (raw : Bool)
    (h : raw ≠ s.current_state (s.buttonIndex r c))
    (hlt : ¬ s.debounce_threshold ≤ (s.debounce_count (s.buttonIndex r c) + 1) % 256) :
    s.scanButton r c raw =
      { s with debounce_count := setAt s.debounce_count (s.buttonIndex r c)
                 ((s.debounce_count (s.buttonIndex r c) + 1) % 256) } := by
  unfold MatrixSensor.scanButton
  dsimp only
  rw [if_neg h, if_neg (by rw [setAt_same]; exact hlt)]

theorem MatrixSensor.scanButton_of_accept (s : MatrixSensor) (r c : Nat) (raw : Bool)
    (h : raw ≠ s.current_state (s.buttonIndex r c))
    (hge : s.debounce_threshold ≤ (s.debounce_count (s.buttonIndex r c) + 1) % 256) :
    s.scanButton r c raw =
      if raw ≠ s.last_reported (s.buttonIndex r c) then
        ({ s with
           debounce_count := setAt s.debounce_count (s.buttonIndex r c) 0
           current_state := setAt s.current_state (s.buttonIndex r c) raw } :
          MatrixSensor).enqueueEvent (s.buttonIndex r c) raw
      else
        { s with
          debounce_count := setAt s.debounce_count (s.buttonIndex r c) 0
          current_state := setAt s.current_state (s.buttonIndex r c) raw } := by
  unfold MatrixSensor.scanButton
  dsimp only
  rw [if_neg h, if_pos (by rw [setAt_same]; exact hge), setAt_setAt, setAt_same]

/-- The three outcomes of a `ButtonSensor` step on the debounce state of one cell. -/
theorem MatrixSensor.cellSensor_scan (s : MatrixSensor) (i : Nat) (raw : Bool) :
    (raw = s.current_state i →
      ((s.cellSensor i).scan raw).current_state = s.current_state i ∧
      ((s.cellSensor i).scan raw).debounce_count = 0 ∧
      ((s.cellSensor i).scan raw).has_pending_event = false) ∧
    (raw ≠ s.current_state i → ¬ s.debounce_threshold ≤ (s.debounce_count i + 1) % 256 →
      ((s.cellSensor i).scan raw).current_state = s.current_state i ∧
      ((s.cellSensor i).scan raw).debounce_count = (s.debounce_count i + 1) % 256 ∧
      ((s.cellSensor i).scan raw).has_pending_event = false) ∧
    (raw ≠ s.current_state i → s.debounce_threshold ≤ (s.debounce_count i + 1) % 256 →
      ((s.cellSensor i).scan raw).current_state = raw ∧
      ((s.cellSensor i).scan raw).debounce_count = 0 ∧
      (((s.cellSensor i).scan raw).has_pending_event = true ↔ raw ≠ s.last_reported i)) := by
  refine ⟨fun h => ?_, fun h hlt => ?_, fun h hge => ?_⟩
  · simp [ButtonSensor.scan, MatrixSensor.cellSensor, h]
  · simp [ButtonSensor.scan, MatrixSensor.cellSensor, h, hlt]
  · have e : (s.cellSensor i).scan raw =
        { s.cellSensor i with
          current_state := raw, debounce_count := 0, raw_state := raw
          has_pending_event := if raw ≠ s.last_reported i then true else false } := by
      unfold ButtonSensor.scan MatrixSensor.cellSensor
      dsimp only
      rw [if_neg h, if_pos hge]
      by_cases hl : raw = s.last_reported i
      · rw [if_neg (by simpa using hl), if_neg (by simpa using hl)]
      · rw [if_pos hl, if_pos hl]
    rw [e]
    refine ⟨rfl, rfl, ?_⟩
    by_cases hl : raw = s.last_reported i
    · simp [hl]
    · simp [hl]

/-- One cell step of the matrix: the debounce state of the cell moves as a `ButtonSensor`
does, and the event is queued exactly when the `ButtonSensor` would mark it pending. -/
theorem MatrixSensor.scanButton_cell (s : MatrixSensor) (r c : Nat) (raw : Bool)
    (h : s.QueueInRange) :
    (s.scanButton r c raw).current_state =
      setAt s.current_state (s.buttonIndex r c)
        ((s.cellSensor (s.buttonIndex r c)).scan raw).current_state ∧
    (s.scanButton r c raw).debounce_count =
      setAt s.debounce_count (s.buttonIndex r c)
        ((s.cellSensor (s.buttonIndex r c)).scan raw).debounce_count ∧
    (s.scanButton r c raw).queueContents =
      (s.cellEvent r c raw).toList.foldl MatrixSensor.push s.queueContents := by
  obtain ⟨ha, hb, hc⟩ := MatrixSensor.cellSensor_scan s (s.buttonIndex r c) raw
  by_cases h1 : raw = s.current_state (s.buttonIndex r c)
  · obtain ⟨b1, b2, b3⟩ := ha h1
    have he : s.cellEvent r c raw = none := by simp [MatrixSensor.cellEvent, b3]
    rw [MatrixSensor.scanButton_of_agree s r c raw h1, b1, b2, he]
    exact ⟨(setAt_self _ _ _ rfl).symm, rfl, rfl⟩
  · by_cases h2 : s.debounce_threshold ≤ (s.debounce_count (s.buttonIndex r c) + 1) % 256
    · obtain ⟨b1, b2, b3⟩ := hc h1 h2
      rw [MatrixSensor.scanButton_of_accept s r c raw h1 h2, b1, b2]
      by_cases hl : raw = s.last_reported (s.buttonIndex r c)
      · have b4 : ((s.cellSensor (s.buttonIndex r c)).scan raw).has_pending_event = false := by
          cases hp : ((s.cellSensor (s.buttonIndex r c)).scan raw).has_pending_event
          · rfl
          · exact absurd hl (b3.1 hp)
        have he : s.cellEvent r c raw = none := by simp [MatrixSensor.cellEvent, b4]
        rw [if_neg (by simpa using hl), he]
        exact ⟨rfl, rfl, rfl⟩
      · have b4 := b3.2 hl
        have he : s.cellEvent r c raw
            = some { button_index := s.buttonIndex r c, pressed := raw } := by
          simp [MatrixSensor.cellEvent, b4, b1]
        rw [if_pos hl, he]
        obtain ⟨_, _, e3, _, e5, _⟩ := MatrixSensor.enqueueEvent_cells
          ({ s with
             debounce_count := setAt s.debounce_count (s.buttonIndex r c) 0
             current_state := setAt s.current_state (s.buttonIndex r c) raw } : MatrixSensor)
          (s.buttonIndex r c) raw
        refine ⟨e3, e5, ?_⟩
        exact MatrixSensor.queueContents_enqueueEvent
          ({ s with
             debounce_count := setAt s.debounce_count (s.buttonIndex r c) 0
             current_state := setAt s.current_state (s.buttonIndex r c) raw } : MatrixSensor)
          (s.buttonIndex r c) raw h
    · obtain ⟨b1, b2, b3⟩ := hb h1 h2
      have he : s.cellEvent r c raw = none := by simp [MatrixSensor.cellEvent, b3]
      rw [MatrixSensor.scanButton_of_below s r c raw h1 h2, b1, b2, he]
      exact ⟨(setAt_self _ _ _ rfl).symm, rfl, rfl⟩

/-! ## MatrixSensor: a pass over cells with distinct indices -/

theorem MatrixSensor.cellSensor_congr (s t : MatrixSensor) (j : Nat)
    (h1 : t.debounce_threshold = s.debounce_threshold)
    (h2 : t.current_state j = s.current_state j)
    (h3 : t.last_reported j = s.last_reported j)
    (h4 : t.debounce_count j = s.debounce_count j) : t.cellSensor j = s.cellSensor j := by
  simp [MatrixSensor.cellSensor, MatrixSensor.virtualPin, h1, h2, h3, h4]

theorem MatrixSensor.cellEvents_cons (s : MatrixSensor) (raw : Nat → Nat → Bool)
    (x : Nat × Nat) (l : List (Nat × Nat)) :
    s.cellEvents raw (x :: l)
      = (s.cellEvent x.1 x.2 (raw x.1 x.2)).toList ++ s.cellEvents raw l := by
  unfold MatrixSensor.cellEvents
  rw [List.filterMap_cons]
  cases s.cellEvent x.1 x.2 (raw x.1 x.2) <;> rfl

/-- The effect of the cell steps for a list of cells with pairwise different indices: every
listed cell makes its own `ButtonSensor` step from the state before the pass, the other
cells and every `last_reported` stay, and the events are queued in the order of the list. -/
theorem MatrixSensor.scanCells_spec (raw : Nat → Nat → Bool) (l : List (Nat × Nat)) :
    ∀ s : MatrixSensor, s.QueueInRange →
      (l.map (fun rc => s.buttonIndex rc.1 rc.2)).Nodup →
      (s.scanCells raw l).num_rows = s.num_rows ∧
      (s.scanCells raw l).num_cols = s.num_cols ∧
      (s.scanCells raw l).debounce_threshold = s.debounce_threshold ∧
      (s.scanCells raw l).last_reported = s.last_reported ∧
      (∀ rc ∈ l,
        (s.scanCells raw l).current_state (s.buttonIndex rc.1 rc.2) =
          ((s.cellSensor (s.buttonIndex rc.1 rc.2)).scan (raw rc.1 rc.2)).current_state ∧
        (s.scanCells raw l).debounce_count (s.buttonIndex rc.1 rc.2) =
          ((s.cellSensor (s.buttonIndex rc.1 rc.2)).scan (raw rc.1 rc.2)).debounce_count) ∧
      (∀ j, (∀ rc ∈ l, s.buttonIndex rc.1 rc.2 ≠ j) →
        (s.scanCells raw l).current_state j = s.current_state j ∧
        (s.scanCells raw l).debounce_count j = s.debounce_count j) ∧
      (s.scanCells raw l).QueueInRange ∧
      (s.scanCells raw l).queueContents
        = (s.cellEvents raw l).foldl MatrixSensor.push s.queueContents := by
  induction l with
  | nil =>
    intro s h _
    exact ⟨rfl, rfl, rfl, rfl, fun rc hrc => absurd hrc (List.not_mem_nil rc),
      fun j _ => ⟨rfl, rfl⟩, h, rfl⟩
  | cons x l ih =>
    intro s h hnd
    obtain ⟨f1, f2, f3, f4, f5⟩ := MatrixSensor.scanButton_frame s x.1 x.2 (raw x.1 x.2)
    obtain ⟨c1, c2, c3⟩ := MatrixSensor.scanButton_cell s x.1 x.2 (raw x.1 x.2) h
    have hr := MatrixSensor.scanButton_inRange s x.1 x.2 (raw x.1 x.2) h
    have hidx : ∀ r c, (s.scanButton x.1 x.2 (raw x.1 x.2)).buttonIndex r c = s.buttonIndex r c := by
      intro r c; simp [MatrixSensor.buttonIndex, f2]
    have hfun : (fun rc : Nat × Nat => (s.scanButton x.1 x.2 (raw x.1 x.2)).buttonIndex rc.1 rc.2)
        = (fun rc : Nat × Nat => s.buttonIndex rc.1 rc.2) := by
      funext rc; exact hidx rc.1 rc.2
    rw [List.map_cons, List.nodup_cons] at hnd
    have hx : ∀ rc ∈ l, s.buttonIndex rc.1 rc.2 ≠ s.buttonIndex x.1 x.2 := by
      intro rc hrc e
      exact hnd.1 (List.mem_map.2 ⟨rc, hrc, e⟩)
    obtain ⟨i1, i2, i3, i4, i5, i6, i7, i8⟩ :=
      ih (s.scanButton x.1 x.2 (raw x.1 x.2)) hr (by rw [hfun]; exact hnd.2)
    have hcell : ∀ rc ∈ l,
        (s.scanButton x.1 x.2 (raw x.1 x.2)).cellSensor (s.buttonIndex rc.1 rc.2)
          = s.cellSensor (s.buttonIndex rc.1 rc.2) := by
      intro rc hrc
      obtain ⟨g1, g2⟩ := f5 _ (hx rc hrc)
      exact MatrixSensor.cellSensor_congr _ _ _ f3 g1 (by rw [f4]) g2
    have hev : (s.scanButton x.1 x.2 (raw x.1 x.2)).cellEvents raw l = s.cellEvents raw l := by
      unfold MatrixSensor.cellEvents
      apply List.filterMap_congr
      intro rc hrc
      unfold MatrixSensor.cellEvent
      rw [hidx, hcell rc hrc]
    have hstep : s.scanCells raw (x :: l)
        = (s.scanButton x.1 x.2 (raw x.1 x.2)).scanCells raw l := rfl
    rw [hstep]
    refine ⟨i1.trans f1, i2.trans f2, i3.trans f3, i4.trans f4, ?_, ?_, i7, ?_⟩
    · intro rc hrc
      rcases List.mem_cons.1 hrc with e | hrc
      · subst e
        obtain ⟨g1, g2⟩ := i6 (s.buttonIndex rc.1 rc.2)
          (fun y hy => by rw [hidx]; exact hx y hy)
        rw [g1, g2, c1, c2, setAt_same, setAt_same]
        exact ⟨rfl, rfl⟩
      · have h5 := i5 rc hrc
        rw [hidx, hcell rc hrc] at h5
        exact h5
    · intro j hj
      have hjx : j ≠ s.buttonIndex x.1 x.2 := fun e => hj x (List.mem_cons_self x l) e.symm
      obtain ⟨g1, g2⟩ := i6 j (fun rc hrc => by
        rw [hidx]; exact hj rc (List.mem_cons_of_mem x hrc))
      obtain ⟨g3, g4⟩ := f5 j hjx
      exact ⟨g1.trans g3, g2.trans g4⟩
    · rw [i8, hev, c3, MatrixSensor.cellEvents_cons, List.foldl_append]

/-! ## MatrixSensor: a scan is a pass over the cells in row-major order -/

theorem MatrixSensor.scanCells_num_cols (raw : Nat → Nat → Bool) (l : List (Nat × Nat))
    (s : MatrixSensor) : (s.scanCells raw l).num_cols = s.num_cols := by
  unfold MatrixSensor.scanCells
  apply foldl_invariant (fun t : MatrixSensor => t.num_cols = s.num_cols) _ l s rfl
  intro t x _ ht
  exact (MatrixSensor.scanButton_frame t x.1 x.2 _).2.1.trans ht

theorem MatrixSensor.scanCells_append (raw : Nat → Nat → Bool) (l1 l2 : List (Nat × Nat))
    (s : MatrixSensor) :
    s.scanCells raw (l1 ++ l2) = (s.scanCells raw l1).scanCells raw l2 := by
  unfold MatrixSensor.scanCells
  rw [List.foldl_append]

theorem MatrixSensor.scanRow_eq_scanCells (s : MatrixSensor) (raw : Nat → Nat → Bool)
    (r : Nat) :
    s.scanRow raw r = s.scanCells raw ((List.range s.num_cols).map (fun c => (r, c))) := by
  unfold MatrixSensor.scanRow MatrixSensor.scanCells
  rw [List.foldl_map]

theorem MatrixSensor.foldl_scanRow (raw : Nat → Nat → Bool) (rows : List Nat) :
    ∀ s : MatrixSensor, rows.foldl (fun st r => MatrixSensor.scanRow st raw r) s
      = s.scanCells raw
          (rows.flatMap (fun r => (List.range s.num_cols).map (fun c => (r, c)))) := by
  induction rows with
  | nil => intro s; rfl
  | cons r rows ih =>
    intro s
    rw [List.foldl_cons, ih, List.flatMap_cons, MatrixSensor.scanCells_append,
      MatrixSensor.scanRow_eq_scanCells, MatrixSensor.scanCells_num_cols]

theorem MatrixSensor.scan_eq_scanCells (s : MatrixSensor) (raw : Nat → Nat → Bool) :
    s.scan raw = s.scanCells raw s.cellList :=
  MatrixSensor.foldl_scanRow raw (List.range s.num_rows) s

theorem MatrixSensor.mem_cellList (s : MatrixSensor) (rc : Nat × Nat) :
    rc ∈ s.cellList ↔ rc.1 < s.num_rows ∧ rc.2 < s.num_cols := by
  unfold MatrixSensor.cellList
  rw [List.mem_flatMap]
  constructor
  · rintro ⟨r, hr, hrc⟩
    obtain ⟨c, hc, e⟩ := List.mem_map.1 hrc
    subst e
    exact ⟨List.mem_range.1 hr, List.mem_range.1 hc⟩
  · rintro ⟨h1, h2⟩
    exact ⟨rc.1, List.mem_range.2 h1, List.mem_map.2 ⟨rc.2, List.mem_range.2 h2, rfl⟩⟩

theorem MatrixSensor.cellList_nodup (s : MatrixSensor) : s.cellList.Nodup := by
  unfold MatrixSensor.cellList
  rw [List.nodup_flatMap]
  constructor
  · intro r _
    exact (List.nodup_range _).map (fun a b e => (Prod.mk.inj e).2)
  · apply (List.nodup_range _).pairwise_of_forall_ne
    intro a _ b _ hab x hxa hxb
    obtain ⟨c1, _, e1⟩ := List.mem_map.1 hxa
    obtain ⟨c2, _, e2⟩ := List.mem_map.1 hxb
    rw [← e2] at e1
    exact hab (Prod.mk.inj e1).1

theorem MatrixSensor.cellList_index_nodup (s : MatrixSensor)
    (hR : s.num_rows ≤ 8) (hC : s.num_cols ≤ 8) :
    (s.cellList.map (fun rc => s.buttonIndex rc.1 rc.2)).Nodup := by
  apply List.Nodup.map_on _ (MatrixSensor.cellList_nodup s)
  intro x hx y hy e
  obtain ⟨hx1, hx2⟩ := (MatrixSensor.mem_cellList s x).1 hx
  obtain ⟨hy1, hy2⟩ := (MatrixSensor.mem_cellList s y).1 hy
  by_contra hne
  have hne2 : x.1 ≠ y.1 ∨ x.2 ≠ y.2 := by
    by_contra h
    push_neg at h
    exact hne (Prod.ext h.1 h.2)
  exact MatrixSensor.buttonIndex_ne s x.1 x.2 y.1 y.2 hx1 hx2 hy1 hy2 hR hC hne2 e

/-- One `scan()` of a matrix of at most 8x8 cells: every in-range cell makes its own
`ButtonSensor` step, and the events are queued in row-major order. -/
theorem MatrixSensor.scan_spec (s : MatrixSensor) (raw : Nat → Nat → Bool)
    (h : s.QueueInRange) (hR : s.num_rows ≤ 8) (hC : s.num_cols ≤ 8) :
    (s.scan raw).num_rows = s.num_rows ∧
    (s.scan raw).num_cols = s.num_cols ∧
    (s.scan raw).debounce_threshold = s.debounce_threshold ∧
    (s.scan raw).last_reported = s.last_reported ∧
    (∀ r c, r < s.num_rows → c < s.num_cols →
      (s.scan raw).current_state (s.buttonIndex r c) =
        ((s.cellSensor (s.buttonIndex r c)).scan (raw r c)).current_state ∧
      (s.scan raw).debounce_count (s.buttonIndex r c) =
        ((s.cellSensor (s.buttonIndex r c)).scan (raw r c)).debounce_count) ∧
    (s.scan raw).QueueInRange ∧
    (s.scan raw).queueContents
      = (s.cellEvents raw s.cellList).foldl MatrixSensor.push s.queueContents := by
  rw [MatrixSensor.scan_eq_scanCells]
  obtain ⟨i1, i2, i3, i4, i5, _, i7, i8⟩ := MatrixSensor.scanCells_spec raw s.cellList s h
    (MatrixSensor.cellList_index_nodup s hR hC)
  exact ⟨i1, i2, i3, i4,
    fun r c hr hc => i5 (r, c) ((MatrixSensor.mem_cellList s (r, c)).2 ⟨hr, hc⟩), i7, i8⟩

theorem filterMap_none {α β : Type} (f : α → Option β) (l : List α)
    (h : ∀ x ∈ l, f x = none) : l.filterMap f = [] := by
  induction l with
  | nil => rfl
  | cons x l ih =>
    rw [List.filterMap_cons, h x (List.mem_cons_self x l)]
    exact ih (fun y hy => h y (List.mem_cons_of_mem x hy))

theorem filterMap_ite {α β : Type} (p : α → Bool) (f : α → β) (l : List α) :
    l.filterMap (fun x => if p x = true then some (f x) else none) = (l.filter p).map f := by
  induction l with
  | nil => rfl
  | cons x l ih =>
    rw [List.filterMap_cons]
    by_cases hp : p x = true
    · simp only [hp, if_true, List.filter_cons_of_pos, List.map_cons]
      rw [ih]
    · simp only [hp, if_false, Bool.false_eq_true]
      rw [ih, List.filter_cons_of_neg hp]

/-! ## MatrixSensor: an input held on a settled matrix -/

theorem MatrixSensor.held_zero (s0 : MatrixSensor) (raw : Nat → Nat → Bool)
    (hs : s0.Settled) (hq : s0.QueueInRange) : MatrixSensor.Held s0 s0 raw 0 := by
  refine ⟨rfl, rfl, rfl, hq, rfl, fun r c hr hc => ⟨rfl, (hs r c hr hc).2, ?_⟩⟩
  rw [(hs r c hr hc).1]
  split_ifs <;> rfl

theorem MatrixSensor.held_index (s0 t : MatrixSensor) (raw : Nat → Nat → Bool) (j : Nat)
    (ht : MatrixSensor.Held s0 t raw j) (r c : Nat) :
    t.buttonIndex r c = s0.buttonIndex r c := by
  simp [MatrixSensor.buttonIndex, ht.2.1]

/-- A further scan with the held input that stays below the threshold only counts up. -/
theorem MatrixSensor.held_step (s0 t : MatrixSensor) (raw : Nat → Nat → Bool) (j : Nat)
    (ht : MatrixSensor.Held s0 t raw j) (hj : j + 1 < s0.debounce_threshold)
    (hthr : s0.debounce_threshold ≤ 255)
    (hR : s0.num_rows ≤ 8) (hC : s0.num_cols ≤ 8) :
    MatrixSensor.Held s0 (t.scan raw) raw (j + 1) := by
  have hidx := MatrixSensor.held_index s0 t raw j ht
  obtain ⟨h1, h2, h3, h4, h5, h6⟩ := ht
  obtain ⟨i1, i2, i3, i4, i5, i6, i7⟩ := MatrixSensor.scan_spec t raw h4
    (by rw [h1]; exact hR) (by rw [h2]; exact hC)
  have hmod : (j + 1) % 256 = j + 1 := Nat.mod_eq_of_lt (by omega)
  have hstep : ∀ r c, r < s0.num_rows → c < s0.num_cols →
      ((t.cellSensor (s0.buttonIndex r c)).scan (raw r c)).current_state
        = s0.current_state (s0.buttonIndex r c) ∧
      ((t.cellSensor (s0.buttonIndex r c)).scan (raw r c)).debounce_count
        = (if raw r c = s0.current_state (s0.buttonIndex r c) then 0 else j + 1) ∧
      ((t.cellSensor (s0.buttonIndex r c)).scan (raw r c)).has_pending_event = false := by
    intro r c hr hc
    obtain ⟨g2, _, g4⟩ := h6 r c hr hc
    obtain ⟨ca, cb, _⟩ := MatrixSensor.cellSensor_scan t (s0.buttonIndex r c) (raw r c)
    by_cases he : raw r c = s0.current_state (s0.buttonIndex r c)
    · obtain ⟨b1, b2, b3⟩ := ca (by rw [g2]; exact he)
      rw [b1, b2, b3, g2, if_pos he]
      exact ⟨rfl, rfl, rfl⟩
    · obtain ⟨b1, b2, b3⟩ := cb (by rw [g2]; exact he)
        (by rw [g4, if_neg he, h3, hmod]; omega)
      rw [b1, b2, b3, g2, g4, if_neg he, if_neg he, hmod]
      exact ⟨rfl, rfl, rfl⟩
  have hev : t.cellEvents raw t.cellList = [] := by
    apply filterMap_none
    intro rc hrc
    obtain ⟨hr, hc⟩ := (MatrixSensor.mem_cellList t rc).1 hrc
    rw [h1] at hr
    rw [h2] at hc
    rw [MatrixSensor.cellEvent, hidx, (hstep rc.1 rc.2 hr hc).2.2]
    rfl
  refine ⟨i1.trans h1, i2.trans h2, i3.trans h3, i6, ?_, ?_⟩
  · rw [i7, hev, ← h5]; rfl
  · intro r c hr hc
    obtain ⟨_, g3, _⟩ := h6 r c hr hc
    obtain ⟨k1, k2⟩ := i5 r c (by rw [h1]; exact hr) (by rw [h2]; exact hc)
    rw [hidx] at k1 k2
    obtain ⟨b1, b2, _⟩ := hstep r c hr hc
    rw [i4, k1, k2, b1, b2]
    exact ⟨rfl, g3, rfl⟩

/-- The scan on which the held input reaches the threshold: every cell whose input differs
accepts it and queues its event, in row-major order. -/
theorem MatrixSensor.held_final (s0 t : MatrixSensor) (raw : Nat → Nat → Bool) (j : Nat)
    (ht : MatrixSensor.Held s0 t raw j) (hj : s0.debounce_threshold ≤ j + 1)
    (hj2 : j + 1 < 256) (hR : s0.num_rows ≤ 8) (hC : s0.num_cols ≤ 8) :
    (t.scan raw).num_rows = s0.num_rows ∧
    (t.scan raw).num_cols = s0.num_cols ∧
    (t.scan raw).debounce_threshold = s0.debounce_threshold ∧
    (t.scan raw).QueueInRange ∧
    (t.scan raw).queueContents
      = (s0.cellList.filterMap (s0.heldEvent raw)).foldl MatrixSensor.push s0.queueContents ∧
    (∀ r c, r < s0.num_rows → c < s0.num_cols →
      (t.scan raw).current_state (s0.buttonIndex r c) = raw r c ∧
      (t.scan raw).last_reported (s0.buttonIndex r c) = s0.current_state (s0.buttonIndex r c) ∧
      (t.scan raw).debounce_count (s0.buttonIndex r c) = 0) := by
  have hidx := MatrixSensor.held_index s0 t raw j ht
  obtain ⟨h1, h2, h3, h4, h5, h6⟩ := ht
  obtain ⟨i1, i2, i3, i4, i5, i6, i7⟩ := MatrixSensor.scan_spec t raw h4
    (by rw [h1]; exact hR) (by rw [h2]; exact hC)
  have hmod : (j + 1) % 256 = j + 1 := Nat.mod_eq_of_lt hj2
  have hstep : ∀ r c, r < s0.num_rows → c < s0.num_cols →
      ((t.cellSensor (s0.buttonIndex r c)).scan (raw r c)).current_state = raw r c ∧
      ((t.cellSensor (s0.buttonIndex r c)).scan (raw r c)).debounce_count = 0 ∧
      (((t.cellSensor (s0.buttonIndex r c)).scan (raw r c)).has_pending_event = true ↔
        raw r c ≠ s0.current_state (s0.buttonIndex r c)) := by
    intro r c hr hc
    obtain ⟨g2, g3, g4⟩ := h6 r c hr hc
    obtain ⟨ca, _, cc⟩ := MatrixSensor.cellSensor_scan t (s0.buttonIndex r c) (raw r c)
    by_cases he : raw r c = s0.current_state (s0.buttonIndex r c)
    · obtain ⟨b1, b2, b3⟩ := ca (by rw [g2]; exact he)
      rw [b1, b2, b3, g2]
      exact ⟨he.symm, rfl, by simp [he]⟩
    · obtain ⟨b1, b2, b3⟩ := cc (by rw [g2]; exact he)
        (by rw [g4, if_neg he, h3, hmod]; exact hj)
      rw [b1, b2, b3, g3]
      exact ⟨rfl, rfl, Iff.rfl⟩
  have hlist : t.cellList = s0.cellList := by
    unfold MatrixSensor.cellList
    rw [h1, h2]
  have hev : t.cellEvents raw t.cellList = s0.cellList.filterMap (s0.heldEvent raw) := by
    rw [hlist]
    unfold MatrixSensor.cellEvents
    apply List.filterMap_congr
    intro rc hrc
    obtain ⟨hr, hc⟩ := (MatrixSensor.mem_cellList s0 rc).1 hrc
    obtain ⟨b1, _, b3⟩ := hstep rc.1 rc.2 hr hc
    rw [MatrixSensor.cellEvent, MatrixSensor.heldEvent, hidx, b1]
    by_cases he : raw rc.1 rc.2 = s0.current_state (s0.buttonIndex rc.1 rc.2)
    · have hp : ((t.cellSensor (s0.buttonIndex rc.1 rc.2)).scan (raw rc.1 rc.2)).has_pending_event
          = false := by
        cases hp : ((t.cellSensor (s0.buttonIndex rc.1 rc.2)).scan
          (raw rc.1 rc.2)).has_pending_event
        · rfl
        · exact absurd he (b3.1 hp)
      rw [hp, if_pos he]
      rfl
    · rw [b3.2 he, if_neg he]
      rfl
  refine ⟨i1.trans h1, i2.trans h2, i3.trans h3, i6, ?_, ?_⟩
  · rw [i7, hev, h5]
  · intro r c hr hc
    obtain ⟨_, g3, _⟩ := h6 r c hr hc
    obtain ⟨k1, k2⟩ := i5 r c (by rw [h1]; exact hr) (by rw [h2]; exact hc)
    rw [hidx] at k1 k2
    obtain ⟨b1, b2, _⟩ := hstep r c hr hc
    rw [i4, k1, k2, b1, b2]
    exact ⟨rfl, g3, rfl⟩

/-- An input held for three scans on a settled matrix with threshold 3: the queue is
untouched by the first two scans; the third scan accepts the input of every cell and queues
the events of the cells that changed, in row-major order. -/
theorem MatrixSensor.held_three_scans (s0 : MatrixSensor) (raw : Nat → Nat → Bool)
    (hs : s0.Settled) (hq : s0.QueueInRange) (hthr : s0.debounce_threshold = 3)
    (hR : s0.num_rows ≤ 8) (hC : s0.num_cols ≤ 8) :
    (s0.scan raw).QueueInRange ∧ (s0.scan raw).queueContents = s0.queueContents ∧
    ((s0.scan raw).scan raw).QueueInRange ∧
    ((s0.scan raw).scan raw).queueContents = s0.queueContents ∧
    (((s0.scan raw).scan raw).scan raw).num_rows = s0.num_rows ∧
    (((s0.scan raw).scan raw).scan raw).num_cols = s0.num_cols ∧
    (((s0.scan raw).scan raw).scan raw).debounce_threshold = s0.debounce_threshold ∧
    (((s0.scan raw).scan raw).scan raw).QueueInRange ∧
    (((s0.scan raw).scan raw).scan raw).queueContents
      = (s0.cellList.filterMap (s0.heldEvent raw)).foldl MatrixSensor.push s0.queueContents ∧
    (∀ r c, r < s0.num_rows → c < s0.num_cols →
      (((s0.scan raw).scan raw).scan raw).current_state (s0.buttonIndex r c) = raw r c ∧
      (((s0.scan raw).scan raw).scan raw).last_reported (s0.buttonIndex r c)
        = s0.current_state (s0.buttonIndex r c) ∧
      (((s0.scan raw).scan raw).scan raw).debounce_count (s0.buttonIndex r c) = 0) := by
  have k0 := MatrixSensor.held_zero s0 raw hs hq
  have k1 := MatrixSensor.held_step s0 _ raw 0 k0 (by rw [hthr]; decide) (by rw [hthr]; decide) hR hC
  have k2 := MatrixSensor.held_step s0 _ raw 1 k1 (by rw [hthr]; decide) (by rw [hthr]; decide) hR hC
  obtain ⟨f1, f2, f3, f4, f5, f6⟩ := MatrixSensor.held_final s0 _ raw 2 k2
    (by rw [hthr]) (by decide) hR hC
  exact ⟨k1.2.2.2.1, k1.2.2.2.2.1, k2.2.2.2.1, k2.2.2.2.2.1, f1, f2, f3, f4, f5, f6⟩

/-! ## MatrixSensor: facts of every reachable state -/

theorem MatrixSensor.buttonIndex_lt_cells (s : MatrixSensor) (r c : Nat)
    (hr : r < s.num_rows) (hc : c < s.num_cols) (hR : s.num_rows ≤ 8) (hC : s.num_cols ≤ 8) :
    s.buttonIndex r c < s.num_rows * s.num_cols := by
  rw [(MatrixSensor.buttonIndex_eq s r c hr hc hR hC).1]
  have h1 : (r + 1) * s.num_cols ≤ s.num_rows * s.num_cols := Nat.mul_le_mul_right _ hr
  rw [Nat.succ_mul] at h1
  omega

theorem MatrixSensor.cells_le (s : MatrixSensor) (hR : s.num_rows ≤ 8) (hC : s.num_cols ≤ 8) :
    s.num_rows * s.num_cols ≤ 64 := Nat.mul_le_mul hR hC

theorem MatrixSensor.mem_foldl_push (es q : List PendingEvent) (e : PendingEvent)
    (hq : q.length ≤ 7) (h : e ∈ es.foldl MatrixSensor.push q) : e ∈ q ∨ e ∈ es := by
  rw [MatrixSensor.foldl_push es q hq] at h
  exact List.mem_append.1 (List.mem_of_mem_drop h)

theorem MatrixSensor.queueContents_length_le (s : MatrixSensor) : s.queueContents.length ≤ 7 := by
  rw [MatrixSensor.queueContents_length]
  exact MatrixSensor.queueCount_le s

theorem MatrixSensor.queueContents_of_empty (s : MatrixSensor)
    (h : s.queue_head = s.queue_tail) : s.queueContents = [] := by
  have hc : s.queueCount = 0 := by
    rw [MatrixSensor.queueCount_def]; omega
  unfold MatrixSensor.queueContents
  rw [hc]
  rfl

theorem MatrixSensor.wellFormed_def (s : MatrixSensor) :
    s.WellFormed ↔ s.num_rows ≤ 8 ∧ s.num_cols ≤ 8 ∧ s.debounce_threshold = 3 ∧
      s.QueueInRange ∧ ∀ e ∈ s.queueContents, e.button_index < s.num_rows * s.num_cols :=
  Iff.rfl

theorem MatrixSensor.wellFormed_construct (mem : MatrixSensor) (rows cols : Nat)
    (rp cp : Nat → Nat) : (MatrixSensor.construct mem rows cols rp cp).WellFormed := by
  refine ⟨?_, ?_, rfl, ⟨show (0 : Nat) < 8 by decide, show (0 : Nat) < 8 by decide⟩, ?_⟩
  · show (if rows < 8 then rows else 8) ≤ 8
    split_ifs <;> omega
  · show (if cols < 8 then cols else 8) ≤ 8
    split_ifs <;> omega
  · intro e he
    rw [MatrixSensor.queueContents_of_empty _ rfl] at he
    cases he

theorem MatrixSensor.wellFormed_begin (s : MatrixSensor) (h : s.WellFormed) :
    s.begin.WellFormed := by
  obtain ⟨h1, h2, h3, _, _⟩ := h
  refine ⟨h1, h2, h3, ⟨show (0 : Nat) < 8 by decide, show (0 : Nat) < 8 by decide⟩, ?_⟩
  intro e he
  rw [MatrixSensor.queueContents_of_empty _ rfl] at he
  cases he

theorem MatrixSensor.wellFormed_scan (s : MatrixSensor) (raw : Nat → Nat → Bool)
    (h : s.WellFormed) : (s.scan raw).WellFormed := by
  obtain ⟨h1, h2, h3, h4, h5⟩ := h
  obtain ⟨i1, i2, i3, _, _, i6, i7⟩ := MatrixSensor.scan_spec s raw h4 h1 h2
  refine ⟨by rw [i1]; exact h1, by rw [i2]; exact h2, by rw [i3]; exact h3, i6, ?_⟩
  intro e he
  rw [i1, i2]
  rw [i7] at he
  rcases MatrixSensor.mem_foldl_push _ _ e (MatrixSensor.queueContents_length_le s) he
    with hq | hq
  · exact h5 e hq
  · unfold MatrixSensor.cellEvents at hq
    obtain ⟨rc, hrc, hev⟩ := List.mem_filterMap.1 hq
    obtain ⟨hr, hc⟩ := (MatrixSensor.mem_cellList s rc).1 hrc
    unfold MatrixSensor.cellEvent at hev
    split_ifs at hev
    have := Option.some.inj hev
    rw [← this]
    exact MatrixSensor.buttonIndex_lt_cells s rc.1 rc.2 hr hc h1 h2

theorem MatrixSensor.wellFormed_getReading (s : MatrixSensor) (h : s.WellFormed) :
    s.getReading.2.WellFormed := by
  obtain ⟨h1, h2, h3, h4, h5⟩ := h
  by_cases he : s.queue_head = s.queue_tail
  · rw [MatrixSensor.getReading_of_empty s he]
    exact ⟨h1, h2, h3, h4, h5⟩
  · have hpop := MatrixSensor.queueContents_getReading s h4 he
    have hr := MatrixSensor.getReading_inRange s h4
    rw [MatrixSensor.getReading_of_nonempty s he] at hpop hr ⊢
    refine ⟨h1, h2, h3, hr, ?_⟩
    intro e hmem
    exact h5 e (by rw [hpop]; exact List.mem_cons_of_mem _ hmem)

theorem MatrixSensor.Reachable.wellFormed {s : MatrixSensor} (h : s.Reachable) :
    s.WellFormed := by
  induction h with
  | construct mem rows cols rp cp _ _ => exact MatrixSensor.wellFormed_construct mem rows cols rp cp
  | begin _ ih => exact MatrixSensor.wellFormed_begin _ ih
  | scan raw _ ih => exact MatrixSensor.wellFormed_scan _ raw ih
  | getReading _ ih => exact MatrixSensor.wellFormed_getReading _ ih

/-! ## MatrixSensor: the claims on pins, the queue and the reset -/

/-- C11: for a `MatrixSensor` whose dimensions are clamped (at most 8 rows and 8 columns) and
a cell with `row < num_rows` and `col < num_cols`, the pin computed in 8-bit arithmetic as
`virtualPin(buttonIndex(row, col))` is the exact integer `128 + row * num_cols + col`, lies
in 128..191, and differs from the pin of every other in-range cell. -/
theorem matrix_virtual_pin_exact (s : MatrixSensor) (row col : Nat)
    (hR : s.num_rows ≤ 8) (hC : s.num_cols ≤ 8)
    (hrow : row < s.num_rows) (hcol : col < s.num_cols) :
    s.virtualPin (s.buttonIndex row col) = 128 + row * s.num_cols + col ∧
    128 ≤ s.virtualPin (s.buttonIndex row col) ∧
    s.virtualPin (s.buttonIndex row col) ≤ 191 ∧
    (∀ row2 col2, row2 < s.num_rows → col2 < s.num_cols → (row2 ≠ row ∨ col2 ≠ col) →
      s.virtualPin (s.buttonIndex row2 col2) ≠ s.virtualPin (s.buttonIndex row col)) := by
  obtain ⟨hi, hlt⟩ := MatrixSensor.buttonIndex_eq s row col hrow hcol hR hC
  have hp : s.virtualPin (s.buttonIndex row col) = 128 + row * s.num_cols + col := by
    show (128 + s.buttonIndex row col) % 256 = _
    rw [hi]; omega
  refine ⟨hp, by omega, by omega, ?_⟩
  intro row2 col2 hrow2 hcol2 hne
  obtain ⟨hi2, hlt2⟩ := MatrixSensor.buttonIndex_eq s row2 col2 hrow2 hcol2 hR hC
  have hne2 := MatrixSensor.buttonIndex_ne s row2 col2 row col hrow2 hcol2 hrow hcol hR hC hne
  rw [hi, hi2] at hne2
  show (128 + s.buttonIndex row2 col2) % 256 ≠ (128 + s.buttonIndex row col) % 256
  rw [hi, hi2]
  omega

/-- C11 on the 3x4 test matrix: the cell (2,3) gets pin 139, and the cell (0,0) another. -/
theorem matrix_virtual_pin_exact_witness :
    MatrixSensor.testMatrix.virtualPin (MatrixSensor.testMatrix.buttonIndex 2 3) = 139 ∧
    MatrixSensor.testMatrix.virtualPin (MatrixSensor.testMatrix.buttonIndex 0 0)
      ≠ MatrixSensor.testMatrix.virtualPin (MatrixSensor.testMatrix.buttonIndex 2 3) :=
  ⟨(matrix_virtual_pin_exact MatrixSensor.testMatrix 2 3 (by decide) (by decide) (by decide)
      (by decide)).1,
   (matrix_virtual_pin_exact MatrixSensor.testMatrix 2 3 (by decide) (by decide) (by decide)
      (by decide)).2.2.2 0 0 (by decide) (by decide) (Or.inl (by decide))⟩

/-- C17: the constructor is total and clamps: for every `rows` and `cols` (in particular
0..255) the sensor has `num_rows = min rows 8`, `num_cols = min cols 8`, an empty event
queue, and every cell has debounced state and `last_reported` false and counter 0. -/
theorem matrix_construct_clamps (mem : MatrixSensor) (rows cols : Nat)
    (row_pin_array col_pin_array : Nat → Nat) :
    (MatrixSensor.construct mem rows cols row_pin_array col_pin_array).num_rows = min rows 8 ∧
    (MatrixSensor.construct mem rows cols row_pin_array col_pin_array).num_cols = min cols 8 ∧
    (MatrixSensor.construct mem rows cols row_pin_array col_pin_array).isQueueEmpty = true ∧
    (MatrixSensor.construct mem rows cols row_pin_array col_pin_array).queueContents = [] ∧
    (MatrixSensor.construct mem rows cols row_pin_array col_pin_array).getReading.1
      = Reading.empty ∧
    (∀ i,
      (MatrixSensor.construct mem rows cols row_pin_array col_pin_array).current_state i = false ∧
      (MatrixSensor.construct mem rows cols row_pin_array col_pin_array).last_reported i = false ∧
      (MatrixSensor.construct mem rows cols row_pin_array col_pin_array).debounce_count i = 0) := by
  refine ⟨?_, ?_, rfl, MatrixSensor.queueContents_of_empty _ rfl, ?_, fun i => ⟨rfl, rfl, rfl⟩⟩
  · show (if rows < 8 then rows else 8) = min rows 8
    split_ifs <;> omega
  · show (if cols < 8 then cols else 8) = min cols 8
    split_ifs <;> omega
  · rw [MatrixSensor.getReading_of_empty _ rfl]

/-- C18: `ButtonSensor::begin()` yields, from every state, the state of a freshly
constructed sensor with the same pin and threshold (debounced state, `last_reported`, raw
sample and pending flag false, counter 0); the `getReading()` right after it is empty, and
`begin()` applied twice gives the same state as applied once. -/
theorem button_begin_resets (s : ButtonSensor) :
    s.begin = ButtonSensor.construct s.pin s.debounce_threshold ∧
    s.begin = { pin := s.pin, debounce_threshold := s.debounce_threshold,
                current_state := false, last_reported := false, raw_state := false,
                debounce_count := 0, has_pending_event := false } ∧
    s.begin.getReading = (Reading.empty, s.begin) ∧
    s.begin.begin = s.begin :=
  ⟨rfl, rfl, rfl, rfl⟩

/-- C19: `MatrixSensor::begin()` empties the event queue from every state (head = tail = 0,
unread events are gone), sets every cell's debounced state and `last_reported` to false and
its counter to 0, and keeps the dimensions, the pin lists and the threshold; the
`getReading()` right after it is empty and `begin()` applied twice gives the same state as
applied once. For a reachable state the result is a freshly constructed sensor: it is what
the constructor builds in the same storage, and it differs from what the constructor builds
in any other storage only in the members that the constructor leaves unwritten (the queue
slots and the pin entries past the dimensions). -/
theorem matrix_begin_resets (s : MatrixSensor) :
    s.begin.queue_head = 0 ∧ s.begin.queue_tail = 0 ∧ s.begin.queueContents = [] ∧
    (∀ i, s.begin.current_state i = false ∧ s.begin.last_reported i = false ∧
      s.begin.debounce_count i = 0) ∧
    s.begin.num_rows = s.num_rows ∧ s.begin.num_cols = s.num_cols ∧
    s.begin.row_pins = s.row_pins ∧ s.begin.col_pins = s.col_pins ∧
    s.begin.debounce_threshold = s.debounce_threshold ∧
    s.begin.getReading = (Reading.empty, s.begin) ∧
    s.begin.begin = s.begin ∧
    (s.Reachable →
      s.begin = MatrixSensor.construct s s.num_rows s.num_cols s.row_pins s.col_pins ∧
      ∀ mem : MatrixSensor,
        MatrixSensor.construct mem s.num_rows s.num_cols s.row_pins s.col_pins =
          { s.begin with
            event_queue := mem.event_queue
            row_pins := fun i => if i < s.num_rows then s.row_pins i else mem.row_pins i
            col_pins := fun i => if i < s.num_cols then s.col_pins i else mem.col_pins i }) := by
  refine ⟨rfl, rfl, MatrixSensor.queueContents_of_empty _ rfl, fun i => ⟨rfl, rfl, rfl⟩,
    rfl, rfl, rfl, rfl, rfl, MatrixSensor.getReading_of_empty _ rfl, rfl, ?_⟩
  intro hr
  obtain ⟨h1, h2, h3, _, _⟩ := (MatrixSensor.wellFormed_def s).1 hr.wellFormed
  have e1 : (if s.num_rows < 8 then s.num_rows else 8) = s.num_rows := by
    split_ifs <;> omega
  have e2 : (if s.num_cols < 8 then s.num_cols else 8) = s.num_cols := by
    split_ifs <;> omega
  have h3b : s.debounce_threshold = 3 := h3
  constructor
  · unfold MatrixSensor.begin MatrixSensor.construct
    simp only [e1, e2, h3b, ite_self]
  · intro mem
    unfold MatrixSensor.begin MatrixSensor.construct
    simp only [e1, e2, h3b]

/-- C19 on the 3x4 test matrix with the cell (1,2) held for three scans: `begin()` gives
back the state that the constructor builds in that storage. -/
theorem matrix_begin_resets_witness :
    (MatrixSensor.heldForThreeScans [(1, 2)]).begin.getReading
      = (Reading.empty, (MatrixSensor.heldForThreeScans [(1, 2)]).begin) ∧
    (MatrixSensor.heldForThreeScans [(1, 2)]).begin =
      MatrixSensor.construct (MatrixSensor.heldForThreeScans [(1, 2)])
        (MatrixSensor.heldForThreeScans [(1, 2)]).num_rows
        (MatrixSensor.heldForThreeScans [(1, 2)]).num_cols
        (MatrixSensor.heldForThreeScans [(1, 2)]).row_pins
        (MatrixSensor.heldForThreeScans [(1, 2)]).col_pins :=
  ⟨(matrix_begin_resets (MatrixSensor.heldForThreeScans [(1, 2)])).2.2.2.2.2.2.2.2.2.1,
   ((matrix_begin_resets (MatrixSensor.heldForThreeScans [(1, 2)])).2.2.2.2.2.2.2.2.2.2.2
      (MatrixSensor.heldForThreeScans_reachable _)).1⟩

/-- C14: on an empty queue, after the `n` calls `enqueueEvent` for the entries of `es` (with
no `getReading()` in between), the queue holds exactly the last `min n 7` entries in the
order in which they were queued, draining returns exactly their readings in that order and
then empty, and the entry queued last is always among them. -/
theorem matrix_queue_drops_oldest (s : MatrixSensor) (es : List PendingEvent) (fuel : Nat)
    (hq : s.QueueInRange) (he : s.queue_head = s.queue_tail) (hf : 8 ≤ fuel) :
    (s.enqueueAll es).queueContents = es.drop (es.length - min es.length 7) ∧
    ((s.enqueueAll es).drain fuel).1
      = (es.drop (es.length - min es.length 7)).map MatrixSensor.eventReading ∧
    ((s.enqueueAll es).drain fuel).1.length = min es.length 7 ∧
    ((s.enqueueAll es).drain fuel).2.getReading.1 = Reading.empty ∧
    (∀ es2 e, es = es2 ++ [e] → e ∈ (s.enqueueAll es).queueContents) := by
  obtain ⟨h1, h2⟩ := MatrixSensor.enqueueAll_spec es s hq
  have hk : es.length - min es.length 7 = es.length - 7 := by omega
  have hc : (s.enqueueAll es).queueContents = es.drop (es.length - min es.length 7) := by
    rw [h2, MatrixSensor.queueContents_of_empty s he,
      MatrixSensor.foldl_push es [] (by simp), hk]
    simp
  obtain ⟨d1, _, _, d4⟩ := MatrixSensor.drain_spec fuel (s.enqueueAll es) h1
    (by have := MatrixSensor.queueCount_le (s.enqueueAll es); omega)
  refine ⟨hc, by rw [d1, hc], ?_, by rw [d4], ?_⟩
  · rw [d1, hc, List.length_map, List.length_drop]
    omega
  · intro es2 e hes
    rw [hc, hk, hes, List.drop_append_of_le_length (by simp)]
    simp

/-- C14 with nine entries queued into the empty queue of the test matrix: the first two
are dropped and the seven newest are read back in order. -/
theorem matrix_queue_drops_oldest_witness :
    ((MatrixSensor.testMatrix.begin.enqueueAll
        ((List.range 9).map (fun i => ({ button_index := i, pressed := true } : PendingEvent)))).drain
        8).1
      = (((List.range 9).map
          (fun i => ({ button_index := i, pressed := true } : PendingEvent))).drop 2).map
          MatrixSensor.eventReading :=
  (matrix_queue_drops_oldest MatrixSensor.testMatrix.begin
    ((List.range 9).map (fun i => ({ button_index := i, pressed := true } : PendingEvent))) 8
    ⟨show (0 : Nat) < 8 by decide, show (0 : Nat) < 8 by decide⟩ rfl (by decide)).2.1

theorem MatrixSensor.getReading_of_no_value (s : MatrixSensor)
    (h : s.getReading.1.has_value = false) : s.getReading = (Reading.empty, s) := by
  by_cases he : s.queue_head = s.queue_tail
  · exact MatrixSensor.getReading_of_empty s he
  · rw [MatrixSensor.getReading_of_nonempty s he] at h
    simp [Reading.event] at h

theorem MatrixSensor.afterReadings_inRange (k : Nat) :
    ∀ s : MatrixSensor, s.QueueInRange → (s.afterReadings k).QueueInRange := by
  induction k with
  | zero => intro s h; exact h
  | succ k ih => intro s h; exact ih _ (MatrixSensor.getReading_inRange s h)

/-- C15: `MatrixSensor::getReading()` in a reachable state. With a non-empty queue it removes
the oldest unread entry `(cell_index, pressed)`, sets `last_reported[cell_index]` to
`pressed`, changes nothing else but the read position, and returns
`Reading(pressed ? 1 : 0, Matrix, 128 + cell_index)`; with an empty queue it returns the
empty reading and leaves the whole state unchanged. -/
theorem matrix_getReading_contract (s : MatrixSensor) (hr : s.Reachable) :
    (s.isQueueEmpty = false →
      s.queueContents = s.event_queue s.queue_head :: s.getReading.2.queueContents ∧
      s.getReading.1 =
        { has_value := true
          value := if (s.event_queue s.queue_head).pressed then 1 else 0
          type := InputType.Matrix
          pin := 128 + (s.event_queue s.queue_head).button_index } ∧
      s.getReading.2.last_reported =
        setAt s.last_reported (s.event_queue s.queue_head).button_index
          (s.event_queue s.queue_head).pressed ∧
      (∀ j, j ≠ (s.event_queue s.queue_head).button_index →
        s.getReading.2.last_reported j = s.last_reported j) ∧
      s.getReading.2.current_state = s.current_state ∧
      s.getReading.2.debounce_count = s.debounce_count ∧
      s.getReading.2 =
        { s with
          queue_head := (s.queue_head + 1) % 8
          last_reported := setAt s.last_reported (s.event_queue s.queue_head).button_index
            (s.event_queue s.queue_head).pressed }) ∧
    (s.isQueueEmpty = true → s.getReading = (Reading.empty, s)) := by
  obtain ⟨h1, h2, _, h4, h5⟩ := (MatrixSensor.wellFormed_def s).1 hr.wellFormed
  constructor
  · intro he
    have hne : s.queue_head ≠ s.queue_tail := by
      simpa [MatrixSensor.isQueueEmpty] using he
    have hpop := MatrixSensor.queueContents_getReading s h4 hne
    have hidx : (s.event_queue s.queue_head).button_index < 64 :=
      Nat.lt_of_lt_of_le (h5 _ (by rw [hpop]; exact List.mem_cons_self _ _))
        (MatrixSensor.cells_le s h1 h2)
    have hpin : (128 + (s.event_queue s.queue_head).button_index) % 256
        = 128 + (s.event_queue s.queue_head).button_index := Nat.mod_eq_of_lt (by omega)
    refine ⟨hpop, ?_, ?_, ?_, ?_, ?_, ?_⟩
    · rw [MatrixSensor.getReading_of_nonempty s hne, hpin]; rfl
    · rw [MatrixSensor.getReading_of_nonempty s hne]
    · intro j hj
      rw [MatrixSensor.getReading_of_nonempty s hne]
      exact setAt_other _ _ _ _ hj
    · rw [MatrixSensor.getReading_of_nonempty s hne]
    · rw [MatrixSensor.getReading_of_nonempty s hne]
    · rw [MatrixSensor.getReading_of_nonempty s hne]
  · intro he
    exact MatrixSensor.getReading_of_empty s (by simpa [MatrixSensor.isQueueEmpty] using he)

/-- C15 on the 3x4 test matrix with the cell (1,2) held for three scans: the reading is the
press of pin 134 and the queue is empty afterwards. -/
theorem matrix_getReading_contract_witness :
    (MatrixSensor.heldForThreeScans [(1, 2)]).getReading.1
      = { has_value := true, value := 1, type := InputType.Matrix, pin := 134 } ∧
    (MatrixSensor.heldForThreeScans [(1, 2)]).getReading.2.getReading
      = (Reading.empty, (MatrixSensor.heldForThreeScans [(1, 2)]).getReading.2) :=
  ⟨((matrix_getReading_contract (MatrixSensor.heldForThreeScans [(1, 2)])
      (MatrixSensor.heldForThreeScans_reachable _)).1 (by decide)).2.1,
   (matrix_getReading_contract (MatrixSensor.heldForThreeScans [(1, 2)]).getReading.2
      (MatrixSensor.Reachable.getReading (MatrixSensor.heldForThreeScans_reachable _))).2
      (by decide)⟩

/-- C16: from every reachable state, a run of `getReading()` calls with no `scan()` in
between returns a non-empty reading exactly as many times as there are unread queued events,
which are never more than 7; every later call returns empty and changes nothing. The drain
loop therefore ends, after that many readings, whenever it may run for 8 iterations or
more. -/
theorem matrix_drain_terminates (s : MatrixSensor) (hr : s.Reachable) :
    s.queueCount ≤ 7 ∧
    s.queueContents.length = s.queueCount ∧
    (∀ k, (s.afterReadings k).getReading.1.has_value = true ↔ k < s.queueCount) ∧
    (∀ k, s.queueCount ≤ k →
      (s.afterReadings k).getReading = (Reading.empty, s.afterReadings k)) ∧
    (∀ fuel, 8 ≤ fuel →
      (s.drain fuel).1.length = s.queueCount ∧
      (∀ r ∈ (s.drain fuel).1, r.has_value = true) ∧
      (s.drain fuel).2.getReading = (Reading.empty, (s.drain fuel).2)) := by
  have h4 := hr.queueInRange
  have hle := MatrixSensor.queueCount_le s
  refine ⟨hle, MatrixSensor.queueContents_length s,
    fun k => MatrixSensor.afterReadings_spec k s h4, ?_, ?_⟩
  · intro k hk
    apply MatrixSensor.getReading_of_no_value
    cases hv : (s.afterReadings k).getReading.1.has_value
    · rfl
    · have := (MatrixSensor.afterReadings_spec k s h4).1 hv
      omega
  · intro fuel hf
    obtain ⟨d1, _, _, d4⟩ := MatrixSensor.drain_spec fuel s h4 (by omega)
    refine ⟨by rw [d1, List.length_map, MatrixSensor.queueContents_length], ?_, d4⟩
    intro r hmem
    rw [d1] at hmem
    obtain ⟨e, _, he⟩ := List.mem_map.1 hmem
    rw [← he]
    rfl

/-- C16 on the 3x4 test matrix with the cells (0,0) and (1,1) held for three scans: two
readings are non-empty, the third and every later one is empty. -/
theorem matrix_drain_terminates_witness :
    (MatrixSensor.heldForThreeScans [(0, 0), (1, 1)]).queueCount = 2 ∧
    (∀ k, ((MatrixSensor.heldForThreeScans [(0, 0), (1, 1)]).afterReadings k).getReading.1.has_value
        = true ↔ k < (MatrixSensor.heldForThreeScans [(0, 0), (1, 1)]).queueCount) :=
  ⟨by decide,
   (matrix_drain_terminates (MatrixSensor.heldForThreeScans [(0, 0), (1, 1)])
      (MatrixSensor.heldForThreeScans_reachable _)).2.2.1⟩

/-! ## MatrixSensor: cells held from `begin()` on -/

theorem filterMap_single {α β : Type} (f : α → Option β) (a : α) (e : β) (l : List α)
    (hnd : l.Nodup) (ha : a ∈ l) (hfa : f a = some e)
    (hf : ∀ x ∈ l, x ≠ a → f x = none) : l.filterMap f = [e] := by
  induction l with
  | nil => cases ha
  | cons x l ih =>
    rw [List.nodup_cons] at hnd
    rw [List.filterMap_cons]
    by_cases hx : x = a
    · subst hx
      rw [hfa]
      show e :: l.filterMap f = [e]
      rw [filterMap_none f l (fun y hy => hf y (List.mem_cons_of_mem x hy)
        (fun e2 => hnd.1 (e2 ▸ hy)))]
    · rw [hf x (List.mem_cons_self x l) hx]
      have ha2 : a ∈ l := by
        rcases List.mem_cons.1 ha with e2 | e2
        · exact absurd e2.symm hx
        · exact e2
      exact ih hnd.2 ha2 (fun y hy => hf y (List.mem_cons_of_mem x hy))

theorem filterMap_pair {α β : Type} (f : α → Option β) (a b : α) (ea eb : β) (l : List α)
    (hnd : l.Nodup) (ha : a ∈ l) (hb : b ∈ l) (hab : a ≠ b)
    (hfa : f a = some ea) (hfb : f b = some eb)
    (hf : ∀ x ∈ l, x ≠ a → x ≠ b → f x = none) :
    l.filterMap f = [ea, eb] ∨ l.filterMap f = [eb, ea] := by
  induction l with
  | nil => cases ha
  | cons x l ih =>
    rw [List.nodup_cons] at hnd
    rw [List.filterMap_cons]
    by_cases hxa : x = a
    · subst hxa
      have hb2 : b ∈ l := by
        rcases List.mem_cons.1 hb with e2 | e2
        · exact absurd e2.symm hab
        · exact e2
      left
      rw [hfa]
      show ea :: l.filterMap f = [ea, eb]
      rw [filterMap_single f b eb l hnd.2 hb2 hfb (fun y hy hyb =>
        hf y (List.mem_cons_of_mem x hy) (fun e2 => hnd.1 (e2 ▸ hy)) hyb)]
    · by_cases hxb : x = b
      · subst hxb
        have ha2 : a ∈ l := by
          rcases List.mem_cons.1 ha with e2 | e2
          · exact absurd e2 hab
          · exact e2
        right
        rw [hfb]
        show eb :: l.filterMap f = [eb, ea]
        rw [filterMap_single f a ea l hnd.2 ha2 hfa (fun y hy hya =>
          hf y (List.mem_cons_of_mem x hy) hya (fun e2 => hnd.1 (e2 ▸ hy)))]
      · rw [hf x (List.mem_cons_self x l) hxa hxb]
        have ha2 : a ∈ l := by
          rcases List.mem_cons.1 ha with e2 | e2
          · exact absurd e2.symm hxa
          · exact e2
        have hb2 : b ∈ l := by
          rcases List.mem_cons.1 hb with e2 | e2
          · exact absurd e2.symm hxb
          · exact e2
        exact ih hnd.2 ha2 hb2 (fun y hy => hf y (List.mem_cons_of_mem x hy))

/-- The state right after the constructor and `begin()`. -/
theorem MatrixSensor.begin_facts (mem : MatrixSensor) (rows cols : Nat) (rp cp : Nat → Nat) :
    (MatrixSensor.construct mem rows cols rp cp).begin.Settled ∧
    (MatrixSensor.construct mem rows cols rp cp).begin.QueueInRange ∧
    (MatrixSensor.construct mem rows cols rp cp).begin.debounce_threshold = 3 ∧
    (MatrixSensor.construct mem rows cols rp cp).begin.num_rows ≤ 8 ∧
    (MatrixSensor.construct mem rows cols rp cp).begin.num_cols ≤ 8 ∧
    (MatrixSensor.construct mem rows cols rp cp).begin.queueContents = [] ∧
    (∀ i, (MatrixSensor.construct mem rows cols rp cp).begin.current_state i = false) := by
  obtain ⟨h1, h2, h3, h4, _⟩ := (MatrixSensor.wellFormed_def _).1
    (MatrixSensor.wellFormed_begin _ (MatrixSensor.wellFormed_construct mem rows cols rp cp))
  exact ⟨fun r c _ _ => ⟨rfl, rfl⟩, h4, h3, h1, h2,
    MatrixSensor.queueContents_of_empty _ rfl, fun i => rfl⟩

/-- The readings of a queue that holds two entries. -/
theorem MatrixSensor.two_readings (s : MatrixSensor) (e1 e2 : PendingEvent)
    (h : s.QueueInRange) (hq : s.queueContents = [e1, e2]) :
    s.getReading.1 = MatrixSensor.eventReading e1 ∧
    s.getReading.2.getReading.1 = MatrixSensor.eventReading e2 ∧
    s.getReading.2.getReading.2.getReading.1 = Reading.empty := by
  obtain ⟨_, a1, _, a3, a4, _⟩ := (MatrixSensor.getReading_spec s h).2 e1 [e2] hq
  obtain ⟨_, b1, _, b3, b4, _⟩ := (MatrixSensor.getReading_spec _ a4).2 e2 [] a3
  have c1 := (MatrixSensor.getReading_spec _ b4).1 b3
  exact ⟨a1, b1, by rw [c1]⟩

/-- The reading of the event of an in-range cell carries the exact virtual pin. -/
theorem MatrixSensor.eventReading_cell (s : MatrixSensor) (r c : Nat) (p : Bool)
    (hr : r < s.num_rows) (hc : c < s.num_cols) (hR : s.num_rows ≤ 8) (hC : s.num_cols ≤ 8) :
    MatrixSensor.eventReading { button_index := s.buttonIndex r c, pressed := p }
      = Reading.event (if p then 1 else 0) InputType.Matrix (128 + r * s.num_cols + c) := by
  obtain ⟨hi, hlt⟩ := MatrixSensor.buttonIndex_eq s r c hr hc hR hC
  show Reading.event _ _ ((128 + s.buttonIndex r c) % 256) = _
  rw [hi, Nat.mod_eq_of_lt (by omega), Nat.add_assoc]

/-- C12: in a `MatrixSensor` of any (clamped) dimensions after `begin()`, two distinct
in-range cells held active, all others inactive, for 3 scans: the first two `getReading()`
calls return the two readings `Reading(1, Matrix, 128 + row * num_cols + col)` of the two
cells (in one order or the other), the two pins differ, and the third call returns empty. -/
theorem matrix_two_cells_nkro (mem : MatrixSensor) (rows cols : Nat)
    (row_pin_array col_pin_array : Nat → Nat) (r1 c1 r2 c2 : Nat)
    (h1r : r1 < (MatrixSensor.construct mem rows cols row_pin_array col_pin_array).num_rows)
    (h1c : c1 < (MatrixSensor.construct mem rows cols row_pin_array col_pin_array).num_cols)
    (h2r : r2 < (MatrixSensor.construct mem rows cols row_pin_array col_pin_array).num_rows)
    (h2c : c2 < (MatrixSensor.construct mem rows cols row_pin_array col_pin_array).num_cols)
    (hne : r1 ≠ r2 ∨ c1 ≠ c2) :
    (let s0 := (MatrixSensor.construct mem rows cols row_pin_array col_pin_array).begin
     let raw := MatrixSensor.cellsActive [(r1, c1), (r2, c2)]
     let s3 := ((s0.scan raw).scan raw).scan raw
     let a := Reading.event 1 InputType.Matrix (128 + r1 * s0.num_cols + c1)
     let b := Reading.event 1 InputType.Matrix (128 + r2 * s0.num_cols + c2)
     ((s3.getReading.1 = a ∧ s3.getReading.2.getReading.1 = b) ∨
      (s3.getReading.1 = b ∧ s3.getReading.2.getReading.1 = a)) ∧
     a.pin ≠ b.pin ∧
     s3.getReading.2.getReading.2.getReading.1 = Reading.empty) := by
  intro s0 raw s3 a b
  have hfacts : s0.Settled ∧ s0.QueueInRange ∧ s0.debounce_threshold = 3 ∧ s0.num_rows ≤ 8 ∧
      s0.num_cols ≤ 8 ∧ s0.queueContents = [] ∧ ∀ i, s0.current_state i = false :=
    MatrixSensor.begin_facts mem rows cols row_pin_array col_pin_array
  obtain ⟨hs, hq, hthr, hR, hC, hnil, hcur⟩ := hfacts
  obtain ⟨_, _, _, _, _, _, _, f4, f5, _⟩ :=
    MatrixSensor.held_three_scans s0 raw hs hq hthr hR hC
  have hab : ((r1, c1) : Nat × Nat) ≠ (r2, c2) := by
    intro e
    have := Prod.mk.inj e
    omega
  have hfa : s0.heldEvent raw (r1, c1)
      = some { button_index := s0.buttonIndex r1 c1, pressed := true } := by
    simp [MatrixSensor.heldEvent, hcur, raw, MatrixSensor.cellsActive]
  have hfb : s0.heldEvent raw (r2, c2)
      = some { button_index := s0.buttonIndex r2 c2, pressed := true } := by
    simp [MatrixSensor.heldEvent, hcur, raw, MatrixSensor.cellsActive]
  have hf : ∀ x ∈ s0.cellList, x ≠ (r1, c1) → x ≠ (r2, c2) → s0.heldEvent raw x = none := by
    intro x _ hx1 hx2
    have hraw : raw x.1 x.2 = false := by
      simp [raw, MatrixSensor.cellsActive, hx1, hx2]
    simp [MatrixSensor.heldEvent, hcur, hraw]
  have ea := MatrixSensor.eventReading_cell s0 r1 c1 true h1r h1c hR hC
  have eb := MatrixSensor.eventReading_cell s0 r2 c2 true h2r h2c hR hC
  have hpin : a.pin ≠ b.pin := by
    show 128 + r1 * s0.num_cols + c1 ≠ 128 + r2 * s0.num_cols + c2
    intro e
    have := MatrixSensor.cell_inj s0.num_cols r1 c1 r2 c2 h1c h2c (by omega)
    omega
  rw [hnil] at f5
  rcases filterMap_pair (s0.heldEvent raw) (r1, c1) (r2, c2) _ _ s0.cellList
    (MatrixSensor.cellList_nodup s0)
    ((MatrixSensor.mem_cellList s0 _).2 ⟨h1r, h1c⟩)
    ((MatrixSensor.mem_cellList s0 _).2 ⟨h2r, h2c⟩) hab hfa hfb hf with hl | hl
  · rw [hl] at f5
    obtain ⟨g1, g2, g3⟩ := MatrixSensor.two_readings s3 _ _ f4 f5
    exact ⟨Or.inl ⟨g1.trans ea, g2.trans eb⟩, hpin, g3⟩
  · rw [hl] at f5
    obtain ⟨g1, g2, g3⟩ := MatrixSensor.two_readings s3 _ _ f4 f5
    exact ⟨Or.inr ⟨g1.trans eb, g2.trans ea⟩, hpin, g3⟩

/-- C12 on the 3x4 test matrix with the cells (0,0) and (1,1): pins 128 and 133. -/
theorem matrix_two_cells_nkro_witness :
    (((MatrixSensor.heldForThreeScans [(0, 0), (1, 1)]).getReading.1
        = Reading.event 1 InputType.Matrix 128 ∧
      (MatrixSensor.heldForThreeScans [(0, 0), (1, 1)]).getReading.2.getReading.1
        = Reading.event 1 InputType.Matrix 133) ∨
     ((MatrixSensor.heldForThreeScans [(0, 0), (1, 1)]).getReading.1
        = Reading.event 1 InputType.Matrix 133 ∧
      (MatrixSensor.heldForThreeScans [(0, 0), (1, 1)]).getReading.2.getReading.1
        = Reading.event 1 InputType.Matrix 128)) ∧
    (128 : Nat) ≠ 133 ∧
    (MatrixSensor.heldForThreeScans [(0, 0), (1, 1)]).getReading.2.getReading.2.getReading.1
      = Reading.empty :=
  matrix_two_cells_nkro MatrixSensor.zeroed 3 4
    (fun i => [2, 3, 4].getD i 0) (fun i => [5, 6, 7, 8].getD i 0) 0 0 1 1
    (by decide) (by decide) (by decide) (by decide) (Or.inl (by decide))

/-- C13: in a `MatrixSensor` of any (clamped) dimensions after `begin()`, more than 8
distinct in-range cells held active for 3 scans: the drain loop (run for 8 iterations or
more) returns at least 7 non-empty readings (exactly 7, all presses of the matrix) and then
`getReading()` returns empty. -/
theorem matrix_overflow_keeps_seven (mem : MatrixSensor) (rows cols : Nat)
    (row_pin_array col_pin_array : Nat → Nat) (cells : List (Nat × Nat)) (fuel : Nat)
    (hnd : cells.Nodup)
    (hin : ∀ rc ∈ cells,
      rc.1 < (MatrixSensor.construct mem rows cols row_pin_array col_pin_array).num_rows ∧
      rc.2 < (MatrixSensor.construct mem rows cols row_pin_array col_pin_array).num_cols)
    (hlen : 8 < cells.length) (hf : 8 ≤ fuel) :
    (let s0 := (MatrixSensor.construct mem rows cols row_pin_array col_pin_array).begin
     let raw := MatrixSensor.cellsActive cells
     let s3 := ((s0.scan raw).scan raw).scan raw
     7 ≤ (s3.drain fuel).1.length ∧
     (s3.drain fuel).1.length = 7 ∧
     (∀ r ∈ (s3.drain fuel).1, r.has_value = true ∧ r.value = 1 ∧ r.type = InputType.Matrix) ∧
     (s3.drain fuel).2.getReading.1 = Reading.empty) := by
  intro s0 raw s3
  have hfacts : s0.Settled ∧ s0.QueueInRange ∧ s0.debounce_threshold = 3 ∧ s0.num_rows ≤ 8 ∧
      s0.num_cols ≤ 8 ∧ s0.queueContents = [] ∧ ∀ i, s0.current_state i = false :=
    MatrixSensor.begin_facts mem rows cols row_pin_array col_pin_array
  obtain ⟨hs, hq, hthr, hR, hC, hnil, hcur⟩ := hfacts
  obtain ⟨_, _, _, _, _, _, _, f4, f5, _⟩ :=
    MatrixSensor.held_three_scans s0 raw hs hq hthr hR hC
  have hheld : s0.heldEvent raw = fun rc =>
      if (fun x : Nat × Nat => raw x.1 x.2) rc = true then
        some ((fun x : Nat × Nat =>
          ({ button_index := s0.buttonIndex x.1 x.2, pressed := true } : PendingEvent)) rc)
      else none := by
    funext rc
    cases hraw : raw rc.1 rc.2 <;> simp [MatrixSensor.heldEvent, hcur, hraw]
  have hperm : (s0.cellList.filter (fun x : Nat × Nat => raw x.1 x.2)).Perm cells := by
    rw [List.perm_ext_iff_of_nodup ((MatrixSensor.cellList_nodup s0).filter _) hnd]
    intro x
    rw [List.mem_filter, MatrixSensor.mem_cellList]
    constructor
    · rintro ⟨_, hx⟩
      simpa [raw, MatrixSensor.cellsActive] using hx
    · intro hx
      exact ⟨hin x hx, by simpa [raw, MatrixSensor.cellsActive] using hx⟩
  have hevlen : (s0.cellList.filterMap (s0.heldEvent raw)).length = cells.length := by
    rw [hheld, filterMap_ite, List.length_map, hperm.length_eq]
  have hcont : s3.queueContents = (s0.cellList.filterMap (s0.heldEvent raw)).drop
      ((s0.cellList.filterMap (s0.heldEvent raw)).length - 7) := by
    show (((s0.scan raw).scan raw).scan raw).queueContents = _
    rw [f5, hnil, MatrixSensor.foldl_push _ [] (by simp)]
    simp
  obtain ⟨d1, _, _, d4⟩ := MatrixSensor.drain_spec fuel s3 f4
    (by have := MatrixSensor.queueCount_le s3; omega)
  have hl7 : (s3.drain fuel).1.length = 7 := by
    rw [d1, List.length_map, hcont, List.length_drop, hevlen]
    omega
  refine ⟨by omega, hl7, ?_, by rw [d4]⟩
  intro r hr
  rw [d1] at hr
  obtain ⟨e, he, hre⟩ := List.mem_map.1 hr
  rw [hcont] at he
  have he2 := List.mem_of_mem_drop he
  rw [hheld, filterMap_ite] at he2
  obtain ⟨x, _, hx⟩ := List.mem_map.1 he2
  rw [← hre, ← hx]
  exact ⟨rfl, rfl, rfl⟩

/-- C13 on the 4x4 matrix of the test suite with all 16 cells held, drained with the
safety limit of the test. -/
theorem matrix_overflow_keeps_seven_witness :
    7 ≤ ((((MatrixSensor.testMatrix4x4.begin.scan
        (MatrixSensor.cellsActive MatrixSensor.allCells4x4)).scan
        (MatrixSensor.cellsActive MatrixSensor.allCells4x4)).scan
        (MatrixSensor.cellsActive MatrixSensor.allCells4x4)).drain 21).1.length :=
  (matrix_overflow_keeps_seven MatrixSensor.zeroed 4 4
    (fun i => [2, 3, 4, 5].getD i 0) (fun i => [6, 7, 8, 9].getD i 0)
    MatrixSensor.allCells4x4 21 (by decide) (by decide) (by decide) (by decide)).1

/-- C20: in a `MatrixSensor` of any (clamped) dimensions after `begin()`, an in-range cell
held active for 3 scans gives the press reading; once that reading is consumed, holding the
cell (and all others) inactive for 3 further scans makes `getReading()` return
`Reading(0, Matrix, pin)` with the same pin `128 + row * num_cols + col`. -/
theorem matrix_release_after_press (mem : MatrixSensor) (rows cols : Nat)
    (row_pin_array col_pin_array : Nat → Nat) (row col : Nat)
    (hrow : row < (MatrixSensor.construct mem rows cols row_pin_array col_pin_array).num_rows)
    (hcol : col < (MatrixSensor.construct mem rows cols row_pin_array col_pin_array).num_cols) :
    (let s0 := (MatrixSensor.construct mem rows cols row_pin_array col_pin_array).begin
     let act := MatrixSensor.onlyCell row col
     let idle := MatrixSensor.cellsActive []
     let pressed := ((s0.scan act).scan act).scan act
     let released := ((pressed.getReading.2.scan idle).scan idle).scan idle
     pressed.getReading.1 = Reading.event 1 InputType.Matrix (128 + row * s0.num_cols + col) ∧
     released.getReading.1 = Reading.event 0 InputType.Matrix (128 + row * s0.num_cols + col)) := by
  intro s0 act idle pressed released
  have hfacts : s0.Settled ∧ s0.QueueInRange ∧ s0.debounce_threshold = 3 ∧ s0.num_rows ≤ 8 ∧
      s0.num_cols ≤ 8 ∧ s0.queueContents = [] ∧ ∀ i, s0.current_state i = false :=
    MatrixSensor.begin_facts mem rows cols row_pin_array col_pin_array
  obtain ⟨hs, hq, hthr, hR, hC, hnil, hcur⟩ := hfacts
  have hrow0 : row < s0.num_rows := hrow
  have hcol0 : col < s0.num_cols := hcol
  have hact : ∀ r c, act r c = true ↔ (r = row ∧ c = col) := by
    intro r c; simp [act, MatrixSensor.onlyCell]
  have hidle : ∀ r c, idle r c = false := fun r c => rfl
  -- the press
  have hp : (pressed.num_rows = s0.num_rows ∧ pressed.num_cols = s0.num_cols ∧
      pressed.debounce_threshold = s0.debounce_threshold ∧ pressed.QueueInRange ∧
      pressed.queueContents
        = (s0.cellList.filterMap (s0.heldEvent act)).foldl MatrixSensor.push s0.queueContents ∧
      (∀ r c, r < s0.num_rows → c < s0.num_cols →
        pressed.current_state (s0.buttonIndex r c) = act r c ∧
        pressed.last_reported (s0.buttonIndex r c) = s0.current_state (s0.buttonIndex r c) ∧
        pressed.debounce_count (s0.buttonIndex r c) = 0)) :=
    (MatrixSensor.held_three_scans s0 act hs hq hthr hR hC).2.2.2.2
  obtain ⟨f1, f2, f3, f4, f5, f6⟩ := hp
  have hev1 : s0.cellList.filterMap (s0.heldEvent act)
      = [{ button_index := s0.buttonIndex row col, pressed := true }] := by
    apply filterMap_single _ (row, col) _ _ (MatrixSensor.cellList_nodup s0)
      ((MatrixSensor.mem_cellList s0 _).2 ⟨hrow0, hcol0⟩)
    · simp [MatrixSensor.heldEvent, hcur, (hact row col).2 ⟨rfl, rfl⟩]
    · intro x _ hx
      have hx2 : act x.1 x.2 = false := by
        cases h : act x.1 x.2
        · rfl
        · exact absurd (Prod.ext ((hact _ _).1 h).1 ((hact _ _).1 h).2) hx
      simp [MatrixSensor.heldEvent, hcur, hx2]
  rw [hev1, hnil] at f5
  have f5b : pressed.queueContents
      = [{ button_index := s0.buttonIndex row col, pressed := true }] := f5
  obtain ⟨_, a1, _, a3, a4, a6⟩ := (MatrixSensor.getReading_spec pressed f4).2 _ [] f5b
  have ea := MatrixSensor.eventReading_cell s0 row col true hrow0 hcol0 hR hC
  refine ⟨a1.trans ea, ?_⟩
  -- the state after the press was read
  have v1 : pressed.getReading.2.num_rows = s0.num_rows := by rw [a6]; exact f1
  have v2 : pressed.getReading.2.num_cols = s0.num_cols := by rw [a6]; exact f2
  have v3 : pressed.getReading.2.debounce_threshold = 3 := by rw [a6]; exact f3.trans hthr
  have vidx : ∀ r c, pressed.getReading.2.buttonIndex r c = s0.buttonIndex r c := by
    intro r c; simp [MatrixSensor.buttonIndex, v2]
  have vcell : ∀ r c, r < s0.num_rows → c < s0.num_cols →
      pressed.getReading.2.current_state (s0.buttonIndex r c) = act r c ∧
      pressed.getReading.2.last_reported (s0.buttonIndex r c) = act r c ∧
      pressed.getReading.2.debounce_count (s0.buttonIndex r c) = 0 := by
    intro r c hr hc
    obtain ⟨g1, g2, g3⟩ := f6 r c hr hc
    rw [a6]
    refine ⟨g1, ?_, g3⟩
    show setAt pressed.last_reported (s0.buttonIndex row col) true (s0.buttonIndex r c) = act r c
    by_cases hrc : r = row ∧ c = col
    · rw [hrc.1, hrc.2, setAt_same, (hact row col).2 ⟨rfl, rfl⟩]
    · have hne : r ≠ row ∨ c ≠ col := by
        by_contra h; push_neg at h; exact hrc h
      rw [setAt_other _ _ _ _
        (MatrixSensor.buttonIndex_ne s0 r c row col hr hc hrow0 hcol0 hR hC hne), g2, hcur]
      cases h : act r c
      · rfl
      · exact absurd ((hact r c).1 h) hrc
  have vs : pressed.getReading.2.Settled := by
    intro r c hr hc
    rw [v1] at hr
    rw [v2] at hc
    obtain ⟨g1, g2, g3⟩ := vcell r c hr hc
    rw [vidx]
    exact ⟨g3, g2.trans g1.symm⟩
  -- the release
  have hrel : (released.QueueInRange ∧
      released.queueContents
        = (pressed.getReading.2.cellList.filterMap (pressed.getReading.2.heldEvent idle)).foldl
            MatrixSensor.push pressed.getReading.2.queueContents) := by
    obtain ⟨_, _, _, _, _, _, _, k4, k5, _⟩ := MatrixSensor.held_three_scans
      pressed.getReading.2 idle vs a4 v3 (by rw [v1]; exact hR) (by rw [v2]; exact hC)
    exact ⟨k4, k5⟩
  obtain ⟨k4, k5⟩ := hrel
  have hev2 : pressed.getReading.2.cellList.filterMap (pressed.getReading.2.heldEvent idle)
      = [{ button_index := s0.buttonIndex row col, pressed := false }] := by
    apply filterMap_single _ (row, col) _ _ (MatrixSensor.cellList_nodup _)
      ((MatrixSensor.mem_cellList _ _).2 ⟨by rw [v1]; exact hrow0, by rw [v2]; exact hcol0⟩)
    · have g := (vcell row col hrow0 hcol0).1
      rw [(hact row col).2 ⟨rfl, rfl⟩] at g
      simp [MatrixSensor.heldEvent, vidx, g, hidle]
    · intro x hxm hx
      obtain ⟨hx1, hx2⟩ := (MatrixSensor.mem_cellList _ x).1 hxm
      rw [v1] at hx1
      rw [v2] at hx2
      have g := (vcell x.1 x.2 hx1 hx2).1
      have hx3 : act x.1 x.2 = false := by
        cases h : act x.1 x.2
        · rfl
        · exact absurd (Prod.ext ((hact _ _).1 h).1 ((hact _ _).1 h).2) hx
      rw [hx3] at g
      simp [MatrixSensor.heldEvent, vidx, g, hidle]
  rw [hev2, a3] at k5
  have k5b : released.queueContents
      = [{ button_index := s0.buttonIndex row col, pressed := false }] := k5
  obtain ⟨_, b1, _⟩ := (MatrixSensor.getReading_spec released k4).2 _ [] k5b
  exact b1.trans (MatrixSensor.eventReading_cell s0 row col false hrow0 hcol0 hR hC)

/-- C20 on the 3x4 test matrix with the cell (0,0): pin 128 for the press and the release. -/
theorem matrix_release_after_press_witness :
    (((MatrixSensor.testMatrix.begin.scan (MatrixSensor.onlyCell 0 0)).scan
        (MatrixSensor.onlyCell 0 0)).scan (MatrixSensor.onlyCell 0 0)).getReading.1
      = Reading.event 1 InputType.Matrix 128 ∧
    ((((((MatrixSensor.testMatrix.begin.scan (MatrixSensor.onlyCell 0 0)).scan
        (MatrixSensor.onlyCell 0 0)).scan (MatrixSensor.onlyCell 0 0)).getReading.2.scan
        (MatrixSensor.cellsActive [])).scan (MatrixSensor.cellsActive [])).scan
        (MatrixSensor.cellsActive [])).getReading.1
      = Reading.event 0 InputType.Matrix 128 :=
  matrix_release_after_press MatrixSensor.zeroed 3 4
    (fun i => [2, 3, 4].getD i 0) (fun i => [5, 6, 7, 8].getD i 0) 0 0
    (by decide) (by decide)

/-! ## ButtonSensor: invariants of the states reached from `begin()` -/

theorem ButtonSensor.scan_threshold (s : ButtonSensor) (raw : Bool) :
    (s.scan raw).debounce_threshold = s.debounce_threshold := by
  unfold ButtonSensor.scan
  dsimp only
  split_ifs <;> rfl

theorem ButtonSensor.scan_counter (s : ButtonSensor) (raw : Bool) :
    (s.scan raw).debounce_count = 0 ∨ (s.scan raw).debounce_count < s.debounce_threshold := by
  unfold ButtonSensor.scan
  dsimp only
  split_ifs with h1 h2 h3
  · exact Or.inl rfl
  · exact Or.inl rfl
  · exact Or.inl rfl
  · exact Or.inr (Nat.lt_of_not_le h2)

theorem ButtonSensor.getReading_fields (s : ButtonSensor) :
    s.getReading.2.debounce_threshold = s.debounce_threshold ∧
    s.getReading.2.debounce_count = s.debounce_count ∧
    s.getReading.2.current_state = s.current_state ∧
    s.getReading.2.pin = s.pin := by
  unfold ButtonSensor.getReading
  dsimp only
  split_ifs <;> exact ⟨rfl, rfl, rfl, rfl⟩

theorem ButtonSensor.runCalls_counter (cs : List ButtonSensor.Call) :
    ∀ s : ButtonSensor, (s.debounce_count = 0 ∨ s.debounce_count < s.debounce_threshold) →
      (s.runCalls cs).debounce_threshold = s.debounce_threshold ∧
      ((s.runCalls cs).debounce_count = 0 ∨
        (s.runCalls cs).debounce_count < s.debounce_threshold) := by
  induction cs with
  | nil => intro s h; exact ⟨rfl, h⟩
  | cons c cs ih =>
    intro s h
    cases c with
    | scan raw =>
      have ht := ButtonSensor.scan_threshold s raw
      have hc := ButtonSensor.scan_counter s raw
      obtain ⟨i1, i2⟩ := ih (s.scan raw) (by rw [ht]; exact hc)
      rw [ht] at i1 i2
      exact ⟨i1, i2⟩
    | getReading =>
      obtain ⟨g1, g2, _, _⟩ := ButtonSensor.getReading_fields s
      obtain ⟨i1, i2⟩ := ih s.getReading.2 (by rw [g1, g2]; exact h)
      rw [g1] at i1 i2
      exact ⟨i1, i2⟩

/-- An accepted change that was not reported yet is pending. -/
theorem ButtonSensor.runCalls_pending (cs : List ButtonSensor.Call) :
    ∀ s : ButtonSensor, (s.current_state ≠ s.last_reported → s.has_pending_event = true) →
      ((s.runCalls cs).current_state ≠ (s.runCalls cs).last_reported →
        (s.runCalls cs).has_pending_event = true) := by
  induction cs with
  | nil => intro s h; exact h
  | cons c cs ih =>
    intro s h
    cases c with
    | scan raw =>
      apply ih (s.scan raw)
      unfold ButtonSensor.scan
      dsimp only
      split_ifs <;> simp_all
    | getReading =>
      apply ih s.getReading.2
      unfold ButtonSensor.getReading
      dsimp only
      split_ifs <;> simp_all

/-- C22: in every state reached from `begin()` by `scan()` and `getReading()` calls the
counter is below the threshold when the threshold is at least 1 and is 0 when the threshold
is 0; and whenever the increment of a scan brings the counter to the threshold (or above),
that same scan sets the debounced state to the raw sample and the counter to 0. -/
theorem button_counter_below_threshold (s : ButtonSensor) (cs : List ButtonSensor.Call) :
    (1 ≤ s.debounce_threshold →
      (s.begin.runCalls cs).debounce_count < s.debounce_threshold) ∧
    (s.debounce_threshold = 0 → (s.begin.runCalls cs).debounce_count = 0) ∧
    (∀ (t : ButtonSensor) (raw : Bool), raw ≠ t.current_state →
      t.debounce_threshold ≤ (t.debounce_count + 1) % 256 →
      (t.scan raw).current_state = raw ∧ (t.scan raw).debounce_count = 0) := by
  obtain ⟨_, h⟩ := ButtonSensor.runCalls_counter cs s.begin (Or.inl rfl)
  have h2 : (s.begin.runCalls cs).debounce_count = 0 ∨
      (s.begin.runCalls cs).debounce_count < s.debounce_threshold := h
  refine ⟨fun h1 => by omega, fun h0 => by omega, ?_⟩
  intro t raw hraw hge
  unfold ButtonSensor.scan
  dsimp only
  rw [if_neg hraw, if_pos hge]
  split_ifs <;> exact ⟨rfl, rfl⟩

/-- C28: in every state reached from `begin()` by any interleaving of `scan()` and
`getReading()` calls, a debounced state that differs from `last_reported` has the pending
flag set; the converse fails: after a press and a release that were both accepted before
any `getReading()` the flag is set although the two states are equal. -/
theorem button_unreported_change_is_pending (s : ButtonSensor) (cs : List ButtonSensor.Call) :
    ((s.begin.runCalls cs).current_state ≠ (s.begin.runCalls cs).last_reported →
      (s.begin.runCalls cs).has_pending_event = true) ∧
    (((ButtonSensor.construct 7 1).begin.runCalls [.scan true, .scan false]).has_pending_event
        = true ∧
      ((ButtonSensor.construct 7 1).begin.runCalls [.scan true, .scan false]).current_state
        = ((ButtonSensor.construct 7 1).begin.runCalls [.scan true, .scan false]).last_reported) :=
  ⟨ButtonSensor.runCalls_pending cs s.begin (fun h => absurd rfl h), by decide⟩

/-- C28 at pin 7 with threshold 3: the press is accepted by the third scan, differs from
`last_reported`, and is pending. -/
theorem button_unreported_change_is_pending_witness :
    ((ButtonSensor.construct 7 3).begin.runCalls [.scan true, .scan true, .scan true]).current_state
      ≠ ((ButtonSensor.construct 7 3).begin.runCalls
          [.scan true, .scan true, .scan true]).last_reported ∧
    ((ButtonSensor.construct 7 3).begin.runCalls
      [.scan true, .scan true, .scan true]).has_pending_event = true :=
  ⟨by decide,
   (button_unreported_change_is_pending (ButtonSensor.construct 7 3)
      [.scan true, .scan true, .scan true]).1 (by decide)⟩

/-! ## ButtonSensor: the driver pattern -/

theorem ButtonSensor.reported_synced (s : ButtonSensor) (h : s.reported) : s.synced := by
  unfold ButtonSensor.reported at h
  unfold ButtonSensor.synced
  simp [h.1, h.2]

theorem ButtonSensor.getReading_reported (s : ButtonSensor) (h : s.synced) :
    s.getReading.2.reported := by
  unfold ButtonSensor.synced at h
  unfold ButtonSensor.reported
  by_cases hp : s.has_pending_event = false
  · have g : s.getReading = (Reading.empty, s) := by
      simp [ButtonSensor.getReading, hp]
    rw [g]
    refine ⟨hp, ?_⟩
    by_contra hne
    have := h.2 (fun e => hne e.symm)
    rw [hp] at this
    exact Bool.noConfusion this
  · have g : s.getReading.2 =
        { s with last_reported := s.current_state, has_pending_event := false } := by
      simp [ButtonSensor.getReading, hp]
    rw [g]
    exact ⟨rfl, rfl⟩

theorem ButtonSensor.readings_values (cs : List ButtonSensor.Call) :
    ∀ (s : ButtonSensor), ∀ r ∈ ButtonSensor.readings s cs, r.value = 0 ∨ r.value = 1 := by
  induction cs with
  | nil => intro s r hr; cases hr
  | cons c cs ih =>
    intro s r hr
    cases c with
    | scan raw => exact ih (s.scan raw) r hr
    | getReading =>
      by_cases hp : s.has_pending_event = false
      · have g : s.getReading = (Reading.empty, s) := by
          simp [ButtonSensor.getReading, hp]
        simp only [ButtonSensor.readings, g, Reading.empty] at hr
        exact ih s r (by simpa using hr)
      · have g : s.getReading = (Reading.event (if s.current_state then 1 else 0)
            InputType.Button s.pin,
            { s with last_reported := s.current_state, has_pending_event := false }) := by
          simp [ButtonSensor.getReading, hp]
        simp only [ButtonSensor.readings, g, Reading.event, if_true] at hr
        rcases List.mem_cons.1 hr with e | hr2
        · rw [e]
          cases s.current_state <;> simp
        · exact ih _ r hr2

/-- Under the driver pattern no scan meets a pending event. -/
theorem ButtonSensor.paced_of_readAfterEveryScan (cs : List ButtonSensor.Call) :
    ∀ (s : ButtonSensor) (b : Bool), ButtonSensor.readAfterEveryScan b cs = true →
      (if b = true then s.synced else s.reported) → ButtonSensor.paced s cs = true := by
  induction cs with
  | nil => intro s b _ _; rfl
  | cons c cs ih =>
    intro s b hp hs
    have hsy : s.synced := by
      cases b
      · exact ButtonSensor.reported_synced s (by simpa using hs)
      · simpa using hs
    cases c with
    | getReading =>
      have hp2 : ButtonSensor.readAfterEveryScan false cs = true := by
        cases b <;> exact hp
      exact ih s.getReading.2 false hp2 (by
        simpa using ButtonSensor.getReading_reported s hsy)
    | scan raw =>
      cases b with
      | true => exact absurd hp (by simp [ButtonSensor.readAfterEveryScan])
      | false =>
        have hr : s.reported := by simpa using hs
        have hp2 : ButtonSensor.readAfterEveryScan true cs = true := hp
        have hs2 := ButtonSensor.scan_synced s raw hsy (Or.inl hr.1)
        have h3 := ih (s.scan raw) true hp2 (by simpa using hs2)
        simp [ButtonSensor.paced, hr.1, h3]

/-- Under the driver pattern every `getReading()` leaves `last_reported` equal to the
debounced state and nothing pending. -/
theorem ButtonSensor.reported_after_getReading (cs1 cs2 : List ButtonSensor.Call) :
    ∀ (s : ButtonSensor) (b : Bool),
      ButtonSensor.readAfterEveryScan b (cs1 ++ ButtonSensor.Call.getReading :: cs2) = true →
      (if b = true then s.synced else s.reported) →
      (s.runCalls (cs1 ++ [ButtonSensor.Call.getReading])).reported := by
  induction cs1 with
  | nil =>
    intro s b _ hs
    have hsy : s.synced := by
      cases b
      · exact ButtonSensor.reported_synced s (by simpa using hs)
      · simpa using hs
    exact ButtonSensor.getReading_reported s hsy
  | cons c cs1 ih =>
    intro s b hp hs
    have hsy : s.synced := by
      cases b
      · exact ButtonSensor.reported_synced s (by simpa using hs)
      · simpa using hs
    cases c with
    | getReading =>
      have hp2 : ButtonSensor.readAfterEveryScan false
          (cs1 ++ ButtonSensor.Call.getReading :: cs2) = true := by
        cases b <;> exact hp
      exact ih s.getReading.2 false hp2 (by
        simpa using ButtonSensor.getReading_reported s hsy)
    | scan raw =>
      cases b with
      | true => exact absurd hp (by simp [ButtonSensor.readAfterEveryScan])
      | false =>
        have hr : s.reported := by simpa using hs
        have hp2 : ButtonSensor.readAfterEveryScan true
            (cs1 ++ ButtonSensor.Call.getReading :: cs2) = true := hp
        have hs2 := ButtonSensor.scan_synced s raw hsy (Or.inl hr.1)
        exact ih (s.scan raw) true hp2 (by simpa using hs2)

/-- C25: when `getReading()` is called after every `scan()` before the next `scan()`, then
for any raw samples and any threshold the non-empty readings after `begin()` alternate in
value, the first of them is a press (value 1), and after every `getReading()` of the
sequence `last_reported` equals the debounced state (and nothing is pending). -/
theorem button_driver_pattern_alternates (s : ButtonSensor) (cs : List ButtonSensor.Call)
    (h : ButtonSensor.readAfterEveryScan false cs = true) :
    List.Chain' Reading.opposite (ButtonSensor.readings s.begin cs) ∧
    (∀ r, (ButtonSensor.readings s.begin cs).head? = some r → r.value = 1) ∧
    (∀ cs1 cs2, cs = cs1 ++ ButtonSensor.Call.getReading :: cs2 →
      (s.begin.runCalls (cs1 ++ [ButtonSensor.Call.getReading])).last_reported
        = (s.begin.runCalls (cs1 ++ [ButtonSensor.Call.getReading])).current_state ∧
      (s.begin.runCalls (cs1 ++ [ButtonSensor.Call.getReading])).has_pending_event = false) := by
  have hrep : s.begin.reported := ⟨rfl, rfl⟩
  have hpaced := ButtonSensor.paced_of_readAfterEveryScan cs s.begin false h (by simpa using hrep)
  have hc := ButtonSensor.readings_chain cs s.begin (ButtonSensor.reported_synced _ hrep) hpaced
  refine ⟨?_, ?_, ?_⟩
  · cases hr : ButtonSensor.readings s.begin cs with
    | nil => exact List.chain'_nil
    | cons r rs =>
      rw [hr] at hc
      exact (List.chain_cons.1 hc).2
  · intro r hr
    cases hrs : ButtonSensor.readings s.begin cs with
    | nil => rw [hrs] at hr; cases hr
    | cons r0 rs =>
      rw [hrs] at hr hc
      have e : r0 = r := Option.some.inj hr
      subst e
      have hne : s.begin.lastReading.value ≠ r0.value := (List.chain_cons.1 hc).1
      have h0 : s.begin.lastReading.value = 0 := rfl
      rw [h0] at hne
      rcases ButtonSensor.readings_values cs s.begin r0 (by rw [hrs]; exact List.mem_cons_self _ _)
        with hv | hv
      · exact absurd hv.symm hne
      · exact hv
  · intro cs1 cs2 hcs
    rw [hcs] at h
    have := ButtonSensor.reported_after_getReading cs1 cs2 s.begin false h (by simpa using hrep)
    exact ⟨this.2, this.1⟩

/-- C25 at pin 7 with threshold 3: a press and a release of three scans each, with a
`getReading()` after every scan. -/
theorem button_driver_pattern_alternates_witness :
    ButtonSensor.readAfterEveryScan false
        [.scan true, .getReading, .scan true, .getReading, .scan true, .getReading,
         .getReading, .scan false, .getReading, .scan false, .getReading,
         .scan false, .getReading] = true ∧
    List.Chain' Reading.opposite
      (ButtonSensor.readings ((ButtonSensor.construct 7 3).begin)
        [.scan true, .getReading, .scan true, .getReading, .scan true, .getReading,
         .getReading, .scan false, .getReading, .scan false, .getReading,
         .scan false, .getReading]) :=
  ⟨by decide, (button_driver_pattern_alternates (ButtonSensor.construct 7 3) _ (by decide)).1⟩

/-! ## MatrixSensor: scans that sample the debounced state -/

theorem MatrixSensor.queueContents_eq_nil_iff (s : MatrixSensor) (h : s.QueueInRange) :
    s.queueContents = [] ↔ s.isQueueEmpty = true := by
  have hl := MatrixSensor.queueContents_length s
  have hz := MatrixSensor.queueCount_eq_zero s h
  constructor
  · intro hq
    rw [hq] at hl
    have : s.queue_head = s.queue_tail := hz.1 hl.symm
    simp [MatrixSensor.isQueueEmpty, this]
  · intro he
    have : s.queue_head = s.queue_tail := by simpa [MatrixSensor.isQueueEmpty] using he
    exact MatrixSensor.queueContents_of_empty s this

theorem MatrixSensor.holds_iff (s : MatrixSensor) (raw : Nat → Nat → Bool) :
    s.holds raw = true ↔
      ∀ r c, r < s.num_rows → c < s.num_cols → raw r c = s.current_state (s.buttonIndex r c) := by
  unfold MatrixSensor.holds
  rw [List.all_eq_true]
  constructor
  · intro h r c hr hc
    simpa using h (r, c) ((MatrixSensor.mem_cellList s (r, c)).2 ⟨hr, hc⟩)
  · intro h rc hrc
    obtain ⟨hr, hc⟩ := (MatrixSensor.mem_cellList s rc).1 hrc
    simpa using h rc.1 rc.2 hr hc

/-- A scan that samples every in-range cell at its debounced state queues nothing and
changes no debounced state. -/
theorem MatrixSensor.scan_of_holds (s : MatrixSensor) (raw : Nat → Nat → Bool)
    (h : s.WellFormed) (hh : s.holds raw = true) :
    (s.scan raw).queueContents = s.queueContents ∧
    (s.scan raw).num_rows = s.num_rows ∧ (s.scan raw).num_cols = s.num_cols ∧
    (s.scan raw).last_reported = s.last_reported ∧
    (∀ r c, r < s.num_rows → c < s.num_cols →
      (s.scan raw).current_state (s.buttonIndex r c) = s.current_state (s.buttonIndex r c) ∧
      (s.scan raw).debounce_count (s.buttonIndex r c) = 0) := by
  obtain ⟨h1, h2, _, h4, _⟩ := h
  obtain ⟨i1, i2, _, i4, i5, _, i7⟩ := MatrixSensor.scan_spec s raw h4 h1 h2
  have hraw := (MatrixSensor.holds_iff s raw).1 hh
  refine ⟨?_, i1, i2, i4, ?_⟩
  · rw [i7]
    have hev : s.cellEvents raw s.cellList = [] := by
      unfold MatrixSensor.cellEvents
      apply filterMap_none
      intro rc hrc
      obtain ⟨hr, hc⟩ := (MatrixSensor.mem_cellList s rc).1 hrc
      obtain ⟨_, _, b3⟩ := (MatrixSensor.cellSensor_scan s (s.buttonIndex rc.1 rc.2)
        (raw rc.1 rc.2)).1 (hraw rc.1 rc.2 hr hc)
      simp [MatrixSensor.cellEvent, b3]
    rw [hev]
    rfl
  · intro r c hr hc
    obtain ⟨b1, b2, _⟩ := (MatrixSensor.cellSensor_scan s (s.buttonIndex r c)
      (raw r c)).1 (hraw r c hr hc)
    obtain ⟨g1, g2⟩ := i5 r c hr hc
    exact ⟨g1.trans b1, g2.trans b2⟩

theorem MatrixSensor.scanAll_of_holdsAll (raws : List (Nat → Nat → Bool)) :
    ∀ s : MatrixSensor, s.WellFormed → s.holdsAll raws = true →
      (s.scanAll raws).WellFormed ∧
      (s.scanAll raws).queueContents = s.queueContents ∧
      (s.scanAll raws).last_reported = s.last_reported ∧
      (∀ r c, r < s.num_rows → c < s.num_cols →
        (s.scanAll raws).current_state (s.buttonIndex r c)
          = s.current_state (s.buttonIndex r c)) := by
  induction raws with
  | nil => intro s h _; exact ⟨h, rfl, rfl, fun _ _ _ _ => rfl⟩
  | cons raw raws ih =>
    intro s h hh
    have hh2 : (s.holds raw && MatrixSensor.holdsAll (s.scan raw) raws) = true := hh
    rw [Bool.and_eq_true] at hh2
    obtain ⟨a1, a2, a3, a4, a5⟩ := MatrixSensor.scan_of_holds s raw h hh2.1
    obtain ⟨b1, b2, b3, b4⟩ := ih (s.scan raw) (MatrixSensor.wellFormed_scan s raw h) hh2.2
    have hidx : ∀ r c, (s.scan raw).buttonIndex r c = s.buttonIndex r c := by
      intro r c; simp [MatrixSensor.buttonIndex, a3]
    have hstep : s.scanAll (raw :: raws) = (s.scan raw).scanAll raws := rfl
    rw [hstep]
    refine ⟨b1, b2.trans a1, b3.trans a4, ?_⟩
    intro r c hr hc
    have := b4 r c (by rw [a2]; exact hr) (by rw [a3]; exact hc)
    rw [hidx] at this
    exact this.trans (a5 r c hr hc).1

/-- C21: from any reachable state with an empty queue, any number of `scan()` calls each of
which samples every in-range cell at the debounced state the cell then has enqueue nothing:
the queue is still empty, `getReading()` afterwards returns the empty reading and leaves
the state as it is, and no debounced state or `last_reported` has changed. -/
theorem matrix_hold_enqueues_nothing (s : MatrixSensor) (raws : List (Nat → Nat → Bool))
    (hr : s.Reachable) (he : s.isQueueEmpty = true) (hh : s.holdsAll raws = true) :
    (s.scanAll raws).isQueueEmpty = true ∧
    (s.scanAll raws).queueContents = [] ∧
    (s.scanAll raws).getReading = (Reading.empty, s.scanAll raws) ∧
    (s.scanAll raws).last_reported = s.last_reported ∧
    (∀ r c, r < s.num_rows → c < s.num_cols →
      (s.scanAll raws).current_state (s.buttonIndex r c)
        = s.current_state (s.buttonIndex r c)) := by
  have hw := hr.wellFormed
  obtain ⟨b1, b2, b3, b4⟩ := MatrixSensor.scanAll_of_holdsAll raws s hw hh
  have hq : s.queueContents = [] := (MatrixSensor.queueContents_eq_nil_iff s hw.2.2.2.1).2 he
  rw [hq] at b2
  have hin := b1.2.2.2.1
  exact ⟨(MatrixSensor.queueContents_eq_nil_iff _ hin).1 b2, b2,
    (MatrixSensor.getReading_spec _ hin).1 b2, b3, b4⟩

/-- C21 on the 3x4 test matrix: the cell (0,0) is pressed and its press event read, then
held for 20 further scans; and on the idle matrix after `begin()` and one scan. -/
theorem matrix_hold_enqueues_nothing_witness :
    (((MatrixSensor.heldForThreeScans [(0, 0)]).getReading.2.scanAll
        (List.replicate 20 (MatrixSensor.cellsActive [(0, 0)]))).getReading.1 = Reading.empty) ∧
    ((MatrixSensor.testMatrix.begin.scanAll [MatrixSensor.cellsActive []]).getReading.1
      = Reading.empty) :=
  ⟨congrArg Prod.fst (matrix_hold_enqueues_nothing
      (MatrixSensor.heldForThreeScans [(0, 0)]).getReading.2
      (List.replicate 20 (MatrixSensor.cellsActive [(0, 0)]))
      (MatrixSensor.heldForThreeScans_reachable [(0, 0)]).getReading
      (by decide) (by decide)).2.2.1,
   congrArg Prod.fst (matrix_hold_enqueues_nothing MatrixSensor.testMatrix.begin
      [MatrixSensor.cellsActive []]
      (MatrixSensor.Reachable.begin
        (MatrixSensor.Reachable.construct _ _ _ _ _ (by decide) (by decide)))
      (by decide) (by decide)).2.2.1⟩

/-! ## MatrixSensor: the cell step against `ButtonSensor::scan` -/

/-- The three outcomes of `ButtonSensor::scan` on a sensor with nothing pending. -/
theorem ButtonSensor.scan_cases (b : ButtonSensor) (raw : Bool)
    (hp : b.has_pending_event = false) :
    (raw = b.current_state →
      (b.scan raw).current_state = b.current_state ∧
      (b.scan raw).debounce_count = 0 ∧
      (b.scan raw).has_pending_event = false) ∧
    (raw ≠ b.current_state → ¬ b.debounce_threshold ≤ (b.debounce_count + 1) % 256 →
      (b.scan raw).current_state = b.current_state ∧
      (b.scan raw).debounce_count = (b.debounce_count + 1) % 256 ∧
      (b.scan raw).has_pending_event = false) ∧
    (raw ≠ b.current_state → b.debounce_threshold ≤ (b.debounce_count + 1) % 256 →
      (b.scan raw).current_state = raw ∧
      (b.scan raw).debounce_count = 0 ∧
      ((b.scan raw).has_pending_event = true ↔ raw ≠ b.last_reported)) := by
  refine ⟨fun h => ?_, fun h hlt => ?_, fun h hge => ?_⟩
  · simp [ButtonSensor.scan, h, hp]
  · simp [ButtonSensor.scan, h, hlt, hp]
  · have e : b.scan raw =
        { b with
          current_state := raw, debounce_count := 0, raw_state := raw
          has_pending_event := if raw ≠ b.last_reported then true else b.has_pending_event } := by
      unfold ButtonSensor.scan
      dsimp only
      rw [if_neg h, if_pos hge]
      by_cases hl : raw = b.last_reported
      · rw [if_neg (by simpa using hl), if_neg (by simpa using hl)]
      · rw [if_pos hl, if_pos hl]
    rw [e]
    refine ⟨rfl, rfl, ?_⟩
    by_cases hl : raw = b.last_reported
    · simp [hl, hp]
    · simp [hl]

/-- C23: each matrix cell runs the `ButtonSensor` state machine. In every reachable state,
for every cell index `idx = buttonIndex(row, col)` and every raw sample, `scanButton` moves
`current_state[idx]`, `last_reported[idx]` and `debounce_count[idx]` exactly as
`ButtonSensor::scan` with threshold 3 moves `current_state`, `last_reported` and
`debounce_count`; it calls `enqueueEvent(idx, new debounced state)` exactly when
`ButtonSensor::scan` sets `has_pending_event`, and otherwise leaves the queue alone; the
state of every other cell is unchanged. -/
theorem matrix_cell_runs_button_machine (s : MatrixSensor) (row col : Nat) (raw : Bool)
    (p : Nat) (q : Bool) (hr : s.Reachable) :
    (let idx := s.buttonIndex row col
     let b : ButtonSensor :=
       { pin := p
         debounce_threshold := 3
         current_state := s.current_state idx
         last_reported := s.last_reported idx
         raw_state := q
         debounce_count := s.debounce_count idx
         has_pending_event := false }
     let u : MatrixSensor :=
       { s with
         current_state := setAt s.current_state idx (b.scan raw).current_state
         debounce_count := setAt s.debounce_count idx (b.scan raw).debounce_count }
     (s.scanButton row col raw).current_state idx = (b.scan raw).current_state ∧
     (s.scanButton row col raw).last_reported idx = (b.scan raw).last_reported ∧
     (s.scanButton row col raw).debounce_count idx = (b.scan raw).debounce_count ∧
     ((b.scan raw).has_pending_event = true →
       s.scanButton row col raw = u.enqueueEvent idx (b.scan raw).current_state) ∧
     ((b.scan raw).has_pending_event = false → s.scanButton row col raw = u) ∧
     (∀ j, j ≠ idx →
       (s.scanButton row col raw).current_state j = s.current_state j ∧
       (s.scanButton row col raw).last_reported j = s.last_reported j ∧
       (s.scanButton row col raw).debounce_count j = s.debounce_count j)) := by
  intro idx b u
  have hthr : s.debounce_threshold = 3 := hr.wellFormed.2.2.1
  obtain ⟨f1, f2, f3, f4, f5⟩ := MatrixSensor.scanButton_frame s row col raw
  obtain ⟨ha, hb, hc⟩ := ButtonSensor.scan_cases b raw rfl
  have hlast : (b.scan raw).last_reported = s.last_reported idx :=
    ButtonSensor.scan_last_reported b raw
  have hmain : ((b.scan raw).has_pending_event = true →
        s.scanButton row col raw = u.enqueueEvent idx (b.scan raw).current_state) ∧
      ((b.scan raw).has_pending_event = false → s.scanButton row col raw = u) := by
    by_cases h1 : raw = s.current_state idx
    · obtain ⟨b1, b2, b3⟩ := ha h1
      have hu : u = { s with debounce_count := setAt s.debounce_count idx 0 } := by
        show ({ s with
          current_state := setAt s.current_state idx (b.scan raw).current_state
          debounce_count := setAt s.debounce_count idx (b.scan raw).debounce_count }
            : MatrixSensor) = _
        rw [b1, b2, setAt_self s.current_state idx _ rfl]
      refine ⟨fun hp => ?_, fun _ => ?_⟩
      · rw [b3] at hp; cases hp
      · rw [hu]; exact MatrixSensor.scanButton_of_agree s row col raw h1
    · by_cases h2 : s.debounce_threshold ≤ (s.debounce_count idx + 1) % 256
      · have h2b : b.debounce_threshold ≤ (b.debounce_count + 1) % 256 := by
          rw [hthr] at h2; exact h2
        obtain ⟨b1, b2, b3⟩ := hc h1 h2b
        have hu : u = { s with
            debounce_count := setAt s.debounce_count idx 0
            current_state := setAt s.current_state idx raw } := by
          show ({ s with
            current_state := setAt s.current_state idx (b.scan raw).current_state
            debounce_count := setAt s.debounce_count idx (b.scan raw).debounce_count }
              : MatrixSensor) = _
          rw [b1, b2]
        have hsb := MatrixSensor.scanButton_of_accept s row col raw h1 h2
        refine ⟨fun hp => ?_, fun hp => ?_⟩
        · rw [hsb, if_pos (b3.1 hp), hu, b1]
        · have hl : ¬ raw ≠ s.last_reported idx := by
            intro hl
            rw [b3.2 hl] at hp
            cases hp
          rw [hsb, if_neg hl, hu]
      · have h2b : ¬ b.debounce_threshold ≤ (b.debounce_count + 1) % 256 := by
          rw [hthr] at h2; exact h2
        obtain ⟨b1, b2, b3⟩ := hb h1 h2b
        have hu : u = { s with
            debounce_count :=
              setAt s.debounce_count idx ((s.debounce_count idx + 1) % 256) } := by
          show ({ s with
            current_state := setAt s.current_state idx (b.scan raw).current_state
            debounce_count := setAt s.debounce_count idx (b.scan raw).debounce_count }
              : MatrixSensor) = _
          rw [b1, b2, setAt_self s.current_state idx _ rfl]
        refine ⟨fun hp => ?_, fun _ => ?_⟩
        · rw [b3] at hp; cases hp
        · rw [hu]; exact MatrixSensor.scanButton_of_below s row col raw h1 h2
  have hcells : (s.scanButton row col raw).current_state idx = (b.scan raw).current_state ∧
      (s.scanButton row col raw).debounce_count idx = (b.scan raw).debounce_count := by
    cases hp : (b.scan raw).has_pending_event
    · rw [hmain.2 hp]
      exact ⟨setAt_same _ _ _, setAt_same _ _ _⟩
    · rw [hmain.1 hp]
      obtain ⟨_, _, e3, _, e5, _⟩ := MatrixSensor.enqueueEvent_cells u idx
        (b.scan raw).current_state
      rw [e3, e5]
      exact ⟨setAt_same _ _ _, setAt_same _ _ _⟩
  refine ⟨hcells.1, by rw [f4, hlast], hcells.2, hmain.1, hmain.2, ?_⟩
  intro j hj
  obtain ⟨g1, g2⟩ := f5 j hj
  exact ⟨g1, by rw [f4], g2⟩

/-- C23 on the 3x4 test matrix: after two scans with the cell (1,2) held, the third sample
of that cell is accepted and queued, as a `ButtonSensor` with counter 2 would mark it. -/
theorem matrix_cell_runs_button_machine_witness :
    ((MatrixSensor.testMatrix.begin.scan (MatrixSensor.onlyCell 1 2)).scan
        (MatrixSensor.onlyCell 1 2)).Reachable ∧
    (((MatrixSensor.testMatrix.begin.scan (MatrixSensor.onlyCell 1 2)).scan
        (MatrixSensor.onlyCell 1 2)).scanButton 1 2 true).current_state 6
      = ((ButtonSensor.mk 134 3 false false false 2 false).scan true).current_state :=
  ⟨((MatrixSensor.Reachable.begin
      (MatrixSensor.Reachable.construct _ _ _ _ _ (by decide) (by decide))).scan _).scan _,
   (matrix_cell_runs_button_machine
      ((MatrixSensor.testMatrix.begin.scan (MatrixSensor.onlyCell 1 2)).scan
        (MatrixSensor.onlyCell 1 2)) 1 2 true 134 false
      (((MatrixSensor.Reachable.begin
        (MatrixSensor.Reachable.construct _ _ _ _ _ (by decide) (by decide))).scan _).scan _)).1⟩

/-! ## MatrixSensor: array bounds -/

/-- The cell steps of a pass keep both queue indices valid. -/
theorem MatrixSensor.scanCells_inRange (s : MatrixSensor) (raw : Nat → Nat → Bool)
    (l : List (Nat × Nat)) (h : s.QueueInRange) : (s.scanCells raw l).QueueInRange := by
  unfold MatrixSensor.scanCells
  apply foldl_invariant (fun t : MatrixSensor => t.QueueInRange) _ l s h
  intro t x _ ht
  exact MatrixSensor.scanButton_inRange t x.1 x.2 _ ht

/-- C29: index safety. In every state reachable from construction by `begin()`, `scan()`
and `getReading()`: `queue_head` and `queue_tail` are below 8, every unread queue entry has
`button_index < num_rows * num_cols <= 64`; the entry that `getReading()` reads at
`queue_head` when the queue is not empty names a cell below `MAX_BUTTONS`; and at every cell
step of a `scan()` started in that state (the pass is split at an arbitrary visited cell)
the index `buttonIndex(row, col)` used by `scanButton` is below `MAX_BUTTONS` and the queue
indices used by `enqueueEvent` are below `EVENT_QUEUE_SIZE`. -/
theorem matrix_index_safety (s : MatrixSensor) (hr : s.Reachable) :
    s.queue_head < 8 ∧ s.queue_tail < 8 ∧
    (∀ e ∈ s.queueContents, e.button_index < s.num_rows * s.num_cols) ∧
    s.num_rows * s.num_cols ≤ 64 ∧
    s.num_rows ≤ MatrixSensor.MAX_ROWS ∧ s.num_cols ≤ MatrixSensor.MAX_COLS ∧
    (s.isQueueEmpty = false →
      (s.event_queue s.queue_head).button_index < MatrixSensor.MAX_BUTTONS) ∧
    (∀ (raw : Nat → Nat → Bool) (l1 l2 : List (Nat × Nat)) (rc : Nat × Nat),
      s.cellList = l1 ++ rc :: l2 →
      s.scan raw = ((s.scanCells raw l1).scanButton rc.1 rc.2 (raw rc.1 rc.2)).scanCells raw l2 ∧
      rc.1 < (s.scanCells raw l1).num_rows ∧ rc.2 < (s.scanCells raw l1).num_cols ∧
      (s.scanCells raw l1).buttonIndex rc.1 rc.2 < MatrixSensor.MAX_BUTTONS ∧
      (s.scanCells raw l1).queue_head < MatrixSensor.EVENT_QUEUE_SIZE ∧
      (s.scanCells raw l1).queue_tail < MatrixSensor.EVENT_QUEUE_SIZE ∧
      ((s.scanCells raw l1).queue_tail + 1) % MatrixSensor.EVENT_QUEUE_SIZE
        < MatrixSensor.EVENT_QUEUE_SIZE) := by
  obtain ⟨h1, h2, _, h4, h5⟩ := (MatrixSensor.wellFormed_def s).1 hr.wellFormed
  have h64 := MatrixSensor.cells_le s h1 h2
  refine ⟨h4.1, h4.2, h5, h64, h1, h2, ?_, ?_⟩
  · intro he
    cases hq : s.queueContents with
    | nil =>
      rw [(MatrixSensor.queueContents_eq_nil_iff s h4).1 hq] at he
      cases he
    | cons e q =>
      obtain ⟨g1, _⟩ := (MatrixSensor.getReading_spec s h4).2 e q hq
      have := h5 e (by rw [hq]; exact List.mem_cons_self e q)
      rw [← g1]
      show e.button_index < 64
      omega
  · intro raw l1 l2 rc hl
    have hmem : rc ∈ s.cellList := by
      rw [hl]; exact List.mem_append_right _ (List.mem_cons_self rc l2)
    obtain ⟨hr1, hc1⟩ := (MatrixSensor.mem_cellList s rc).1 hmem
    have hrows : (s.scanCells raw l1).num_rows = s.num_rows := by
      unfold MatrixSensor.scanCells
      apply foldl_invariant (fun t : MatrixSensor => t.num_rows = s.num_rows) _ l1 s rfl
      intro t x _ ht
      exact (MatrixSensor.scanButton_frame t x.1 x.2 _).1.trans ht
    have hcols := MatrixSensor.scanCells_num_cols raw l1 s
    have hq := MatrixSensor.scanCells_inRange s raw l1 h4
    have hidx : (s.scanCells raw l1).buttonIndex rc.1 rc.2 = s.buttonIndex rc.1 rc.2 := by
      simp [MatrixSensor.buttonIndex, hcols]
    obtain ⟨e1, e2⟩ := MatrixSensor.buttonIndex_eq s rc.1 rc.2 hr1 hc1 h1 h2
    refine ⟨?_, by rw [hrows]; exact hr1, by rw [hcols]; exact hc1, ?_, hq.1, hq.2, ?_⟩
    · rw [MatrixSensor.scan_eq_scanCells, hl, MatrixSensor.scanCells_append]
      rfl
    · rw [hidx, e1]
      show rc.1 * s.num_cols + rc.2 < 64
      exact e2
    · exact Nat.mod_lt _ (by decide)

/-- C29 on the 3x4 test matrix with two cells held for three scans and one event read. -/
theorem matrix_index_safety_witness :
    (MatrixSensor.heldForThreeScans [(0, 0), (1, 1)]).getReading.2.queue_head < 8 ∧
    (MatrixSensor.heldForThreeScans [(0, 0), (1, 1)]).getReading.2.queue_tail < 8 :=
  ⟨(matrix_index_safety _
      (MatrixSensor.heldForThreeScans_reachable [(0, 0), (1, 1)]).getReading).1,
   (matrix_index_safety _
      (MatrixSensor.heldForThreeScans_reachable [(0, 0), (1, 1)]).getReading).2.1⟩

/-! ## MatrixSensor: simultaneous presses in row-major order -/

/-- The pass over the cells visits them in strictly ascending order of `row * num_cols + col`. -/
theorem MatrixSensor.cellList_pairwise (s : MatrixSensor) :
    s.cellList.Pairwise (fun a b => a.1 * s.num_cols + a.2 < b.1 * s.num_cols + b.2) := by
  unfold MatrixSensor.cellList
  rw [List.pairwise_flatMap]
  constructor
  · intro r _
    rw [List.pairwise_map]
    apply (List.pairwise_lt_range s.num_cols).imp
    intro a b hab
    show r * s.num_cols + a < r * s.num_cols + b
    omega
  · apply (List.pairwise_lt_range s.num_rows).imp
    intro a b hab x hx y hy
    obtain ⟨c1, hc1, e1⟩ := List.mem_map.1 hx
    obtain ⟨c2, _, e2⟩ := List.mem_map.1 hy
    subst e1
    subst e2
    have hc1 := List.mem_range.1 hc1
    show a * s.num_cols + c1 < b * s.num_cols + c2
    have h1 : (a + 1) * s.num_cols ≤ b * s.num_cols := Nat.mul_le_mul_right _ hab
    rw [Nat.succ_mul] at h1
    omega

/-- C24: in a `MatrixSensor` of any (clamped) dimensions after `begin()`, any list of at most
7 distinct in-range cells held active, all others inactive, for 3 scans: the drain loop
(with room for more readings than cells) returns exactly one reading per held cell, each a
press (value 1) of type Matrix; the readings are those of the held cells in the order in
which `scan()` visits them, so their pins `128 + row * num_cols + col` are strictly
ascending and are exactly the pins of the held cells; after the loop `getReading()` returns
empty. -/
theorem matrix_simultaneous_presses_in_order (mem : MatrixSensor) (rows cols : Nat)
    (row_pin_array col_pin_array : Nat → Nat) (cells : List (Nat × Nat)) (fuel : Nat)
    (hnd : cells.Nodup)
    (hin : ∀ rc ∈ cells,
      rc.1 < (MatrixSensor.construct mem rows cols row_pin_array col_pin_array).num_rows ∧
      rc.2 < (MatrixSensor.construct mem rows cols row_pin_array col_pin_array).num_cols)
    (h7 : cells.length ≤ 7) (hf : cells.length < fuel) :
    (let s0 := (MatrixSensor.construct mem rows cols row_pin_array col_pin_array).begin
     let raw := MatrixSensor.cellsActive cells
     let s3 := ((s0.scan raw).scan raw).scan raw
     (s3.drain fuel).1.length = cells.length ∧
     (∀ r ∈ (s3.drain fuel).1, r.has_value = true ∧ r.value = 1 ∧ r.type = InputType.Matrix) ∧
     (s3.drain fuel).1
       = (s0.cellList.filter (fun rc => raw rc.1 rc.2)).map
           (fun rc => Reading.event 1 InputType.Matrix (128 + (rc.1 * s0.num_cols + rc.2))) ∧
     ((s3.drain fuel).1.map Reading.pin).Pairwise (fun a b => a < b) ∧
     ((s3.drain fuel).1.map Reading.pin).Perm
       (cells.map (fun rc => 128 + (rc.1 * s0.num_cols + rc.2))) ∧
     (s3.drain fuel).2.getReading.1 = Reading.empty) := by
  intro s0 raw s3
  have hfacts : s0.Settled ∧ s0.QueueInRange ∧ s0.debounce_threshold = 3 ∧ s0.num_rows ≤ 8 ∧
      s0.num_cols ≤ 8 ∧ s0.queueContents = [] ∧ ∀ i, s0.current_state i = false :=
    MatrixSensor.begin_facts mem rows cols row_pin_array col_pin_array
  obtain ⟨hs, hq, hthr, hR, hC, hnil, hcur⟩ := hfacts
  obtain ⟨_, _, _, _, _, _, _, f4, f5, _⟩ :=
    MatrixSensor.held_three_scans s0 raw hs hq hthr hR hC
  have hheld : s0.heldEvent raw = fun rc =>
      if (fun x : Nat × Nat => raw x.1 x.2) rc = true then
        some ((fun x : Nat × Nat =>
          ({ button_index := s0.buttonIndex x.1 x.2, pressed := true } : PendingEvent)) rc)
      else none := by
    funext rc
    cases hraw : raw rc.1 rc.2 <;> simp [MatrixSensor.heldEvent, hcur, hraw]
  have hperm : (s0.cellList.filter (fun x : Nat × Nat => raw x.1 x.2)).Perm cells := by
    rw [List.perm_ext_iff_of_nodup ((MatrixSensor.cellList_nodup s0).filter _) hnd]
    intro x
    rw [List.mem_filter, MatrixSensor.mem_cellList]
    constructor
    · rintro ⟨_, hx⟩
      simpa [raw, MatrixSensor.cellsActive] using hx
    · intro hx
      exact ⟨hin x hx, by simpa [raw, MatrixSensor.cellsActive] using hx⟩
  have hevlen : (s0.cellList.filterMap (s0.heldEvent raw)).length = cells.length := by
    rw [hheld, filterMap_ite, List.length_map, hperm.length_eq]
  have hcont : s3.queueContents = s0.cellList.filterMap (s0.heldEvent raw) := by
    show (((s0.scan raw).scan raw).scan raw).queueContents = _
    rw [f5, hnil, MatrixSensor.foldl_push _ [] (by simp)]
    have h0 : ([] ++ s0.cellList.filterMap (s0.heldEvent raw)).length - 7 = 0 := by
      rw [List.nil_append, hevlen]; omega
    rw [h0]
    rfl
  have hcount : s3.queueCount < fuel := by
    rw [← MatrixSensor.queueContents_length, hcont, hevlen]
    exact hf
  obtain ⟨d1, _, _, d4⟩ := MatrixSensor.drain_spec fuel s3 f4 hcount
  have hrs : (s3.drain fuel).1
      = (s0.cellList.filter (fun rc => raw rc.1 rc.2)).map
          (fun rc => Reading.event 1 InputType.Matrix (128 + (rc.1 * s0.num_cols + rc.2))) := by
    rw [d1, hcont, hheld, filterMap_ite, List.map_map]
    apply List.map_congr_left
    intro x hx
    obtain ⟨hx1, hx2⟩ := (MatrixSensor.mem_cellList s0 x).1 (List.mem_filter.1 hx).1
    have := MatrixSensor.eventReading_cell s0 x.1 x.2 true hx1 hx2 hR hC
    rw [Nat.add_assoc] at this
    simpa using this
  have hpins : (s3.drain fuel).1.map Reading.pin
      = (s0.cellList.filter (fun rc => raw rc.1 rc.2)).map
          (fun rc => 128 + (rc.1 * s0.num_cols + rc.2)) := by
    rw [hrs, List.map_map]
    rfl
  refine ⟨?_, ?_, hrs, ?_, ?_, by rw [d4]⟩
  · rw [hrs, List.length_map, hperm.length_eq]
  · intro r hr
    rw [hrs] at hr
    obtain ⟨x, _, hx⟩ := List.mem_map.1 hr
    rw [← hx]
    exact ⟨rfl, rfl, rfl⟩
  · rw [hpins, List.pairwise_map]
    apply List.Pairwise.filter
    apply (MatrixSensor.cellList_pairwise s0).imp
    intro a b hab
    omega
  · rw [hpins]
    exact hperm.map _

/-- C24 on the 2x2 matrix of the test suite with all 4 cells held: four readings, then empty. -/
theorem matrix_simultaneous_presses_in_order_witness :
    ((((MatrixSensor.testMatrix2x2.begin.scan
        (MatrixSensor.cellsActive [(0, 0), (0, 1), (1, 0), (1, 1)])).scan
        (MatrixSensor.cellsActive [(0, 0), (0, 1), (1, 0), (1, 1)])).scan
        (MatrixSensor.cellsActive [(0, 0), (0, 1), (1, 0), (1, 1)])).drain 5).1.length = 4 ∧
    ((((MatrixSensor.testMatrix2x2.begin.scan
        (MatrixSensor.cellsActive [(0, 0), (0, 1), (1, 0), (1, 1)])).scan
        (MatrixSensor.cellsActive [(0, 0), (0, 1), (1, 0), (1, 1)])).scan
        (MatrixSensor.cellsActive [(0, 0), (0, 1), (1, 0), (1, 1)])).drain 5).1.map Reading.pin
      = [128, 129, 130, 131] :=
  ⟨(matrix_simultaneous_presses_in_order MatrixSensor.zeroed 2 2
      (fun i => [2, 3].getD i 0) (fun i => [5, 6].getD i 0)
      [(0, 0), (0, 1), (1, 0), (1, 1)] 5 (by decide) (by decide) (by decide) (by decide)).1,
   by decide⟩

/-! ## MatrixSensor: the driver loop (scan, then read until empty) -/

/-- A queued event of a cell carries the new debounced state of the cell, and that state
differs from the last reported one. -/
theorem MatrixSensor.cellEvent_some (s : MatrixSensor) (r c : Nat) (raw : Bool)
    (e : PendingEvent) (h : s.cellEvent r c raw = some e) :
    e.button_index = s.buttonIndex r c ∧
    e.pressed = ((s.cellSensor (s.buttonIndex r c)).scan raw).current_state ∧
    e.pressed ≠ s.last_reported (s.buttonIndex r c) := by
  obtain ⟨ha, hb, hc⟩ := MatrixSensor.cellSensor_scan s (s.buttonIndex r c) raw
  unfold MatrixSensor.cellEvent at h
  split_ifs at h with hp
  have he := Option.some.inj h
  rw [← he]
  refine ⟨rfl, rfl, ?_⟩
  show ((s.cellSensor (s.buttonIndex r c)).scan raw).current_state ≠ _
  by_cases h1 : raw = s.current_state (s.buttonIndex r c)
  · rw [(ha h1).2.2] at hp; cases hp
  · by_cases h2 : s.debounce_threshold ≤ (s.debounce_count (s.buttonIndex r c) + 1) % 256
    · obtain ⟨b1, _, b3⟩ := hc h1 h2
      rw [b1]
      exact b3.1 hp
    · rw [(hb h1 h2).2.2] at hp; cases hp

/-- A cell that queues no event ends the scan in its old debounced state or in its last
reported state. -/
theorem MatrixSensor.cellEvent_none (s : MatrixSensor) (r c : Nat) (raw : Bool)
    (h : s.cellEvent r c raw = none) :
    ((s.cellSensor (s.buttonIndex r c)).scan raw).current_state
        = s.current_state (s.buttonIndex r c) ∨
    ((s.cellSensor (s.buttonIndex r c)).scan raw).current_state
        = s.last_reported (s.buttonIndex r c) := by
  obtain ⟨ha, hb, hc⟩ := MatrixSensor.cellSensor_scan s (s.buttonIndex r c) raw
  have hp : ((s.cellSensor (s.buttonIndex r c)).scan raw).has_pending_event = false := by
    unfold MatrixSensor.cellEvent at h
    split_ifs at h with hp
    simpa using hp
  by_cases h1 : raw = s.current_state (s.buttonIndex r c)
  · exact Or.inl (ha h1).1
  · by_cases h2 : s.debounce_threshold ≤ (s.debounce_count (s.buttonIndex r c) + 1) % 256
    · obtain ⟨b1, _, b3⟩ := hc h1 h2
      right
      rw [b1]
      by_contra hne
      rw [b3.2 hne] at hp
      cases hp
    · exact Or.inl (hb h1 h2).1

theorem MatrixSensor.reportAll_not_mem (q : List PendingEvent) (i : Nat) :
    ∀ last : Nat → Bool, (∀ e ∈ q, e.button_index ≠ i) →
      MatrixSensor.reportAll last q i = last i := by
  induction q with
  | nil => intro last _; rfl
  | cons x q ih =>
    intro last h
    show MatrixSensor.reportAll (setAt last x.button_index x.pressed) q i = _
    rw [ih _ (fun e he => h e (List.mem_cons_of_mem x he))]
    exact setAt_other _ _ _ _ (fun e => h x (List.mem_cons_self x q) e.symm)

theorem MatrixSensor.reportAll_mem (q : List PendingEvent) (e : PendingEvent) :
    ∀ last : Nat → Bool, (q.map PendingEvent.button_index).Nodup → e ∈ q →
      MatrixSensor.reportAll last q e.button_index = e.pressed := by
  induction q with
  | nil => intro last _ he; cases he
  | cons x q ih =>
    intro last hnd he
    rw [List.map_cons, List.nodup_cons] at hnd
    show MatrixSensor.reportAll (setAt last x.button_index x.pressed) q e.button_index = _
    rcases List.mem_cons.1 he with hx | hx
    · subst hx
      rw [MatrixSensor.reportAll_not_mem q e.button_index _ (fun y hy hye =>
        hnd.1 (List.mem_map.2 ⟨y, hy, hye⟩))]
      exact setAt_same _ _ _
    · exact ih _ hnd.2 hx

/-- The entries of a list with distinct indices that carry the index `i`: none or one. -/
theorem MatrixSensor.filter_index (q : List PendingEvent) (i : Nat)
    (hnd : (q.map PendingEvent.button_index).Nodup) :
    (q.filter (fun e => e.button_index == i) = [] ∧ ∀ e ∈ q, e.button_index ≠ i) ∨
    (∃ e ∈ q, e.button_index = i ∧ q.filter (fun e => e.button_index == i) = [e]) := by
  induction q with
  | nil => exact Or.inl ⟨rfl, fun e he => absurd he (List.not_mem_nil e)⟩
  | cons x q ih =>
    rw [List.map_cons, List.nodup_cons] at hnd
    by_cases hx : x.button_index = i
    · right
      refine ⟨x, List.mem_cons_self x q, hx, ?_⟩
      have hq : q.filter (fun e => e.button_index == i) = [] := by
        rw [List.filter_eq_nil_iff]
        intro y hy hyi
        have hyi2 : y.button_index = i := by simpa using hyi
        exact hnd.1 (List.mem_map.2 ⟨y, hy, hyi2.trans hx.symm⟩)
      rw [List.filter_cons, if_pos (by simpa using hx), hq]
    · rcases ih hnd.2 with ⟨h1, h2⟩ | ⟨e, he, hei, hf⟩
      · left
        refine ⟨?_, ?_⟩
        · rw [List.filter_cons, if_neg (by simpa using hx), h1]
        · intro e he
          rcases List.mem_cons.1 he with h | h
          · rw [h]; exact hx
          · exact h2 e h
      · right
        refine ⟨e, List.mem_cons_of_mem x he, hei, ?_⟩
        rw [List.filter_cons, if_neg (by simpa using hx), hf]

theorem filterMap_map_sublist {α β γ : Type} (f : α → Option β) (g : β → γ) (k : α → γ)
    (l : List α) (h : ∀ x ∈ l, ∀ e, f x = some e → g e = k x) :
    ((l.filterMap f).map g).Sublist (l.map k) := by
  induction l with
  | nil => exact List.Sublist.slnil
  | cons x l ih =>
    have ih2 := ih (fun y hy => h y (List.mem_cons_of_mem x hy))
    rw [List.filterMap_cons]
    cases hfx : f x with
    | none => exact List.Sublist.cons _ ih2
    | some e =>
      show (g e :: (l.filterMap f).map g).Sublist (k x :: l.map k)
      rw [h x (List.mem_cons_self x l) e hfx]
      exact List.Sublist.cons₂ _ ih2

theorem filterMap_length_eq {α β : Type} (f : α → Option β) (p : α → Bool) (l : List α)
    (h : ∀ x ∈ l, (f x).isSome = p x) : (l.filterMap f).length = (l.filter p).length := by
  induction l with
  | nil => rfl
  | cons x l ih =>
    have ih2 := ih (fun y hy => h y (List.mem_cons_of_mem x hy))
    have hx := h x (List.mem_cons_self x l)
    rw [List.filterMap_cons, List.filter_cons]
    cases hfx : f x with
    | none =>
      rw [hfx] at hx
      rw [if_neg (by rw [← hx]; simp)]
      exact ih2
    | some e =>
      rw [hfx] at hx
      rw [if_pos (by rw [← hx]; rfl)]
      simp [ih2]

/-- What the drain loop leaves behind, besides an empty queue: each unread entry has been
written to `last_reported`; nothing else has moved. -/
theorem MatrixSensor.drain_fields (fuel : Nat) :
    ∀ s : MatrixSensor, s.QueueInRange → s.queueCount < fuel →
      (s.drain fuel).2.last_reported = MatrixSensor.reportAll s.last_reported s.queueContents ∧
      (s.drain fuel).2.current_state = s.current_state ∧
      (s.drain fuel).2.debounce_count = s.debounce_count ∧
      (s.drain fuel).2.num_rows = s.num_rows ∧
      (s.drain fuel).2.num_cols = s.num_cols ∧
      (s.drain fuel).2.debounce_threshold = s.debounce_threshold := by
  induction fuel with
  | zero => intro s _ h; omega
  | succ fuel ih =>
    intro s h hc
    obtain ⟨hnil, hcons⟩ := MatrixSensor.getReading_spec s h
    cases hq : s.queueContents with
    | nil =>
      have g := hnil hq
      have hd : s.drain (fuel + 1) = ([], s) := by
        show (if s.getReading.1.has_value then _ else _) = _
        rw [g]; rfl
      rw [hd]
      exact ⟨rfl, rfl, rfl, rfl, rfl, rfl⟩
    | cons e q =>
      obtain ⟨_, _, g2, g3, g4, g6⟩ := hcons e q hq
      have hlen : s.getReading.2.queueCount < fuel := by
        have h1 := MatrixSensor.queueContents_length s
        have h2 := MatrixSensor.queueContents_length s.getReading.2
        rw [hq] at h1
        rw [g3] at h2
        simp at h1
        omega
      obtain ⟨i1, i2, i3, i4, i5, i6⟩ := ih _ g4 hlen
      have hd : s.drain (fuel + 1) =
          (s.getReading.1 :: (s.getReading.2.drain fuel).1, (s.getReading.2.drain fuel).2) := by
        show (if s.getReading.1.has_value then _ else _) = _
        rw [if_pos g2]
      rw [hd]
      show (s.getReading.2.drain fuel).2.last_reported = _ ∧
        (s.getReading.2.drain fuel).2.current_state = _ ∧
        (s.getReading.2.drain fuel).2.debounce_count = _ ∧
        (s.getReading.2.drain fuel).2.num_rows = _ ∧
        (s.getReading.2.drain fuel).2.num_cols = _ ∧
        (s.getReading.2.drain fuel).2.debounce_threshold = _
      rw [i1, i2, i3, i4, i5, i6, g3, g6]
      exact ⟨rfl, rfl, rfl, rfl, rfl, rfl⟩

/-- The events of one scan: their indices are pairwise different, each names an in-range
cell, carries the debounced state that the scan gives the cell, and differs from what was
last reported for the cell. -/
theorem MatrixSensor.events_facts (s : MatrixSensor) (raw : Nat → Nat → Bool)
    (h : s.WellFormed) :
    ((s.cellEvents raw s.cellList).map PendingEvent.button_index).Nodup ∧
    ∀ e ∈ s.cellEvents raw s.cellList,
      (∃ rc ∈ s.cellList, s.cellEvent rc.1 rc.2 (raw rc.1 rc.2) = some e ∧
        e.button_index = s.buttonIndex rc.1 rc.2) ∧
      e.button_index < 64 ∧
      e.pressed ≠ s.last_reported e.button_index ∧
      e.pressed = (s.scan raw).current_state e.button_index := by
  obtain ⟨h1, h2, _, h4, _⟩ := (MatrixSensor.wellFormed_def s).1 h
  obtain ⟨_, _, _, _, i5, _, _⟩ := MatrixSensor.scan_spec s raw h4 h1 h2
  constructor
  · apply List.Nodup.sublist _ (MatrixSensor.cellList_index_nodup s h1 h2)
    unfold MatrixSensor.cellEvents
    apply filterMap_map_sublist
    intro x _ e he
    exact (MatrixSensor.cellEvent_some s x.1 x.2 _ e he).1
  · intro e he
    unfold MatrixSensor.cellEvents at he
    obtain ⟨rc, hrc, hev⟩ := List.mem_filterMap.1 he
    obtain ⟨hr, hc⟩ := (MatrixSensor.mem_cellList s rc).1 hrc
    obtain ⟨c1, c2, c3⟩ := MatrixSensor.cellEvent_some s rc.1 rc.2 _ e hev
    obtain ⟨_, e2⟩ := MatrixSensor.buttonIndex_eq s rc.1 rc.2 hr hc h1 h2
    have e1 := (MatrixSensor.buttonIndex_eq s rc.1 rc.2 hr hc h1 h2).1
    refine ⟨⟨rc, hrc, hev, c1⟩, by rw [c1, e1]; exact e2, by rw [c1]; exact c3, ?_⟩
    rw [c1, (i5 rc.1 rc.2 hr hc).1]
    exact c2

/-- One round of the driver loop from an empty queue: the readings forwarded are those of
the entries `q` that the scan left in the queue (all events of the scan when they are at
most 7), each entry is written to `last_reported`, and the round ends on an empty queue. -/
theorem MatrixSensor.tick_spec (s : MatrixSensor) (raw : Nat → Nat → Bool) (fuel : Nat)
    (h : s.WellFormed) (hq : s.queueContents = []) (hf : 8 ≤ fuel) :
    ∃ q : List PendingEvent,
      q.Sublist (s.cellEvents raw s.cellList) ∧
      ((s.cellEvents raw s.cellList).length ≤ 7 → q = s.cellEvents raw s.cellList) ∧
      (s.tick raw fuel).1 = q.map MatrixSensor.eventReading ∧
      (s.tick raw fuel).2.last_reported = MatrixSensor.reportAll s.last_reported q ∧
      (s.tick raw fuel).2.current_state = (s.scan raw).current_state ∧
      (s.tick raw fuel).2.num_rows = s.num_rows ∧
      (s.tick raw fuel).2.num_cols = s.num_cols ∧
      (s.tick raw fuel).2.WellFormed ∧
      (s.tick raw fuel).2.queueContents = [] := by
  obtain ⟨h1, h2, h3, h4, _⟩ := (MatrixSensor.wellFormed_def s).1 h
  obtain ⟨i1, i2, i3, i4, _, i6, i7⟩ := MatrixSensor.scan_spec s raw h4 h1 h2
  have hcount : (s.scan raw).queueCount < fuel := by
    have := MatrixSensor.queueCount_le (s.scan raw)
    omega
  obtain ⟨d1, d2, d3, _⟩ := MatrixSensor.drain_spec fuel (s.scan raw) i6 hcount
  obtain ⟨k1, k2, _, k4, k5, k6⟩ := MatrixSensor.drain_fields fuel (s.scan raw) i6 hcount
  have hcont : (s.scan raw).queueContents
      = (s.cellEvents raw s.cellList).drop ((s.cellEvents raw s.cellList).length - 7) := by
    rw [i7, hq, MatrixSensor.foldl_push _ [] (by simp)]
    simp
  refine ⟨(s.scan raw).queueContents, ?_, ?_, d1, ?_, k2, k4.trans i1, k5.trans i2, ?_, d2⟩
  · rw [hcont]
    exact List.drop_sublist _ _
  · intro hle
    rw [hcont]
    have h0 : (s.cellEvents raw s.cellList).length - 7 = 0 := by omega
    rw [h0]
    rfl
  · show ((s.scan raw).drain fuel).2.last_reported = _
    rw [k1, i4]
  · refine (MatrixSensor.wellFormed_def _).2 ⟨?_, ?_, ?_, d3, ?_⟩
    · show ((s.scan raw).drain fuel).2.num_rows ≤ 8
      rw [k4, i1]; exact h1
    · show ((s.scan raw).drain fuel).2.num_cols ≤ 8
      rw [k5, i2]; exact h2
    · show ((s.scan raw).drain fuel).2.debounce_threshold = 3
      rw [k6, i3]; exact h3
    · intro e he
      have he2 : e ∈ ((s.scan raw).drain fuel).2.queueContents := he
      rw [d2] at he2
      cases he2

/-- One round of the driver loop, seen from one cell index `i`: either no reading for the pin
`128 + i` is forwarded and `last_reported[i]` stays, or exactly one reading is forwarded,
its value differs from `last_reported[i]` before the round and is `last_reported[i]`
after it. -/
theorem MatrixSensor.tick_pin (s : MatrixSensor) (raw : Nat → Nat → Bool) (fuel i : Nat)
    (h : s.WellFormed) (hq : s.queueContents = []) (hf : 8 ≤ fuel) :
    ((s.tick raw fuel).1.filter (fun r => r.pin == 128 + i) = [] ∧
      (s.tick raw fuel).2.last_reported i = s.last_reported i) ∨
    (∃ v : Bool, v ≠ s.last_reported i ∧
      (s.tick raw fuel).1.filter (fun r => r.pin == 128 + i)
        = [Reading.event (if v then 1 else 0) InputType.Matrix (128 + i)] ∧
      (s.tick raw fuel).2.last_reported i = v) := by
  obtain ⟨q, q1, _, q3, q4, _⟩ := MatrixSensor.tick_spec s raw fuel h hq hf
  obtain ⟨e1, e2⟩ := MatrixSensor.events_facts s raw h
  have hnd : (q.map PendingEvent.button_index).Nodup := e1.sublist (q1.map _)
  have hfil : (s.tick raw fuel).1.filter (fun r => r.pin == 128 + i)
      = (q.filter (fun e => e.button_index == i)).map MatrixSensor.eventReading := by
    rw [q3, List.filter_map]
    congr 1
    apply List.filter_congr
    intro e he
    have hlt := (e2 e (q1.subset he)).2.1
    show ((128 + e.button_index) % 256 == 128 + i) = (e.button_index == i)
    rw [Nat.mod_eq_of_lt (by omega)]
    by_cases hei : e.button_index = i
    · simp [hei]
    · have : ¬ 128 + e.button_index = 128 + i := by omega
      simp [hei, this]
  rcases MatrixSensor.filter_index q i hnd with ⟨f1, f2⟩ | ⟨e, he, hei, f1⟩
  · left
    rw [hfil, f1, q4, MatrixSensor.reportAll_not_mem q i _ f2]
    exact ⟨rfl, rfl⟩
  · right
    obtain ⟨_, hlt, hne, _⟩ := e2 e (q1.subset he)
    refine ⟨e.pressed, by rw [← hei]; exact hne, ?_, ?_⟩
    · rw [hfil, f1]
      show [Reading.event (if e.pressed then 1 else 0) InputType.Matrix
        ((128 + e.button_index) % 256)] = _
      rw [Nat.mod_eq_of_lt (by omega), hei]
    · rw [q4, ← hei]
      exact MatrixSensor.reportAll_mem q e _ hnd he

/-- The driver loop keeps the object well formed and ends every round on an empty queue. -/
theorem MatrixSensor.runTicks_wellFormed (fuel : Nat) (hf : 8 ≤ fuel)
    (raws : List (Nat → Nat → Bool)) :
    ∀ s : MatrixSensor, s.WellFormed → s.queueContents = [] →
      (s.runTicks fuel raws).2.WellFormed ∧ (s.runTicks fuel raws).2.queueContents = [] ∧
      (s.runTicks fuel raws).2.num_rows = s.num_rows ∧
      (s.runTicks fuel raws).2.num_cols = s.num_cols := by
  induction raws with
  | nil => intro s h hq; exact ⟨h, hq, rfl, rfl⟩
  | cons raw raws ih =>
    intro s h hq
    obtain ⟨q, _, _, _, _, _, q6, q7, q8, q9⟩ := MatrixSensor.tick_spec s raw fuel h hq hf
    obtain ⟨a1, a2, a3, a4⟩ := ih (s.tick raw fuel).2 q8 q9
    exact ⟨a1, a2, a3.trans q6, a4.trans q7⟩

/-- Every reading that the driver loop forwards is a press or a release of the matrix with
a pin in 128..191. -/
theorem MatrixSensor.runTicks_readings (fuel : Nat) (hf : 8 ≤ fuel)
    (raws : List (Nat → Nat → Bool)) :
    ∀ s : MatrixSensor, s.WellFormed → s.queueContents = [] →
      ∀ r ∈ (s.runTicks fuel raws).1,
        r.has_value = true ∧ (r.value = 0 ∨ r.value = 1) ∧ r.type = InputType.Matrix ∧
        128 ≤ r.pin ∧ r.pin < 192 := by
  induction raws with
  | nil => intro s _ _ r hr; cases hr
  | cons raw raws ih =>
    intro s h hq r hr
    obtain ⟨q, q1, _, q3, _, _, _, _, q8, q9⟩ := MatrixSensor.tick_spec s raw fuel h hq hf
    have hr2 : r ∈ (s.tick raw fuel).1 ++ ((s.tick raw fuel).2.runTicks fuel raws).1 := hr
    rcases List.mem_append.1 hr2 with hr3 | hr3
    · rw [q3] at hr3
      obtain ⟨e, he, hre⟩ := List.mem_map.1 hr3
      have hlt := ((MatrixSensor.events_facts s raw h).2 e (q1.subset he)).2.1
      rw [← hre]
      refine ⟨rfl, ?_, rfl, ?_, ?_⟩
      · show (if e.pressed then (1 : Int) else 0) = 0 ∨ (if e.pressed then (1 : Int) else 0) = 1
        cases e.pressed
        · exact Or.inl rfl
        · exact Or.inr rfl
      · show 128 ≤ (128 + e.button_index) % 256
        rw [Nat.mod_eq_of_lt (by omega)]
        omega
      · show (128 + e.button_index) % 256 < 192
        rw [Nat.mod_eq_of_lt (by omega)]
        omega
    · exact ih _ q8 q9 r hr3

/-- The readings that the driver loop forwards for the pin `128 + i` alternate in value,
starting opposite to `last_reported[i]` of the state in which the loop starts. -/
theorem MatrixSensor.runTicks_chain (fuel i : Nat) (hf : 8 ≤ fuel)
    (raws : List (Nat → Nat → Bool)) :
    ∀ s : MatrixSensor, s.WellFormed → s.queueContents = [] →
      List.Chain Reading.opposite
        (Reading.event (if s.last_reported i then 1 else 0) InputType.Matrix (128 + i))
        ((s.runTicks fuel raws).1.filter (fun r => r.pin == 128 + i)) := by
  induction raws with
  | nil => intro s _ _; exact List.Chain.nil
  | cons raw raws ih =>
    intro s h hq
    obtain ⟨q, _, _, _, _, _, _, _, q8, q9⟩ := MatrixSensor.tick_spec s raw fuel h hq hf
    have hstep : (s.runTicks fuel (raw :: raws)).1
        = (s.tick raw fuel).1 ++ ((s.tick raw fuel).2.runTicks fuel raws).1 := rfl
    rw [hstep, List.filter_append]
    have ih2 := ih _ q8 q9
    rcases MatrixSensor.tick_pin s raw fuel i h hq hf with ⟨a1, a2⟩ | ⟨v, b1, b2, b3⟩
    · rw [a1, List.nil_append, ← a2]
      exact ih2
    · rw [b2, List.singleton_append]
      rw [b3] at ih2
      refine List.Chain.cons ?_ ih2
      show (if s.last_reported i then (1 : Int) else 0) ≠ (if v then (1 : Int) else 0)
      cases hv : v <;> cases hl : s.last_reported i <;> simp_all

/-- C26: under the driver pattern (after every `scan()` the driver calls `getReading()`
until it returns empty; the loop is given room for 8 or more readings and always ends on an
empty queue), for a `MatrixSensor` of any (clamped) dimensions after `begin()` and every
sequence of matrix inputs, also those whose scans overflow the queue: the readings forwarded
for any one pin alternate in value and the first of them is a press (value 1); every
forwarded reading is non-empty with value 0 or 1. -/
theorem matrix_driver_readings_alternate (mem : MatrixSensor) (rows cols : Nat)
    (row_pin_array col_pin_array : Nat → Nat) (raws : List (Nat → Nat → Bool))
    (fuel pin : Nat) (hf : 8 ≤ fuel) :
    (let s0 := (MatrixSensor.construct mem rows cols row_pin_array col_pin_array).begin
     let delivered := (s0.runTicks fuel raws).1.filter (fun r => r.pin == pin)
     List.Chain' Reading.opposite delivered ∧
     (∀ r, delivered.head? = some r → r.value = 1) ∧
     (∀ r ∈ (s0.runTicks fuel raws).1, r.has_value = true ∧ (r.value = 0 ∨ r.value = 1)) ∧
     (s0.runTicks fuel raws).2.isQueueEmpty = true) := by
  intro s0 delivered
  have hw : s0.WellFormed :=
    MatrixSensor.wellFormed_begin _
      (MatrixSensor.wellFormed_construct mem rows cols row_pin_array col_pin_array)
  have hq : s0.queueContents = [] := MatrixSensor.queueContents_of_empty _ rfl
  have hvals := MatrixSensor.runTicks_readings fuel hf raws s0 hw hq
  obtain ⟨w1, w2, _, _⟩ := MatrixSensor.runTicks_wellFormed fuel hf raws s0 hw hq
  have hempty : (s0.runTicks fuel raws).2.isQueueEmpty = true :=
    (MatrixSensor.queueContents_eq_nil_iff _ w1.2.2.2.1).1 w2
  have hall : ∀ r ∈ (s0.runTicks fuel raws).1, r.has_value = true ∧ (r.value = 0 ∨ r.value = 1) :=
    fun r hr => ⟨(hvals r hr).1, (hvals r hr).2.1⟩
  by_cases hp : 128 ≤ pin
  · have hc := MatrixSensor.runTicks_chain fuel (pin - 128) hf raws s0 hw hq
    have hpin : 128 + (pin - 128) = pin := by omega
    rw [hpin] at hc
    have hc2 : List.Chain Reading.opposite (Reading.event 0 InputType.Matrix pin) delivered := hc
    refine ⟨?_, ?_, hall, hempty⟩
    · cases hd : delivered with
      | nil => exact List.chain'_nil
      | cons r rs =>
        rw [hd] at hc2
        exact (List.chain_cons.1 hc2).2
    · intro r hr
      cases hd : delivered with
      | nil => rw [hd] at hr; cases hr
      | cons r0 rs =>
        rw [hd] at hr hc2
        have e : r0 = r := Option.some.inj hr
        subst e
        have hne : (0 : Int) ≠ r0.value := (List.chain_cons.1 hc2).1
        have hmem : r0 ∈ delivered := by rw [hd]; exact List.mem_cons_self _ _
        rcases (hvals r0 (List.mem_filter.1 hmem).1).2.1 with hv | hv
        · exact absurd hv.symm hne
        · exact hv
  · have hnil : delivered = [] := by
      show (s0.runTicks fuel raws).1.filter (fun r => r.pin == pin) = []
      rw [List.filter_eq_nil_iff]
      intro r hr hrp
      have h1 := (hvals r hr).2.2.2.1
      have h2 : r.pin = pin := by simpa using hrp
      omega
    rw [hnil]
    exact ⟨List.chain'_nil, fun r hr => (by cases hr), hall, hempty⟩

/-- C26 on the 4x4 matrix with all 16 cells pressed, released and pressed again (each press
overflows the queue): the readings for pin 143 are press, release, press, and the cell of
pin 128, whose presses are evicted, delivers nothing. -/
theorem matrix_driver_readings_alternate_witness :
    List.Chain' Reading.opposite
      ((MatrixSensor.testMatrix4x4.begin.runTicks 8 MatrixSensor.overflowInputs).1.filter
        (fun r => r.pin == 143)) ∧
    ((MatrixSensor.testMatrix4x4.begin.runTicks 8 MatrixSensor.overflowInputs).1.filter
        (fun r => r.pin == 143)).map Reading.value = [1, 0, 1] ∧
    (MatrixSensor.testMatrix4x4.begin.runTicks 8 MatrixSensor.overflowInputs).1.filter
        (fun r => r.pin == 128) = [] := by
  have h := matrix_driver_readings_alternate MatrixSensor.zeroed 4 4
    (fun i => [2, 3, 4, 5].getD i 0) (fun i => [6, 7, 8, 9].getD i 0)
    MatrixSensor.overflowInputs 8 143 (by decide)
  exact ⟨h.1, by decide!, by decide!⟩

/-- Under `InSync` the events of a scan are exactly its accepted edges. -/
theorem MatrixSensor.events_length (s : MatrixSensor) (raw : Nat → Nat → Bool)
    (h : s.WellFormed) (hs : s.InSync) :
    (s.cellEvents raw s.cellList).length = s.acceptedEdges raw := by
  obtain ⟨h1, h2, _, h4, _⟩ := (MatrixSensor.wellFormed_def s).1 h
  obtain ⟨_, _, _, _, i5, _, _⟩ := MatrixSensor.scan_spec s raw h4 h1 h2
  unfold MatrixSensor.cellEvents MatrixSensor.acceptedEdges
  apply filterMap_length_eq
  intro x hx
  obtain ⟨hr, hc⟩ := (MatrixSensor.mem_cellList s x).1 hx
  have hcur := (i5 x.1 x.2 hr hc).1
  have hsync := hs x.1 x.2 hr hc
  cases hev : s.cellEvent x.1 x.2 (raw x.1 x.2) with
  | none =>
    have hb := MatrixSensor.cellEvent_none s x.1 x.2 _ hev
    rw [hsync, or_self] at hb
    have : (s.scan raw).current_state (s.buttonIndex x.1 x.2)
        = s.current_state (s.buttonIndex x.1 x.2) := hcur.trans hb
    simp [this]
  | some e =>
    obtain ⟨_, c2, c3⟩ := MatrixSensor.cellEvent_some s x.1 x.2 _ e hev
    have : (s.scan raw).current_state (s.buttonIndex x.1 x.2)
        ≠ s.current_state (s.buttonIndex x.1 x.2) := by
      rw [hcur, ← c2, ← hsync]
      exact c3
    simp [this]

/-- One round of the driver loop whose scan accepts at most 7 edges keeps every in-range
cell reported. -/
theorem MatrixSensor.tick_inSync (s : MatrixSensor) (raw : Nat → Nat → Bool) (fuel : Nat)
    (h : s.WellFormed) (hq : s.queueContents = []) (hf : 8 ≤ fuel) (hs : s.InSync)
    (hno : s.acceptedEdges raw ≤ 7) : (s.tick raw fuel).2.InSync := by
  obtain ⟨h1, h2, _, h4, _⟩ := (MatrixSensor.wellFormed_def s).1 h
  obtain ⟨_, _, _, _, i5, _, _⟩ := MatrixSensor.scan_spec s raw h4 h1 h2
  obtain ⟨q, _, q2, _, q4, q5, q6, q7, _, _⟩ := MatrixSensor.tick_spec s raw fuel h hq hf
  obtain ⟨e1, e2⟩ := MatrixSensor.events_facts s raw h
  have hqe : q = s.cellEvents raw s.cellList :=
    q2 (by rw [MatrixSensor.events_length s raw h hs]; exact hno)
  intro r c hr hc
  rw [q6] at hr
  rw [q7] at hc
  have hidx : (s.tick raw fuel).2.buttonIndex r c = s.buttonIndex r c := by
    simp [MatrixSensor.buttonIndex, q7]
  rw [hidx, q4, q5, hqe]
  have hcur := (i5 r c hr hc).1
  have hmem : ((r, c) : Nat × Nat) ∈ s.cellList := (MatrixSensor.mem_cellList s (r, c)).2 ⟨hr, hc⟩
  cases hev : s.cellEvent r c (raw r c) with
  | none =>
    have hnot : ∀ e ∈ s.cellEvents raw s.cellList, e.button_index ≠ s.buttonIndex r c := by
      intro e he hei
      obtain ⟨⟨rc, hrc, hsome, hrci⟩, _⟩ := e2 e he
      obtain ⟨hr2, hc2⟩ := (MatrixSensor.mem_cellList s rc).1 hrc
      have hsame : rc.1 = r ∧ rc.2 = c := by
        by_contra hne
        have hne2 : rc.1 ≠ r ∨ rc.2 ≠ c := by
          by_contra h3
          push_neg at h3
          exact hne h3
        exact MatrixSensor.buttonIndex_ne s rc.1 rc.2 r c hr2 hc2 hr hc h1 h2 hne2
          (hrci.symm.trans hei)
      rw [hsame.1, hsame.2, hev] at hsome
      cases hsome
    rw [MatrixSensor.reportAll_not_mem _ _ _ hnot, hcur]
    have hb := MatrixSensor.cellEvent_none s r c _ hev
    have hsync := hs r c hr hc
    rw [hsync, or_self] at hb
    rw [hb, hsync]
  | some e =>
    obtain ⟨c1, c2, _⟩ := MatrixSensor.cellEvent_some s r c _ e hev
    have he : e ∈ s.cellEvents raw s.cellList := by
      unfold MatrixSensor.cellEvents
      exact List.mem_filterMap.2 ⟨(r, c), hmem, hev⟩
    rw [← c1, MatrixSensor.reportAll_mem _ e _ e1 he, c1, hcur]
    exact c2

theorem MatrixSensor.noOverflow_prefix (fuel : Nat) (l1 l2 : List (Nat → Nat → Bool)) :
    ∀ s : MatrixSensor, s.noOverflow fuel (l1 ++ l2) = true → s.noOverflow fuel l1 = true := by
  induction l1 with
  | nil => intro s _; rfl
  | cons raw l1 ih =>
    intro s h
    have h2 : (decide (s.acceptedEdges raw ≤ 7) &&
        MatrixSensor.noOverflow (s.tick raw fuel).2 fuel (l1 ++ l2)) = true := h
    rw [Bool.and_eq_true] at h2
    show (decide (s.acceptedEdges raw ≤ 7) &&
        MatrixSensor.noOverflow (s.tick raw fuel).2 fuel l1) = true
    rw [Bool.and_eq_true]
    exact ⟨h2.1, ih _ h2.2⟩

/-- The driver loop without overflow keeps every in-range cell reported after every round. -/
theorem MatrixSensor.runTicks_inSync (fuel : Nat) (hf : 8 ≤ fuel)
    (raws : List (Nat → Nat → Bool)) :
    ∀ s : MatrixSensor, s.WellFormed → s.queueContents = [] → s.InSync →
      s.noOverflow fuel raws = true → (s.runTicks fuel raws).2.InSync := by
  induction raws with
  | nil => intro s _ _ hs _; exact hs
  | cons raw raws ih =>
    intro s h hq hs hno
    have h2 : (decide (s.acceptedEdges raw ≤ 7) &&
        MatrixSensor.noOverflow (s.tick raw fuel).2 fuel raws) = true := hno
    rw [Bool.and_eq_true] at h2
    obtain ⟨q, _, _, _, _, _, _, _, q8, q9⟩ := MatrixSensor.tick_spec s raw fuel h hq hf
    have hs2 := MatrixSensor.tick_inSync s raw fuel h hq hf hs (by simpa using h2.1)
    exact ih _ q8 q9 hs2 h2.2

/-- The last reading that the driver loop forwarded for the pin `128 + i` carries
`last_reported[i]` of the final state; when it forwarded none, `last_reported[i]` is as it
was at the start. -/
theorem MatrixSensor.runTicks_last (fuel i : Nat) (hf : 8 ≤ fuel)
    (raws : List (Nat → Nat → Bool)) :
    ∀ s : MatrixSensor, s.WellFormed → s.queueContents = [] →
      ((s.runTicks fuel raws).1.filter (fun r => r.pin == 128 + i) = [] →
        (s.runTicks fuel raws).2.last_reported i = s.last_reported i) ∧
      (∀ rd, ((s.runTicks fuel raws).1.filter (fun r => r.pin == 128 + i)).getLast? = some rd →
        rd.value = if (s.runTicks fuel raws).2.last_reported i then 1 else 0) := by
  induction raws with
  | nil =>
    intro s _ _
    exact ⟨fun _ => rfl, fun rd hrd => by cases hrd⟩
  | cons raw raws ih =>
    intro s h hq
    obtain ⟨q, _, _, _, _, _, _, _, q8, q9⟩ := MatrixSensor.tick_spec s raw fuel h hq hf
    have hstep : (s.runTicks fuel (raw :: raws)).1
        = (s.tick raw fuel).1 ++ ((s.tick raw fuel).2.runTicks fuel raws).1 := rfl
    have hfin : (s.runTicks fuel (raw :: raws)).2 = ((s.tick raw fuel).2.runTicks fuel raws).2 :=
      rfl
    rw [hstep, hfin, List.filter_append]
    obtain ⟨ih1, ih2⟩ := ih _ q8 q9
    rcases MatrixSensor.tick_pin s raw fuel i h hq hf with ⟨a1, a2⟩ | ⟨v, _, b2, b3⟩
    · rw [a1, List.nil_append, ← a2]
      exact ⟨ih1, ih2⟩
    · rw [b2]
      constructor
      · intro hnil
        cases hnil
      · intro rd hrd
        cases hrest : ((s.tick raw fuel).2.runTicks fuel raws).1.filter
            (fun r => r.pin == 128 + i) with
        | nil =>
          rw [hrest] at hrd
          have hrd2 : some (Reading.event (if v then 1 else 0) InputType.Matrix (128 + i))
              = some rd := hrd
          rw [← Option.some.inj hrd2, ih1 hrest, b3]
          rfl
        | cons x xs =>
          apply ih2 rd
          rw [hrest] at hrd ⊢
          rw [List.getLast?_append] at hrd
          rw [List.getLast?_cons] at hrd ⊢
          simpa using hrd

/-- C27: under the driver pattern (after every `scan()` the driver calls `getReading()`
until it returns empty) with no scan accepting more than 7 edges, for a `MatrixSensor` of
any (clamped) dimensions after `begin()`: after each round every in-range cell has
`last_reported` equal to its debounced state, the last reading forwarded for the pin of the
cell carries that debounced state (1 for pressed, 0 for released), and a cell for which
nothing was forwarded is still released. -/
theorem matrix_in_sync_without_overflow (mem : MatrixSensor) (rows cols : Nat)
    (row_pin_array col_pin_array : Nat → Nat) (raws : List (Nat → Nat → Bool)) (fuel : Nat)
    (hf : 8 ≤ fuel)
    (hno : (MatrixSensor.construct mem rows cols row_pin_array col_pin_array).begin.noOverflow
      fuel raws = true) :
    (let s0 := (MatrixSensor.construct mem rows cols row_pin_array col_pin_array).begin
     ∀ pre post : List (Nat → Nat → Bool), raws = pre ++ post →
       ∀ r c, r < s0.num_rows → c < s0.num_cols →
         (s0.runTicks fuel pre).2.last_reported (s0.buttonIndex r c)
           = (s0.runTicks fuel pre).2.current_state (s0.buttonIndex r c) ∧
         (∀ rd, ((s0.runTicks fuel pre).1.filter
             (fun x => x.pin == 128 + (r * s0.num_cols + c))).getLast? = some rd →
           rd.value = if (s0.runTicks fuel pre).2.current_state (s0.buttonIndex r c)
             then 1 else 0) ∧
         ((s0.runTicks fuel pre).1.filter
             (fun x => x.pin == 128 + (r * s0.num_cols + c)) = [] →
           (s0.runTicks fuel pre).2.current_state (s0.buttonIndex r c) = false)) := by
  intro s0 pre post hraws r c hr hc
  have hw : s0.WellFormed :=
    MatrixSensor.wellFormed_begin _
      (MatrixSensor.wellFormed_construct mem rows cols row_pin_array col_pin_array)
  have hq : s0.queueContents = [] := MatrixSensor.queueContents_of_empty _ rfl
  have hs0 : s0.InSync := fun _ _ _ _ => rfl
  have hno2 : s0.noOverflow fuel pre = true := by
    apply MatrixSensor.noOverflow_prefix fuel pre post
    rw [← hraws]
    exact hno
  have hsync := MatrixSensor.runTicks_inSync fuel hf pre s0 hw hq hs0 hno2
  obtain ⟨_, _, w3, w4⟩ := MatrixSensor.runTicks_wellFormed fuel hf pre s0 hw hq
  have hidx : (s0.runTicks fuel pre).2.buttonIndex r c = s0.buttonIndex r c := by
    simp [MatrixSensor.buttonIndex, w4]
  have hlast := hsync r c (by rw [w3]; exact hr) (by rw [w4]; exact hc)
  rw [hidx] at hlast
  obtain ⟨l1, l2⟩ := MatrixSensor.runTicks_last fuel (s0.buttonIndex r c) hf pre s0 hw hq
  have hi := (MatrixSensor.buttonIndex_eq s0 r c hr hc hw.1 hw.2.1).1
  rw [hi] at l1 l2 hlast
  rw [hi]
  refine ⟨hlast, ?_, ?_⟩
  · intro rd hrd
    rw [← hlast]
    exact l2 rd hrd
  · intro hnil
    rw [← hlast, l1 hnil]
    rfl

/-- C27 on the 3x4 test matrix with the cells (0,0) and (1,1) pressed and released, read
after every scan: cell (1,1) ends reported, and the last reading for its pin 133 is the
release. -/
theorem matrix_in_sync_without_overflow_witness :
    MatrixSensor.testMatrix.begin.noOverflow 8 MatrixSensor.twoCellInputs = true ∧
    (MatrixSensor.testMatrix.begin.runTicks 8 MatrixSensor.twoCellInputs).2.last_reported 5
      = (MatrixSensor.testMatrix.begin.runTicks 8 MatrixSensor.twoCellInputs).2.current_state 5 ∧
    ((MatrixSensor.testMatrix.begin.runTicks 8 MatrixSensor.twoCellInputs).1.filter
      (fun x => x.pin == 133)).map Reading.value = [1, 0] := by
  have h := matrix_in_sync_without_overflow MatrixSensor.zeroed 3 4
    (fun i => [2, 3, 4].getD i 0) (fun i => [5, 6, 7, 8].getD i 0)
    MatrixSensor.twoCellInputs 8 (by decide) (by decide!)
    MatrixSensor.twoCellInputs [] (List.append_nil _).symm 1 1 (by decide) (by decide)
  exact ⟨by decide!, h.1, by decide!⟩

end Sensor
